import Mathlib

/-!
Embroidery popup: selection state machine, guarded commit overlay, commit transaction.

A shallow embedding of `assets/embroidery-popup.js`.  The page is a record of the
elements the script reads and writes; an element the script looks up with a null
check is an `Option`.  Every function of the script is a function on that record,
following the source statement by statement.

Strings are sequences of Unicode code points.  Numbers read with `parseFloat`
(the fees) are not computed with: a fee is the record of the three observations the
script makes of it.  Layout (`getComputedStyle`, `getBoundingClientRect`) is a field
of the page that the script only reads.
-/

namespace EmbroideryPopup

/-! ## Strings -/

/-- Code points removed by `String.prototype.trim` and matched by `\s`
(white space and line terminators of ECMAScript). -/
def isJsSpace (c : Char) : Bool :=
  let n := c.toNat
  n == 0x09 || n == 0x0A || n == 0x0B || n == 0x0C || n == 0x0D || n == 0x20 ||
  n == 0xA0 || n == 0x1680 || (0x2000 ≤ n && n ≤ 0x200A) || n == 0x2028 ||
  n == 0x2029 || n == 0x202F || n == 0x205F || n == 0x3000 || n == 0xFEFF

/-- Drop leading and trailing white space of a list of code points. -/
def trimChars (cs : List Char) : List Char :=
  ((cs.dropWhile isJsSpace).reverse.dropWhile isJsSpace).reverse

/-- The method `String.prototype.trim`. -/
def jsTrim (s : String) : String := String.mk (trimChars s.data)

/-- Truthiness of a string: every string but the empty one. -/
def truthy (s : String) : Bool := s != ""

/-- The expression `a || b` on strings. -/
def orElse (a b : String) : String := if truthy a then a else b

/-- The test `text.includes(pat)` on code points. -/
def includesChars (pat : List Char) : List Char → Bool
  | [] => pat.isEmpty
  | c :: cs => pat.isPrefixOf (c :: cs) || includesChars pat cs

/-- The test `val.includes('://')`. -/
def includesScheme (s : String) : Bool := includesChars [':', '/', '/'] s.data

/-- The expression `val.split('/').pop()`: what follows the last slash. -/
def lastSegment (s : String) : String :=
  String.mk ((s.data.reverse.takeWhile (fun c => c != '/')).reverse)

/-- Replace each run of white space by one dash: `replace(/\s+/g, '-')`.  The flag
says that the previous code point was white space. -/
def dashRuns : Bool → List Char → List Char
  | _, [] => []
  | inRun, c :: cs =>
    if isJsSpace c then
      (if inRun then dashRuns true cs else '-' :: dashRuns true cs)
    else c :: dashRuns false cs

/-- The expression `placement.toLowerCase().replace(/\s+/g, '-')`.  Lower-casing is
that of the ASCII letters; no other code point lower-cases to a string of ASCII
letters that occurs in one of the four zone names. -/
def normalizePlacement (s : String) : String :=
  String.mk (dashRuns false (s.data.map Char.toLower))

/-! ## Page elements -/

/-- A radio button: its `value` and whether it is checked. -/
structure Radio where
  value : String
  checked : Bool
deriving DecidableEq, Repr

/-- A file chosen in the native file input. -/
structure File where
  name : String
  mime : String
  size : Nat
  dataUrl : String
deriving DecidableEq, Repr

/-- The native file input `#logoFile`: `files[0]`, `disabled`, `required`. -/
structure FileInput where
  file : Option File
  disabled : Bool
  required : Bool
deriving DecidableEq, Repr

/-- The text overlay `#embroideryPreview`. -/
structure PreviewEl where
  display : String
  textContent : String
  top : String
  zoneLeft : Bool
  zoneCenter : Bool
  zoneRight : Bool
  color : String
  fontFamily : String
deriving DecidableEq, Repr

/-- The image overlay `#logoPreview`. -/
structure LogoPreview where
  display : String
  src : String
  top : String
  zoneLeft : Bool
  zoneCenter : Bool
  zoneRight : Bool
deriving DecidableEq, Repr

/-- The element `.so-subhead`. -/
structure Subhead where
  display : String
  innerHTML : String
deriving DecidableEq, Repr

/-- Inline style of one of the three type pills. -/
structure PillStyle where
  border : String
  background : String
  color : String
deriving DecidableEq, Repr

/-- The overlay button `#applyGuard`: `style.display` and its box. -/
structure Guard where
  display : String
  left : String
  top : String
  width : String
  height : String
deriving DecidableEq, Repr

/-- What `positionGuard` computes from the two bounding boxes. -/
structure Geometry where
  left : String
  top : String
  width : String
  height : String
deriving DecidableEq, Repr

/-- The wrapper `terms.closest('.so-terms')`: its two classes. -/
structure TermsWrap where
  isError : Bool
  isShake : Bool
deriving DecidableEq, Repr

/-- A fee read with `parseFloat` from the data attributes, as the script observes
it: `Math.round(fee * 100)`, a whole finite `Number`, the string that
`el.value = fee || ''` stores, and `fee.toFixed(2)`. -/
structure Fee where
  cents : Int
  text : String
  fixed : String
deriving DecidableEq, Repr

/-- The literal `0` that `price` starts from. -/
def Fee.zero : Fee := ⟨0, "", "0.00"⟩

/-- Configuration read once when the script starts: the three fees of
`.so-right`, the price formatter `Shopify.formatMoney` when the host defines it, and
the base price of `#baseProductPrice`, the whole finite `Number` that `parseInt`
returns (`none` when the element is missing or its attribute is not a number). -/
structure Config where
  nameFee : Fee
  logoFee : Fee
  bothFee : Fee
  formatMoney : Option (Int → String)
  basePrice : Option Int

/-- Text and visibility of the summary block `#customSummary`; each element is
looked up by id and may be missing. -/
structure Summary where
  summaryType : Option String
  summaryTitle : Option String
  summaryName : Option String
  summaryPlacementName : Option String
  summaryFont : Option String
  summaryColorName : Option String
  summaryFileName : Option String
  summaryPlacementLogo : Option String
  summaryPlacement : Option String
  summaryColor : Option String
  liTitle : Option String
  liName : Option String
  liFile : Option String
  liFont : Option String
  embroideryPrice : Option String
  totalPrice : Option String
  customSummary : Option String
deriving DecidableEq, Repr

/-- Values of the hidden inputs that `H` writes, by id. -/
structure Carriers where
  embTypeInput : Option String
  placementInput : Option String
  fontInput : Option String
  placementNameInput : Option String
  placementLogoInput : Option String
  colorNameInput : Option String
  titleInput : Option String
  nameInput : Option String
  colorInput : Option String
  logoFileInput : Option String
  logoUrlInput : Option String
  feeInput : Option String
deriving DecidableEq, Repr

/-- An input of a form: `name` and `value`. -/
structure FormInput where
  name : String
  value : String
deriving DecidableEq, Repr

/-- A form whose action contains `/cart/add`: its inputs in document order. -/
structure Form where
  inputs : List FormInput
deriving DecidableEq, Repr

/-- The button `#openCustomization`: text of its `.btn-label` and `style.display`. -/
structure OpenBtn where
  label : Option String
  display : String
deriving DecidableEq, Repr

/-- The `detail` of the event `so:embroidery:apply`. -/
structure ApplyDetail where
  type : String
  placement : String
  font : String
  colour : String
  title : String
  name : String
  fileName : String
  fileUrl : String
  price : Fee
  placementName : String
  placementLogo : String
  colourName : String
  fontName : String
deriving DecidableEq, Repr

/-- The page as the script sees it. -/
structure State where
  /-- The radios `input[name="emb_type"]`, in document order. -/
  typeRadios : List Radio
  /-- The variable `currentType`. -/
  currentType : String
  /-- The consent checkbox `#so-terms`: its `checked`. -/
  terms : Option Bool
  /-- Value of `#titleLine`. -/
  titleInput : Option String
  /-- Value of `#nameLine2`. -/
  nameInput : Option String
  placementNameRadios : List Radio
  colorNameRadios : List Radio
  fontNameRadios : List Radio
  placementLogoRadios : List Radio
  /-- The variable `fileInput`. -/
  fileInput : Option FileInput
  /-- Values of the hidden inputs of `#uploadery-container`. -/
  uploaderyContainer : Option (List String)
  /-- Values of the hidden inputs of `#uploadery-hidden-container`. -/
  uploaderyHiddenContainer : Option (List String)
  /-- Whether `#uploadery-container` has an element child that holds no hidden
  input, such as the button of the upload widget. -/
  uploaderyOther : Bool
  /-- The same for `#uploadery-hidden-container`. -/
  uploaderyHiddenOther : Bool
  /-- The intervals started by `initUploaderyField` that are still running. -/
  polls : Nat
  previewEl : Option PreviewEl
  logoPreview : Option LogoPreview
  /-- Files handed to `FileReader.readAsDataURL` whose `onload` has not run. -/
  pendingReads : List File
  /-- Inline `display` of `#nameCustomForm`. -/
  nameFormDisplay : Option String
  /-- Inline `display` of `#logoCustomForm`. -/
  logoFormDisplay : Option String
  /-- Inline `display` of `#bothFormSeparator`. -/
  bothSepDisplay : Option String
  subhead : Option Subhead
  /-- Inline `display` of `termsContainer`, the first `.so-terms` of the popup. -/
  termsContainerDisplay : Option String
  /-- Inline `display` of `.so-actions`. -/
  actionsDisplay : String
  /-- The property `btnAdd.disabled`. -/
  btnAddDisabled : Bool
  guard : Guard
  /-- What the browser reports to `positionGuard` when the inline styles of the
  popup and of `.so-actions` do not hide them: `none` when one of the three
  elements is not visible, else the box of the Add button relative to
  `.so-actions`. -/
  layout : Option Geometry
  termsWrap : Option TermsWrap
  /-- Inline `display` of `#so-terms-error`. -/
  termsError : Option String
  /-- Whether the script has called `terms.focus()`: the browser then gives the
  consent checkbox the focus. -/
  focusOnTerms : Bool
  /-- Text of the label before `.emb-type-pills`. -/
  typeLabel : Option String
  nameLabel : Option PillStyle
  logoLabel : Option PillStyle
  bothLabel : Option PillStyle
  summary : Summary
  carriers : Carriers
  forms : List Form
  /-- The `so:embroidery:apply` events dispatched so far, oldest first. -/
  events : List ApplyDetail
  /-- Inline `display` of the popup `#customPopup`. -/
  rootDisplay : String
  openBtn : Option OpenBtn
deriving DecidableEq, Repr

/-! ## Reading the page -/

/-- The function `getSelected`: value of the first checked radio of a group. -/
def getSelected (radios : List Radio) : String :=
  match radios.find? (fun r => r.checked) with
  | some r => r.value
  | none => ""

/-- The function `getType`: value of the first checked type radio. -/
def getType (s : State) : String := getSelected s.typeRadios

/-- The expression `terms && terms.checked`, as a truth value. -/
def termsChecked (s : State) : Bool := s.terms == some true

/-- Hidden-input values of a container that may be missing. -/
def containerValues : Option (List String) → List String
  | none => []
  | some vs => vs

/-- Hidden-input values of the visible container, then of the holding one. -/
def uploaderyValues (s : State) : List String :=
  containerValues s.uploaderyContainer ++ containerValues s.uploaderyHiddenContainer

/-- The function `hasUploaderyLogo`: some hidden input has a value that is not
empty once trimmed. -/
def hasUploaderyLogo (s : State) : Bool :=
  (uploaderyValues s).any (fun v => truthy (jsTrim v))

/-- The result of `getUploaderyFileDetails`. -/
structure FileDetails where
  fileName : String
  fileUrl : String
deriving DecidableEq, Repr

/-- One turn of the loop of `getUploaderyFileDetails`. -/
def detailsStep (d : FileDetails) (raw : String) : FileDetails :=
  let val := jsTrim raw
  if !truthy val then d
  else
    let d1 : FileDetails :=
      if !truthy d.fileName then { d with fileName := lastSegment val } else d
    if !truthy d1.fileUrl && includesScheme val then { d1 with fileUrl := val } else d1

/-- The function `getUploaderyFileDetails`. -/
def getUploaderyFileDetails (s : State) : FileDetails :=
  let d := (uploaderyValues s).foldl detailsStep ⟨"", ""⟩
  if truthy d.fileUrl && !truthy d.fileName then
    { d with fileName := lastSegment d.fileUrl }
  else d

/-- The file `fileInput && fileInput.files && fileInput.files[0]`. -/
def localFile (s : State) : Option File := s.fileInput.bind (fun f => f.file)

/-- The test `!!(nameInput && nameInput.value.trim())`. -/
def hasName (s : State) : Bool :=
  match s.nameInput with
  | some v => truthy (jsTrim v)
  | none => false

/-- The test `!!(titleInput && titleInput.value.trim())`. -/
def hasTitle (s : State) : Bool :=
  match s.titleInput with
  | some v => truthy (jsTrim v)
  | none => false

/-- The truth value of the variable `valid` that `updateAddState` computes. -/
def validity (s : State) : Bool :=
  let type := getType s
  let valid := truthy type && termsChecked s
  if valid && type == "name" then hasName s || hasTitle s
  else if valid && type == "logo" then hasUploaderyLogo s
  else if valid && type == "both" then (hasName s || hasTitle s) && hasUploaderyLogo s
  else valid

/-! ## Previews -/

/-- The three placement zones of the preview. -/
inductive Zone where
  | leftChest
  | center
  | rightChest
deriving DecidableEq, Repr

/-- The `switch (normalized)` of the preview functions. -/
def zoneOf (normalized : String) : Zone :=
  if normalized == "left-chest" then Zone.leftChest
  else if normalized == "center" || normalized == "centre" then Zone.center
  else if normalized == "right-chest" then Zone.rightChest
  else Zone.center

/-- Placement classes of the logo image: the three are removed, then, when a
placement is selected, the class of its zone is added. -/
def placeLogo (placement : String) (lp : LogoPreview) : LogoPreview :=
  let cleared := { lp with zoneLeft := false, zoneCenter := false, zoneRight := false }
  if truthy placement then
    match zoneOf (normalizePlacement placement) with
    | Zone.leftChest => { cleared with zoneLeft := true }
    | Zone.center => { cleared with zoneCenter := true }
    | Zone.rightChest => { cleared with zoneRight := true }
  else cleared

/-- The function `updateLogoPreview`.  With a native file selected the function
only starts an asynchronous read; the image changes in `readerOnload`. -/
def updateLogoPreview (s : State) : State :=
  match s.logoPreview with
  | none => s
  | some lp =>
    let type := getType s
    if type != "logo" && type != "both" then
      { s with logoPreview := some { lp with display := "none", src := "" } }
    else
      match localFile s with
      | none =>
        let details := getUploaderyFileDetails s
        if truthy details.fileUrl then
          let lp1 := placeLogo (getSelected s.placementLogoRadios)
            { lp with src := details.fileUrl }
          let lp2 := { lp1 with top := (if type == "both" then "42%" else "41%"), display := "" }
          { s with logoPreview := some lp2 }
        else
          { s with logoPreview := some { lp with display := "none", src := "", top := "41%" } }
      | some file => { s with pendingReads := s.pendingReads ++ [file] }

/-- The callback `reader.onload` of `updateLogoPreview`, run with the result of the
read (the empty string when there is none). -/
def readerOnload (result : String) (s : State) : State :=
  match s.logoPreview with
  | none => s
  | some lp =>
    let lp1 := placeLogo (getSelected s.placementLogoRadios) { lp with src := result }
    let lp2 := { lp1 with top := (if getType s == "both" then "35%" else "41%"), display := "" }
    { s with logoPreview := some lp2 }

/-- The table `fontMap`, with its fallback `fontMap[font] || font`. -/
def fontFamilyOf (font : String) : String :=
  if font == "Block" then "Arial Black, Impact, sans-serif"
  else if font == "Script" then "Brush Script MT, cursive"
  else if font == "Sans-serif" then "Helvetica, Arial, sans-serif"
  else if font == "Serif" then "Times New Roman, serif"
  else font

/-- The text that `updatePreview` composes from the title and the name. -/
def previewText (s : State) : String :=
  let titleVal := jsTrim (s.titleInput.getD "")
  let nameVal := jsTrim (s.nameInput.getD "")
  let text0 := if truthy nameVal then nameVal else ""
  let text1 :=
    if truthy titleVal then (if truthy text0 then text0 ++ "\n" else text0) ++ titleVal
    else text0
  if !truthy text1 then "Your Name" else text1

/-- Placement classes of the text preview, as `placeLogo`. -/
def placeText (placement : String) (pv : PreviewEl) : PreviewEl :=
  let cleared := { pv with zoneLeft := false, zoneCenter := false, zoneRight := false }
  if truthy placement then
    match zoneOf (normalizePlacement placement) with
    | Zone.leftChest => { cleared with zoneLeft := true }
    | Zone.center => { cleared with zoneCenter := true }
    | Zone.rightChest => { cleared with zoneRight := true }
  else cleared

/-- The second half of `updatePreview`, from the composition of the text on: text,
vertical position, placement class, colour and font of the text preview. -/
def renderText (s : State) (pv : PreviewEl) : PreviewEl :=
  let pv1 := { pv with textContent := previewText s,
                       top := (if getType s == "both" then "44%" else "41%") }
  let pv2 := placeText (getSelected s.placementNameRadios) pv1
  let colour := getSelected s.colorNameRadios
  let pv3 := if truthy colour then { pv2 with color := colour } else pv2
  let font := getSelected s.fontNameRadios
  if truthy font then { pv3 with fontFamily := fontFamilyOf font } else pv3

/-- The function `updatePreview`. -/
def updatePreview (s : State) : State :=
  match s.previewEl, s.logoPreview with
  | some pv, some lp =>
    let type := getType s
    if !truthy type then
      { s with previewEl := some { pv with display := "none" },
               logoPreview := some { lp with display := "none" } }
    else if type == "logo" then
      updateLogoPreview { s with previewEl := some { pv with display := "none" } }
    else
      let shown := { pv with display := "" }
      let s1 :=
        if type == "both" then updateLogoPreview { s with previewEl := some shown }
        else { s with logoPreview := some { lp with display := "none" },
                      previewEl := some shown }
      { s1 with previewEl := some (renderText s shown) }
  | _, _ => s

/-! ## Consent error and guard overlay -/

/-- The function `showTermsError`. -/
def showTermsError (visible : Bool) (s : State) : State :=
  match s.termsWrap, s.termsError with
  | some w, some _ =>
    { s with termsError := some (if visible then "block" else "none"),
             termsWrap := some { isError := visible,
                                 isShake := (if visible then true else w.isShake) } }
  | _, _ => s

/-- The function `positionGuard`.  The popup and `.so-actions` are not visible when
their inline `display` is `none`; otherwise visibility and the boxes are those of
`layout`. -/
def positionGuard (s : State) : State :=
  if s.rootDisplay == "none" || s.actionsDisplay == "none" then s
  else
    match s.layout with
    | none => s
    | some g =>
      { s with guard := { s.guard with left := g.left, top := g.top,
                                       width := g.width, height := g.height } }

/-- The function `syncGuard`. -/
def syncGuard (s : State) : State :=
  let s1 := positionGuard s
  let needsGuard := !termsChecked s1
  let s2 := { s1 with
    guard := { s1.guard with display := (if needsGuard then "block" else "none") },
    btnAddDisabled := needsGuard }
  if !needsGuard then showTermsError false s2 else s2

/-- The function `updateAddState`. -/
def updateAddState (s : State) : State :=
  let type := getType s
  let valid := validity s
  let s1 := if type == "logo" || type == "both" then updateLogoPreview s else s
  syncGuard { s1 with btnAddDisabled := !valid }

/-- The call `terms?.focus(...)`. -/
def focusTerms (s : State) : State :=
  match s.terms with
  | some _ => { s with focusOnTerms := true }
  | none => s

/-- A click or key event: its `key`, and the two flags that `preventDefault` and
`stopPropagation` set. -/
structure DomEvent where
  key : String
  defaultPrevented : Bool
  propagationStopped : Bool
deriving DecidableEq, Repr

/-- The function `nudgeToTerms`, the click listener of the overlay. -/
def nudgeToTerms (e : DomEvent) (s : State) : DomEvent × State :=
  ({ e with defaultPrevented := true, propagationStopped := true },
   focusTerms (showTermsError true s))

/-- The `keydown` listener of the overlay. -/
def guardKeydown (e : DomEvent) (s : State) : DomEvent × State :=
  let k := orElse e.key ""
  if k == "Enter" || k == " " then nudgeToTerms e s else (e, s)

/-- A `change` event of the consent checkbox that leaves it checked or not: the
listener registered first is `updateAddState`, the second hides the error and
calls `syncGuard`. -/
def termsChange (checked : Bool) (s : State) : State :=
  match s.terms with
  | none => s
  | some _ =>
    syncGuard (showTermsError false (updateAddState { s with terms := some checked }))

/-! ## Forms, labels and the type selector -/

/-- The money string of the subhead: the host formatter on the rounded cents, or
the local fallback `'$' + fee.toFixed(2)`. -/
def feeMoney (cfg : Config) (fee : Fee) : String :=
  match cfg.formatMoney with
  | some f => f fee.cents
  | none => "$" ++ fee.fixed

/-- Set the inline `display` of the text preview when it exists. -/
def setPreviewDisplay (d : String) (s : State) : State :=
  match s.previewEl with
  | some pv => { s with previewEl := some { pv with display := d } }
  | none => s

/-- The first part of `toggleForms`: which of the two forms is shown, and the text
preview with them, when both forms exist. -/
def togglePanels (type : String) (s : State) : State :=
  match s.nameFormDisplay, s.logoFormDisplay with
  | some _, some _ =>
    if !truthy type then
      setPreviewDisplay "none"
        { s with nameFormDisplay := some "none", logoFormDisplay := some "none" }
    else if type == "logo" then
      setPreviewDisplay "none"
        { s with nameFormDisplay := some "none", logoFormDisplay := some "block" }
    else if type == "both" then
      setPreviewDisplay ""
        { s with nameFormDisplay := some "block", logoFormDisplay := some "block" }
    else
      setPreviewDisplay ""
        { s with nameFormDisplay := some "block", logoFormDisplay := some "none" }
  | _, _ => s

/-- The second part of `toggleForms`: the separator between the two forms. -/
def toggleSeparator (type : String) (s : State) : State :=
  match s.bothSepDisplay with
  | some _ => { s with bothSepDisplay := some (if type == "both" then "" else "none") }
  | none => s

/-- The third part of `toggleForms`: the subhead with its price, and the
visibility of the terms and action rows. -/
def toggleSubhead (cfg : Config) (type : String) (s : State) : State :=
  match s.subhead with
  | none => s
  | some sub =>
    if !truthy type then
      { s with subhead := some { sub with display := "none" },
               termsContainerDisplay := s.termsContainerDisplay.map (fun _ => "none"),
               actionsDisplay := "none" }
    else
      let html :=
        if type == "logo" then
          "Add My Logo <span class=\"so-price\">+ " ++ feeMoney cfg cfg.logoFee ++ "</span>"
        else if type == "both" then
          "Add Both <span class=\"so-price\">+ " ++ feeMoney cfg cfg.bothFee ++ "</span>"
        else
          "Add My Name <span class=\"so-price\">+ " ++ feeMoney cfg cfg.nameFee ++ "</span>"
      { s with subhead := some { display := "", innerHTML := html },
               termsContainerDisplay := s.termsContainerDisplay.map (fun _ => ""),
               actionsDisplay := "" }

/-- The function `toggleForms`. -/
def toggleForms (cfg : Config) (s : State) : State :=
  let type := getType s
  toggleSubhead cfg type (toggleSeparator type (togglePanels type s))

/-- The function `updateTypeLabel`. -/
def updateTypeLabel (s : State) : State :=
  match s.typeLabel with
  | none => s
  | some _ =>
    let type := getType s
    if !truthy type then { s with typeLabel := some "Select Your Personalisation Type" }
    else if type == "name" then { s with typeLabel := some "Personalisation Type: Name" }
    else if type == "logo" then { s with typeLabel := some "Personalisation Type: Logo" }
    else if type == "both" then { s with typeLabel := some "Personalisation Type: Both" }
    else s

/-- The helper `resetStyles` of `updateTypePillStyles`. -/
def resetStyles (lbl : Option PillStyle) : Option PillStyle :=
  lbl.map (fun _ => { border := "", background := "", color := "" })

/-- The helper `applyStyles` of `updateTypePillStyles`. -/
def applyStyles (lbl : Option PillStyle) : Option PillStyle :=
  lbl.map (fun _ =>
    { border := "1px solid var(--swatch-selected-border, #ddd)",
      background := "var(--swatch-selected-background, #000)",
      color := "var(--swatch-selected-color, #fff)" })

/-- The function `updateTypePillStyles`. -/
def updateTypePillStyles (s : State) : State :=
  let s1 := { s with nameLabel := resetStyles s.nameLabel,
                     logoLabel := resetStyles s.logoLabel,
                     bothLabel := resetStyles s.bothLabel }
  let type := getType s1
  if type == "name" then { s1 with nameLabel := applyStyles s1.nameLabel }
  else if type == "logo" then { s1 with logoLabel := applyStyles s1.logoLabel }
  else if type == "both" then { s1 with bothLabel := applyStyles s1.bothLabel }
  else s1

/-- The loop `radios.forEach((r, i) => { r.checked = (i === 0); })`: the first radio
of the group is checked and every other one is not. -/
def resetRadios : List Radio → List Radio
  | [] => []
  | r :: rest => { r with checked := true } :: rest.map (fun x => { x with checked := false })

/-- The `input` listener of the title and name fields. -/
def inputListener (s : State) : State := updateAddState (updatePreview s)

/-- One turn of the loop over `[titleInput, nameInput]`, for the title: when the
field exists it is emptied and an `input` event is dispatched on it. -/
def clearTitle (s : State) : State :=
  match s.titleInput with
  | some _ => inputListener { s with titleInput := some "" }
  | none => s

/-- The turn of the same loop for the name. -/
def clearName (s : State) : State :=
  match s.nameInput with
  | some _ => inputListener { s with nameInput := some "" }
  | none => s

/-- The loop that empties the title, then the name, and dispatches an `input` event
on each, as `clearNameFields` and the Reset button do. -/
def clearTextInputs (s : State) : State := clearName (clearTitle s)

/-- The function `clearNameFields`. -/
def clearNameFields (s : State) : State :=
  let s1 := clearTextInputs s
  { s1 with placementNameRadios := resetRadios s1.placementNameRadios,
            colorNameRadios := resetRadios s1.colorNameRadios,
            fontNameRadios := resetRadios s1.fontNameRadios }

/-- The assignment `fileInput.value = ''`, which empties the list of selected
files. -/
def clearFileValue (s : State) : State :=
  match s.fileInput with
  | some f => { s with fileInput := some { f with file := none } }
  | none => s

/-- The function `clearLogoFields`. -/
def clearLogoFields (s : State) : State :=
  let s1 := clearFileValue s
  { s1 with placementLogoRadios := resetRadios s1.placementLogoRadios }

/-- The function `enableLogoFileInput`. -/
def enableLogoFileInput (s : State) : State :=
  match s.fileInput with
  | some f => { s with fileInput := some { f with disabled := false, required := true } }
  | none => s

/-- The function `disableAndClearLogoFileInput`; the assignment of the empty string
to the value of a file input does not throw. -/
def disableAndClearLogoFileInput (s : State) : State :=
  match s.fileInput with
  | some _ => { s with fileInput := some { file := none, disabled := true, required := false } }
  | none => s

/-- The `change` listener of a type radio whose value is `newType`. -/
def onTypeChange (cfg : Config) (newType : String) (s : State) : State :=
  let prevType := s.currentType
  let s0 := { s with currentType := newType }
  let s1 :=
    if truthy prevType && prevType != newType then
      let a :=
        if newType == "name" then clearLogoFields s0
        else if newType == "logo" then clearNameFields s0
        else s0
      { a with terms := a.terms.map (fun _ => false) }
    else s0
  let s2 := if newType == "logo" then enableLogoFileInput s1 else disableAndClearLogoFileInput s1
  updateTypePillStyles (updateTypeLabel (updateAddState (updatePreview (toggleForms cfg s2))))

/-- Check the radio at position `i` of a group and clear the others, as the
browser does when the radio is chosen. -/
def checkOnly (i : Nat) : List Radio → List Radio
  | [] => []
  | r :: rest =>
    match i with
    | 0 => { r with checked := true } :: rest.map (fun x => { x with checked := false })
    | j + 1 => { r with checked := false } :: checkOnly j rest

/-- The user chooses the type radio at position `i`: when that radio exists and
is not yet checked, the browser checks it alone and its `change` listener runs. -/
def selectType (cfg : Config) (i : Nat) (s : State) : State :=
  match s.typeRadios.get? i with
  | some r =>
    if r.checked then s
    else onTypeChange cfg r.value { s with typeRadios := checkOnly i s.typeRadios }
  | none => s

/-- The user edits the name field: the value changes and the `input` listener
runs. -/
def typeName (v : String) (s : State) : State :=
  match s.nameInput with
  | some _ => inputListener { s with nameInput := some v }
  | none => s

/-- The user edits the title field. -/
def typeTitle (v : String) (s : State) : State :=
  match s.titleInput with
  | some _ => inputListener { s with titleInput := some v }
  | none => s

/-- The user chooses the radio at position `i` of the name placement group: when
it exists and is not yet checked it is checked alone and its `change` listener,
`updatePreview`, runs. -/
def choosePlacementName (i : Nat) (s : State) : State :=
  match s.placementNameRadios.get? i with
  | some r =>
    if r.checked then s
    else updatePreview { s with placementNameRadios := checkOnly i s.placementNameRadios }
  | none => s

/-- The `click` listener of the Reset button. -/
def onReset (cfg : Config) (s : State) : State :=
  let s1 := clearFileValue (clearTextInputs s)
  let s2 := { s1 with placementNameRadios := resetRadios s1.placementNameRadios,
                      placementLogoRadios := resetRadios s1.placementLogoRadios,
                      colorNameRadios := resetRadios s1.colorNameRadios,
                      fontNameRadios := resetRadios s1.fontNameRadios,
                      typeRadios := resetRadios s1.typeRadios,
                      terms := s1.terms.map (fun _ => false) }
  updateAddState (updatePreview (toggleForms cfg (showTermsError false s2)))

/-- The user picks a file in the native file input (possible while the input is
enabled): its `change` listener runs. -/
def chooseFile (file : File) (s : State) : State :=
  match s.fileInput with
  | some f =>
    if f.disabled then s
    else updateAddState (updateLogoPreview { s with fileInput := some { f with file := some file } })
  | none => s

/-! ## Commit transaction -/

/-- The values that the Add handler collects before it calls `finalize`. -/
structure Snapshot where
  placementName : String
  colourName : String
  fontName : String
  titleVal : String
  nameVal : String
  placementLogo : String
  fileName : String
  logoUrl : String
  price : Fee
deriving DecidableEq, Repr

/-- The collection of the values by type, lines 1003 to 1040 of the script. -/
def snapshot (cfg : Config) (s : State) : Snapshot :=
  let type := getType s
  let empty : Snapshot := ⟨"", "", "", "", "", "", "", "", Fee.zero⟩
  if type == "name" then
    { empty with
      placementName := getSelected s.placementNameRadios,
      colourName := getSelected s.colorNameRadios,
      fontName := getSelected s.fontNameRadios,
      titleVal := jsTrim (s.titleInput.getD ""),
      nameVal := jsTrim (s.nameInput.getD ""),
      price := cfg.nameFee }
  else if type == "logo" then
    { empty with
      placementLogo := getSelected s.placementLogoRadios,
      price := cfg.logoFee,
      fileName := (getUploaderyFileDetails s).fileName,
      logoUrl := (getUploaderyFileDetails s).fileUrl }
  else if type == "both" then
    { placementName := getSelected s.placementNameRadios,
      colourName := getSelected s.colorNameRadios,
      fontName := getSelected s.fontNameRadios,
      titleVal := jsTrim (s.titleInput.getD ""),
      nameVal := jsTrim (s.nameInput.getD ""),
      placementLogo := getSelected s.placementLogoRadios,
      price := cfg.bothFee,
      fileName := (getUploaderyFileDetails s).fileName,
      logoUrl := (getUploaderyFileDetails s).fileUrl }
  else empty

/-- The helpers `S` and `H`: write a string to an element when it exists. -/
def setText (el : Option String) (val : String) : Option String :=
  el.map (fun _ => val)

/-- Two decimal digits of a number below one hundred. -/
def twoDigits (n : Nat) : String :=
  (if n < 10 then "0" else "") ++ toString n

/-- The quotient `a / b` rounded to the nearest whole number, a tie going to the
even one: the rounding of the arithmetic on `Number`. -/
def divNearestEven (a b : Nat) : Nat :=
  if 2 * (a % b) > b ∨ (2 * (a % b) = b ∧ (a / b) % 2 = 1) then a / b + 1 else a / b

/-- The `Number` nearest to a natural number: below `2 ^ 53` the number itself,
from there on the number rounded to 53 significant bits.  (Numbers beyond the
range of `Number`, about `1.8e308`, are not modelled.) -/
def roundNat (n : Nat) : Nat :=
  if n < 9007199254740992 then n
  else divNearestEven n (2 ^ (Nat.log2 n - 52)) * 2 ^ (Nat.log2 n - 52)

/-- The sum `a + b` of two whole `Number`s: the `Number` nearest to the sum. -/
def addNumber (a b : Int) : Int :=
  if a + b < 0 then -((roundNat (a + b).natAbs : Nat) : Int)
  else ((roundNat (a + b).natAbs : Nat) : Int)

/-- The `Number` `c / 100` for a whole `Number` `c` that is not negative, as a
fraction: its numerator and its denominator, a power of two.  The quotient is
rounded to 53 significant bits: with `2 ^ 52 = 4503599627370496` and
`2 ^ 53 = 9007199254740992`, it is a multiple of `2 ^ (-s)` in
`[2 ^ (52 - s), 2 ^ (53 - s))` below `100 * 2 ^ 53`, and a multiple of `2 ^ k` in
`[2 ^ (52 + k), 2 ^ (53 + k))` from there on. -/
def quotientHundred (c : Nat) : Nat × Nat :=
  if c = 0 then (0, 1)
  else if c < 100 * 9007199254740992 then
    let s := ((List.range 60).find? (fun s => 100 * 4503599627370496 ≤ c * 2 ^ s)).getD 0
    (divNearestEven (c * 2 ^ s) 100, 2 ^ s)
  else
    let k := ((List.range (Nat.log2 c + 1)).find?
      (fun k => c < 100 * 9007199254740992 * 2 ^ k)).getD 0
    (divNearestEven c (100 * 2 ^ k) * 2 ^ k, 1)

/-- The digits `s` and the exponent `n` that `Number::toString` may choose for a
whole `Number` `x` of at least `10 ^ 21` when it writes `k` digits: the pairs
for which `s` has `k` digits and `s * 10 ^ (n - k)` has the `Number` value `x`. -/
def digitCandidates (x k : Nat) : List (Nat × Nat) :=
  let d := (Nat.toDigits 10 x).length
  [(x / 10 ^ (d - k), d), (x / 10 ^ (d - k) + 1, d),
   (x / 10 ^ (d + 1 - k), d + 1), (x / 10 ^ (d + 1 - k) + 1, d + 1)].filter
    (fun p => 10 ^ (k - 1) ≤ p.1 && p.1 < 10 ^ k && roundNat (p.1 * 10 ^ (p.2 - k)) == x)

/-- The distance between `s * 10 ^ (n - k)` and `x`. -/
def digitDistance (x k : Nat) (p : Nat × Nat) : Nat :=
  (p.1 * 10 ^ (p.2 - k) - x) + (x - p.1 * 10 ^ (p.2 - k))

/-- The better of two candidates: the closer one, and of two equally close ones the
one whose `s` is even. -/
def betterDigits (x k : Nat) (p q : Nat × Nat) : Nat × Nat :=
  if digitDistance x k q < digitDistance x k p then q
  else if digitDistance x k q = digitDistance x k p ∧ q.1 % 2 = 0 then q
  else p

/-- The string `Number::toString(x)` for a whole `Number` `x` of at least
`10 ^ 21`: the fewest digits that give `x` back, in exponent form. -/
def exponentString (x : Nat) : String :=
  match (List.range 18).findSome? (fun k =>
      match digitCandidates x k with
      | [] => none
      | p :: ps => if k = 0 then none else some (k, ps.foldl (betterDigits x k) p)) with
  | none => ""
  | some (k, (s, n)) =>
    if k = 1 then toString s ++ "e+" ++ toString (n - 1)
    else (toString s).take 1 ++ "." ++ (toString s).drop 1 ++ "e+" ++ toString (n - 1)

/-- The method `toFixed(2)` of a `Number` that is not negative, given as a
fraction: from `10 ^ 21` on the string of the number itself, and below it the whole
number of hundredths nearest to it, the larger one at a tie, with a point before
its last two digits. -/
def toFixedTwo (x : Nat × Nat) : String :=
  if 1000000000000000000000 * x.2 ≤ x.1 then exponentString (x.1 / x.2)
  else
    toString ((200 * x.1 + x.2) / (2 * x.2) / 100) ++ "." ++
      twoDigits ((200 * x.1 + x.2) / (2 * x.2) % 100)

/-- The expression `(cents / 100).toFixed(2)` for a whole number of cents, which as
a `Number` is rounded to 53 significant bits: the division is that of `Number`,
and `toFixed` writes the sign first. -/
def fixedCents (c : Int) : String :=
  (if c < 0 then "-" else "") ++ toFixedTwo (quotientHundred (roundNat c.natAbs))

/-- A whole number of cents written exactly, as units with two decimals. -/
def exactCents (c : Int) : String :=
  (if c < 0 then "-" else "") ++ toString (c.natAbs / 100) ++ "." ++ twoDigits (c.natAbs % 100)

/-- The local function `formatMoney` of `finalize`. -/
def formatMoney (cfg : Config) (cents : Int) : String :=
  match cfg.formatMoney with
  | some f => f cents
  | none => "$" ++ fixedCents cents

/-- The label `typeLabel` of `finalize`. -/
def typeLabelOf (type : String) : String :=
  if type == "logo" then "Logo" else if type == "both" then "Both" else "Name"

/-- The summary part of `finalize`: list items, texts and the price breakdown. -/
def writeSummary (cfg : Config) (type : String) (v : Snapshot) (m : Summary) : Summary :=
  let m1 := { m with summaryType := setText m.summaryType (typeLabelOf type),
                     liTitle := setText m.liTitle "none",
                     liName := setText m.liName "none",
                     liFile := setText m.liFile "none" }
  let m2 :=
    if type == "name" || type == "both" then
      { m1 with liTitle := setText m1.liTitle (if truthy v.titleVal then "" else "none"),
                liName := setText m1.liName (if truthy v.nameVal then "" else "none"),
                summaryTitle := setText m1.summaryTitle v.titleVal,
                summaryName := setText m1.summaryName v.nameVal,
                summaryPlacementName := setText m1.summaryPlacementName v.placementName,
                summaryFont := setText m1.summaryFont v.fontName,
                summaryColorName := setText m1.summaryColorName v.colourName }
    else m1
  let m3 :=
    if type == "logo" || type == "both" then
      { m2 with liFile := setText m2.liFile (if truthy v.fileName then "" else "none"),
                summaryFileName := setText m2.summaryFileName v.fileName,
                summaryPlacementLogo := setText m2.summaryPlacementLogo v.placementLogo }
    else m2
  let basePriceCents := cfg.basePrice.getD 0
  let embroideryCents := v.price.cents
  { m3 with summaryPlacement := setText m3.summaryPlacement (orElse v.placementName v.placementLogo),
            summaryColor := setText m3.summaryColor v.colourName,
            liFont := setText m3.liFont
              (if (type == "name" || type == "both") && truthy v.fontName then "" else "none"),
            embroideryPrice := setText m3.embroideryPrice (formatMoney cfg embroideryCents),
            totalPrice := setText m3.totalPrice
              (formatMoney cfg (addNumber basePriceCents embroideryCents)),
            customSummary := setText m3.customSummary "block" }

/-- The hidden inputs that `finalize` writes with `H`. -/
def writeCarriers (type : String) (v : Snapshot) (c : Carriers) : Carriers :=
  { embTypeInput := setText c.embTypeInput (typeLabelOf type),
    placementInput := setText c.placementInput (orElse v.placementName v.placementLogo),
    fontInput := setText c.fontInput v.fontName,
    placementNameInput := setText c.placementNameInput v.placementName,
    placementLogoInput := setText c.placementLogoInput v.placementLogo,
    colorNameInput := setText c.colorNameInput v.colourName,
    titleInput := setText c.titleInput v.titleVal,
    nameInput := setText c.nameInput v.nameVal,
    colorInput := setText c.colorInput v.colourName,
    logoFileInput := setText c.logoFileInput v.fileName,
    logoUrlInput := setText c.logoUrlInput v.logoUrl,
    feeInput := setText c.feeInput v.price.text }

/-- The event detail that `finalize` dispatches. -/
def applyDetail (type : String) (v : Snapshot) : ApplyDetail :=
  { type := type,
    placement := orElse v.placementName v.placementLogo,
    font := v.fontName,
    colour := v.colourName,
    title := v.titleVal,
    name := v.nameVal,
    fileName := v.fileName,
    fileUrl := v.logoUrl,
    price := v.price,
    placementName := v.placementName,
    placementLogo := v.placementLogo,
    colourName := v.colourName,
    fontName := v.fontName }

/-- The list `propertyFields` with the value each field resolves to: a literal, or
the value of the hidden input of that id, the empty string when it is missing.
The time stamp `String(Date.now())` is the argument `now`. -/
def propertyFields (now : String) (c : Carriers) : List (String × String) :=
  [ ("Embroidery", "Yes"),
    ("Embroidery Type", c.embTypeInput.getD ""),
    ("Embroidery Title", c.titleInput.getD ""),
    ("Embroidery Name", c.nameInput.getD ""),
    ("Embroidery Placement", c.placementInput.getD ""),
    ("Embroidery Font", c.fontInput.getD ""),
    ("Embroidery Color", c.colorInput.getD ""),
    ("Embroidery Logo File", c.logoFileInput.getD ""),
    ("Embroidery Logo URL", c.logoUrlInput.getD ""),
    ("Embroidery Placement Name", c.placementNameInput.getD ""),
    ("Embroidery Placement Logo", c.placementLogoInput.getD ""),
    ("Embroidery Color Name", c.colorNameInput.getD ""),
    ("Embroidery Price", c.feeInput.getD ""),
    ("Embroidery Instance", now) ]

/-- The name of the form input of a property. -/
def propertyName (field : String) : String := "properties[" ++ field ++ "]"

/-- Remove the first input of that name: `hidden.remove()`. -/
def removeFirst (name : String) : List FormInput → List FormInput
  | [] => []
  | i :: rest => if i.name == name then rest else i :: removeFirst name rest

/-- Set the value of the first input of that name: `hidden.value = val`. -/
def setFirst (name val : String) : List FormInput → List FormInput
  | [] => []
  | i :: rest => if i.name == name then { i with value := val } :: rest
                 else i :: setFirst name val rest

/-- The body of the inner loop of the serialization, for one field on one form. -/
def upsertField (form : Form) (field : String × String) : Form :=
  let name := propertyName field.1
  let val := field.2
  if val == "" then { inputs := removeFirst name form.inputs }
  else if form.inputs.any (fun i => i.name == name) then
    { inputs := setFirst name val form.inputs }
  else { inputs := form.inputs ++ [{ name := name, value := val }] }

/-- The serialization of the property fields into every add-to-cart form. -/
def writeForms (now : String) (c : Carriers) (forms : List Form) : List Form :=
  forms.map (fun form => (propertyFields now c).foldl upsertField form)

/-- The open button after `finalize`. -/
def relabelOpenBtn (b : Option OpenBtn) : Option OpenBtn :=
  b.map (fun o => { label := o.label.map (fun _ => "Add embroidery"), display := "" })

/-- The function `finalize` of the Add handler, for the type and the values
collected before it. -/
def finalize (cfg : Config) (now : String) (type : String) (v : Snapshot) (s : State) : State :=
  let carriers := writeCarriers type v s.carriers
  let s1 := { s with summary := writeSummary cfg type v s.summary,
                     carriers := carriers,
                     openBtn := relabelOpenBtn s.openBtn,
                     events := s.events ++ [applyDetail type v],
                     forms := writeForms now carriers s.forms }
  let s2 := clearLogoFields (clearNameFields s1)
  let s3 := { s2 with terms := s2.terms.map (fun _ => false), currentType := "" }
  let s4 := updateAddState (updateTypePillStyles (updateTypeLabel (updatePreview (toggleForms cfg s3))))
  { s4 with rootDisplay := "none" }

/-- The `click` listener of the Add button. -/
def onAddClick (cfg : Config) (now : String) (s : State) : State :=
  if !termsChecked s then focusTerms (showTermsError true s)
  else finalize cfg now (getType s) (snapshot cfg s) s

/-! ## What the user has entered -/

/-- The part of the page that holds what the user has entered: type selection,
consent, the fields of the two forms and the hidden inputs of the upload widget,
with the variable `currentType`. -/
structure Inputs where
  typeRadios : List Radio
  currentType : String
  terms : Option Bool
  titleInput : Option String
  nameInput : Option String
  placementNameRadios : List Radio
  colorNameRadios : List Radio
  fontNameRadios : List Radio
  placementLogoRadios : List Radio
  fileInput : Option FileInput
  uploaderyContainer : Option (List String)
  uploaderyHiddenContainer : Option (List String)
deriving DecidableEq, Repr

/-- The inputs of a page. -/
def inputs (s : State) : Inputs :=
  { typeRadios := s.typeRadios, currentType := s.currentType, terms := s.terms,
    titleInput := s.titleInput, nameInput := s.nameInput,
    placementNameRadios := s.placementNameRadios, colorNameRadios := s.colorNameRadios,
    fontNameRadios := s.fontNameRadios, placementLogoRadios := s.placementLogoRadios,
    fileInput := s.fileInput, uploaderyContainer := s.uploaderyContainer,
    uploaderyHiddenContainer := s.uploaderyHiddenContainer }

/-! ## A sample page -/

/-- A sample configuration: fees of 16.00, 20.00 and 30.00, no host formatter, a
base price of 45.00. -/
def sampleConfig : Config :=
  { nameFee := ⟨1600, "16", "16.00"⟩,
    logoFee := ⟨2000, "20", "20.00"⟩,
    bothFee := ⟨3000, "30", "30.00"⟩,
    formatMoney := none,
    basePrice := some 4500 }

/-- A sample summary block with every element present and empty. -/
def sampleSummary : Summary :=
  { summaryType := some "", summaryTitle := some "", summaryName := some "",
    summaryPlacementName := some "", summaryFont := some "", summaryColorName := some "",
    summaryFileName := some "", summaryPlacementLogo := some "",
    summaryPlacement := some "", summaryColor := some "",
    liTitle := some "none", liName := some "none", liFile := some "none",
    liFont := some "none", embroideryPrice := some "", totalPrice := some "",
    customSummary := some "none" }

/-- Sample hidden inputs, all present and empty. -/
def sampleCarriers : Carriers :=
  { embTypeInput := some "", placementInput := some "", fontInput := some "",
    placementNameInput := some "", placementLogoInput := some "",
    colorNameInput := some "", titleInput := some "", nameInput := some "",
    colorInput := some "", logoFileInput := some "", logoUrlInput := some "",
    feeInput := some "" }

/-- A sample page as it is when the script has started: every element present, no
type selected, consent not given, the popup open and laid out. -/
def samplePage : State :=
  { typeRadios := [⟨"name", false⟩, ⟨"logo", false⟩, ⟨"both", false⟩],
    currentType := "",
    terms := some false,
    titleInput := some "",
    nameInput := some "",
    placementNameRadios := [⟨"Left Chest", true⟩, ⟨"Right Chest", false⟩],
    colorNameRadios := [⟨"white", true⟩, ⟨"navy", false⟩],
    fontNameRadios := [⟨"Block", true⟩, ⟨"Script", false⟩],
    placementLogoRadios := [⟨"Left Chest", true⟩, ⟨"Right Chest", false⟩],
    fileInput := some ⟨none, true, false⟩,
    uploaderyContainer := some [],
    uploaderyHiddenContainer := some [],
    uploaderyOther := false,
    uploaderyHiddenOther := false,
    polls := 0,
    previewEl := some ⟨"none", "", "41%", false, false, false, "", ""⟩,
    logoPreview := some ⟨"none", "", "41%", false, false, false⟩,
    pendingReads := [],
    nameFormDisplay := some "none",
    logoFormDisplay := some "none",
    bothSepDisplay := some "none",
    subhead := some ⟨"none", ""⟩,
    termsContainerDisplay := some "none",
    actionsDisplay := "none",
    btnAddDisabled := true,
    guard := ⟨"block", "0px", "0px", "0px", "0px"⟩,
    layout := some ⟨"120px", "0px", "96px", "40px"⟩,
    termsWrap := some ⟨false, false⟩,
    termsError := some "none",
    focusOnTerms := false,
    typeLabel := some "Select Your Personalisation Type",
    nameLabel := some ⟨"", "", ""⟩,
    logoLabel := some ⟨"", "", ""⟩,
    bothLabel := some ⟨"", "", ""⟩,
    summary := sampleSummary,
    carriers := sampleCarriers,
    forms := [⟨[⟨"id", "42"⟩, ⟨"quantity", "1"⟩]⟩],
    events := [],
    rootDisplay := "block",
    openBtn := some ⟨some "Add embroidery", ""⟩ }

/-- The sample page after the user has chosen the Logo type and ticked the
consent checkbox; no logo has been uploaded. -/
def logoConsented : State := termsChange true (selectType sampleConfig 1 samplePage)

/-- The sample page after the user has chosen the Name type, ticked the consent
checkbox and typed one blank into the name field. -/
def nameOnlyBlank : State :=
  typeName " " (termsChange true (selectType sampleConfig 0 samplePage))

/-- The sample page after the user has chosen the Name type, ticked the consent
checkbox and typed a name. -/
def nameAlex : State :=
  typeName "Alex" (termsChange true (selectType sampleConfig 0 samplePage))

/-- A file picked in the native file input. -/
def sampleFile : File := ⟨"logo.png", "image/png", 2048, "data:image/png;base64,AAAA"⟩

/-- The page `logoConsented` after the user has picked a file in the native file
input. -/
def logoLocalFile : State := chooseFile sampleFile logoConsented

/-- The page `logoConsented` once the upload widget has filled one hidden input
with a file name and none with a URL. -/
def logoNameOnly : State := { logoConsented with uploaderyContainer := some ["logo.png"] }

/-- The sample page without a `.so-terms` element around the consent checkbox (so
`termsWrap` is null) and with the error element `#so-terms-error` in the markup,
after the user has chosen the Logo type. -/
def noWrapper : State :=
  selectType sampleConfig 1
    { samplePage with termsWrap := none, termsContainerDisplay := none }

/-- The sample page after the user has chosen the Logo type; consent is not given. -/
def logoUnticked : State := selectType sampleConfig 1 samplePage

/-- A click event that no listener has handled yet. -/
def clickEvent : DomEvent := ⟨"", false, false⟩

/-- The time stamp used in the sample commits. -/
def sampleNow : String := "1700000000000"

/-- The sample page after the user has chosen Logo, pressed Reset (which checks the
first type radio, Name), typed a name and chosen the second name placement. -/
def resetThenAlex : State :=
  choosePlacementName 1
    (typeName "Alex" (onReset sampleConfig (selectType sampleConfig 1 samplePage)))

/-! ## More gestures and sample pages -/

/-- The upload widget has finished an upload: the hidden inputs of its visible
container hold `vals`, and the listener of `uploadery:fileUploaded` runs. -/
def widgetUploaded (vals : List String) (s : State) : State :=
  match s.uploaderyContainer with
  | some _ => updateAddState (updateLogoPreview { s with uploaderyContainer := some vals })
  | none => s

/-- The function `initUploaderyField`.  The visible container has an element child
when it holds a hidden input or another element; otherwise every node of the
holding container moves to it and an interval is started.  The `form` attribute
and the form `id` that the function sets are read by nothing else in the script
and are not modelled. -/
def initUploaderyField (s : State) : State :=
  match s.uploaderyHiddenContainer, s.uploaderyContainer with
  | some hid, some vis =>
    if !vis.isEmpty || s.uploaderyOther then s
    else
      { s with uploaderyContainer := some hid, uploaderyHiddenContainer := some [],
               uploaderyOther := s.uploaderyHiddenOther, uploaderyHiddenOther := false,
               polls := s.polls + 1 }
  | _, _ => s

/-- One tick of an interval that `initUploaderyField` has started: when a URL is
found the preview and the Add state are recomputed and the interval is cleared. -/
def pollTick (s : State) : State :=
  if s.polls = 0 then s
  else if truthy (getUploaderyFileDetails s).fileUrl then
    { updateAddState (updateLogoPreview s) with polls := s.polls - 1 }
  else s

/-- A click on the opener `#openCustomization` after the popup was closed: the host
page shows the popup again, the listener of the script runs `initUploaderyField`,
and its deferred `syncGuard` runs. -/
def reopen (s : State) : State :=
  syncGuard (initUploaderyField { s with rootDisplay := "block" })

/-- What a commit writes: the summary, the hidden inputs, the forms, the
dispatched events and the open button. -/
structure Outputs where
  summary : Summary
  carriers : Carriers
  forms : List Form
  events : List ApplyDetail
  openBtn : Option OpenBtn
deriving DecidableEq, Repr

/-- The outputs of a page. -/
def outputs (s : State) : Outputs :=
  { summary := s.summary, carriers := s.carriers, forms := s.forms, events := s.events,
    openBtn := s.openBtn }

/-- The hidden-input values of a finished upload: a file name and a URL. -/
def sampleUpload : List String := ["logo.png", "https://cdn.example/files/logo.png"]

/-- The sample page after the user has chosen Logo and the widget has uploaded a
logo; consent is not given. -/
def logoUploaded : State := widgetUploaded sampleUpload (selectType sampleConfig 1 samplePage)

/-- The sample page after the user has chosen Both and typed a name. -/
def bothAlex : State := typeName "Alex" (selectType sampleConfig 2 samplePage)

/-- The sample page after the user has chosen Logo, pressed Reset (which checks the
first type radio, Name) and ticked the consent checkbox. -/
def resetThenConsent : State :=
  termsChange true (onReset sampleConfig (selectType sampleConfig 1 samplePage))

/-- The sample page after the user has chosen Logo and picked a file in the native
file input. -/
def logoPicked : State := chooseFile sampleFile (selectType sampleConfig 1 samplePage)

/-- A first commit on the sample page: type Name, name Alex, title Dr. -/
def firstCommit : State :=
  onAddClick sampleConfig sampleNow
    (termsChange true (typeTitle "Dr" (typeName "Alex" (selectType sampleConfig 0 samplePage))))

/-- The page before a second commit: after `firstCommit` the popup is opened again,
Logo is chosen, a logo is uploaded and consent is given. -/
def beforeSecondCommit : State :=
  termsChange true (widgetUploaded sampleUpload (selectType sampleConfig 1 (reopen firstCommit)))

/-- The second commit, one minute after the first. -/
def secondCommit : State := onAddClick sampleConfig "1700000060000" beforeSecondCommit

/-- A form that already holds two inputs of the same property name. -/
def doubledForm : Form :=
  ⟨[⟨"properties[Embroidery Title]", "Dr"⟩, ⟨"properties[Embroidery Title]", "Dr"⟩]⟩

/-- The page `nameAlex` (type Name, name Alex, no title, consent given) whose only
form is `doubledForm`. -/
def nameAlexDoubled : State := { nameAlex with forms := [doubledForm] }

/-- The first part of the `change` listener of a type radio, up to the enabling or
disabling of the file input: the function `onTypeChange` without its final
recomputations. -/
def switchFields (newType : String) (s : State) : State :=
  let prevType := s.currentType
  let s0 := { s with currentType := newType }
  let s1 :=
    if truthy prevType && prevType != newType then
      let a :=
        if newType == "name" then clearLogoFields s0
        else if newType == "logo" then clearNameFields s0
        else s0
      { a with terms := a.terms.map (fun _ => false) }
    else s0
  if newType == "logo" then enableLogoFileInput s1 else disableAndClearLogoFileInput s1

/-- The inputs of a form that have a given name. -/
def inputsNamed (name : String) (inputs : List FormInput) : List FormInput :=
  inputs.filter (fun i => i.name == name)

/-- The page of scenario C: Both selected, the title Captain typed, a logo
uploaded, consent given. -/
def bothCaptain : State :=
  termsChange true
    (widgetUploaded ["logo.png", "https://x/logo.png"]
      (typeTitle "Captain" (selectType sampleConfig 2 samplePage)))

/-- The page `resetThenAlex` after the user has chosen Logo and given consent: Logo
is selected while the name field still holds a name. -/
def logoWithName : State := termsChange true (selectType sampleConfig 1 resetThenAlex)

/-- The inputs of one property name that a form holds after the serialization of
a value: none when the value is empty, else one input with that value. -/
def expectedInputs (name val : String) : List FormInput :=
  if val == "" then [] else [⟨name, val⟩]

/-! ## Cleanup after add-to-cart -/

/-- The test of the selector `input[name^="properties[Embroidery"]` on the name of
an input. -/
def isEmbroideryProperty (name : String) : Bool :=
  "properties[Embroidery".data.isPrefixOf name.data

/-- Apply a function to the element at position `k` of a list. -/
def mapAt {α : Type} (f : α → α) : Nat → List α → List α
  | _, [] => []
  | 0, x :: rest => f x :: rest
  | k + 1, x :: rest => x :: mapAt f k rest

/-- The removal of the embroidery property inputs from a form. -/
def stripEmbroidery (form : Form) : Form :=
  ⟨form.inputs.filter (fun i => !isEmbroideryProperty i.name)⟩

/-- The `submit` listener `handleAddToCart`, for a submit event whose target is the
add-to-cart form at position `k`; a position outside the list stands for a target
that is no add-to-cart form. -/
def handleAddToCart (k : Nat) (s : State) : State :=
  match s.forms.get? k with
  | none => s
  | some _ =>
    { s with
      summary := { s.summary with customSummary := s.summary.customSummary.map (fun _ => "none") },
      forms := mapAt stripEmbroidery k s.forms }

/-! ## Asset staging client -/

/-- The three requests of `uploadLogo`. -/
inductive Phase where
  | start
  | transfer
  | finish
deriving DecidableEq, Repr

/-- What `res.json()` gives: a rejection, a falsy value such as `null`, or an
object. -/
inductive Body (α : Type) where
  | unreadable (error : String)
  | null
  | data (d : α)
deriving DecidableEq, Repr

/-- A response of the service: `ok` (a 2xx status), what `text()` resolves to
(`none` when it rejects) and what `json()` gives. -/
structure Response (α : Type) where
  ok : Bool
  text : Option String
  body : Body α
deriving DecidableEq, Repr

/-- What `fetch` gives: a rejection with an error, or a response. -/
inductive Reply (α : Type) where
  | failed (error : String)
  | response (r : Response α)
deriving DecidableEq, Repr

/-- The JSON of the Start response: `uploadUrl` and `resourceUrl` (the empty string
when missing), and `parameters`, an array of name and value pairs in which a
missing or null member is `none` (missing `parameters` is the empty list). -/
structure StartData where
  uploadUrl : String
  parameters : List (Option String × Option String)
  resourceUrl : String
deriving DecidableEq, Repr

/-- The JSON of the Finalize response: `url`, the empty string when missing. -/
structure FinishData where
  url : String
deriving DecidableEq, Repr

/-- A request as `uploadLogo` issues it. -/
inductive Request where
  | start (filename mime : String) (size : Nat)
  | transfer (uploadUrl : String) (fields : List (String × String)) (file : File)
  | finish (resourceUrl filename : String)
deriving DecidableEq, Repr

/-- An event of a run of `uploadLogo`: a request is issued, or the awaited `fetch`
of a phase has settled. -/
inductive Event where
  | sent (r : Request)
  | settled (p : Phase)
deriving DecidableEq, Repr

/-- How the promise of `uploadLogo` settles. -/
inductive Outcome where
  | resolved (url : String)
  | rejected (message : String)
deriving DecidableEq, Repr

/-- A run of `uploadLogo`: its events in order and its outcome. -/
structure UploadRun where
  trace : List Event
  outcome : Outcome
deriving DecidableEq, Repr

/-- The fields that the loop over `params` appends to the form data. -/
def formFields (params : List (Option String × Option String)) : List (String × String) :=
  params.filterMap (fun p =>
    match p with
    | (some n, some v) => some (n, v)
    | _ => none)

/-- The Start request for a file. -/
def startRequest (file : File) : Request :=
  Request.start file.name (orElse file.mime "image/png") file.size

/-- The Transfer request for a file and the data of the Start response: the form
data holds the fields of the parameters, then the file as the part `file`. -/
def transferRequest (file : File) (d : StartData) : Request :=
  Request.transfer d.uploadUrl (formFields d.parameters) file

/-- The Finalize request for a file and the data of the Start response. -/
def finishRequest (file : File) (d : StartData) : Request :=
  Request.finish d.resourceUrl file.name

/-- The third step of `uploadLogo`, after the Transfer response was found ok. -/
def uploadFinish (file : File) (d : StartData) (finishReply : Reply FinishData)
    (trace : List Event) : UploadRun :=
  let t := trace ++ [Event.sent (finishRequest file d), Event.settled Phase.finish]
  match finishReply with
  | Reply.failed e => ⟨t, Outcome.rejected e⟩
  | Reply.response r =>
    if !r.ok then ⟨t, Outcome.rejected ("Finalize failed: " ++ r.text.getD "")⟩
    else
      match r.body with
      | Body.unreadable e => ⟨t, Outcome.rejected e⟩
      | Body.null => ⟨t, Outcome.rejected "Invalid response from finish upload"⟩
      | Body.data f =>
        if !truthy f.url then ⟨t, Outcome.rejected "Invalid response from finish upload"⟩
        else ⟨t, Outcome.resolved f.url⟩

/-- The second step of `uploadLogo`, after the Start response gave an upload
target. -/
def uploadTransfer (file : File) (d : StartData) (upReply : Reply Unit)
    (finishReply : Reply FinishData) (trace : List Event) : UploadRun :=
  let t := trace ++ [Event.sent (transferRequest file d), Event.settled Phase.transfer]
  match upReply with
  | Reply.failed e => ⟨t, Outcome.rejected e⟩
  | Reply.response r =>
    if !r.ok then ⟨t, Outcome.rejected ("Upload failed: " ++ r.text.getD "")⟩
    else uploadFinish file d finishReply t

/-- The function `uploadLogo`, for the three replies that the service gives when
asked. -/
def uploadLogo (file : Option File) (startReply : Reply StartData) (upReply : Reply Unit)
    (finishReply : Reply FinishData) : UploadRun :=
  match file with
  | none => ⟨[], Outcome.rejected "No file selected"⟩
  | some f =>
    let t := [Event.sent (startRequest f), Event.settled Phase.start]
    match startReply with
    | Reply.failed e => ⟨t, Outcome.rejected e⟩
    | Reply.response r =>
      if !r.ok then ⟨t, Outcome.rejected ("Upload initiation failed: " ++ r.text.getD "")⟩
      else
        match r.body with
        | Body.unreadable e => ⟨t, Outcome.rejected e⟩
        | Body.null => ⟨t, Outcome.rejected "Invalid response from start upload"⟩
        | Body.data d =>
          if !truthy d.uploadUrl then
            ⟨t, Outcome.rejected "Invalid response from start upload"⟩
          else uploadTransfer f d upReply finishReply t

/-- Sample replies of the service: a Start response with an upload target and two
parameters, an accepted transfer, a Finalize response with the public URL. -/
def startOk : Reply StartData :=
  Reply.response ⟨true, some "",
    Body.data ⟨"https://staging.example/put", [(some "key", some "abc"), (none, some "x")],
      "gid://staged/1"⟩⟩

/-- A Transfer response with a 2xx status. -/
def transferOk : Reply Unit := Reply.response ⟨true, some "", Body.null⟩

/-- A Transfer response with a failure status and a message. -/
def transferDenied : Reply Unit := Reply.response ⟨false, some "Forbidden", Body.null⟩

/-- A Finalize response with the public URL of the asset. -/
def finishOk : Reply FinishData :=
  Reply.response ⟨true, some "", Body.data ⟨"https://cdn.example/files/logo.png"⟩⟩

/-- A page whose upload container holds one value with a path and no URL. -/
def pathOnly : State := { logoUnticked with uploaderyContainer := some ["uploads/logo.png"] }

/-- The sample page after a commit with the type Name: its form holds the property
inputs of the commit. -/
def committedName : State := onAddClick sampleConfig sampleNow nameAlex

/-- The form of `committedName`: the two inputs of the sample form and the ten
property inputs of the commit. -/
def committedForm : Form :=
  ⟨[⟨"id", "42"⟩, ⟨"quantity", "1"⟩,
    ⟨"properties[Embroidery]", "Yes"⟩,
    ⟨"properties[Embroidery Type]", "Name"⟩,
    ⟨"properties[Embroidery Name]", "Alex"⟩,
    ⟨"properties[Embroidery Placement]", "Left Chest"⟩,
    ⟨"properties[Embroidery Font]", "Block"⟩,
    ⟨"properties[Embroidery Color]", "white"⟩,
    ⟨"properties[Embroidery Placement Name]", "Left Chest"⟩,
    ⟨"properties[Embroidery Color Name]", "white"⟩,
    ⟨"properties[Embroidery Price]", "16"⟩,
    ⟨"properties[Embroidery Instance]", "1700000000000"⟩]⟩

/-- The URL that `getUploaderyFileDetails` is to return: the first trimmed value
that is not empty and contains `://`, the empty string when there is none. -/
def firstUrl (vals : List String) : String :=
  ((vals.map jsTrim).find? (fun v => truthy v && includesScheme v)).getD ""

/-- The file name that the loop of `getUploaderyFileDetails` finds: the part after
the last slash of the first trimmed value for which that part is not empty, the
empty string when there is none. -/
def firstName (vals : List String) : String :=
  ((vals.map (fun v => lastSegment (jsTrim v))).find? truthy).getD ""

/-- The first value that is not empty once trimmed, the empty string when there
is none. -/
def firstNonEmpty (vals : List String) : String :=
  ((vals.map jsTrim).find? truthy).getD ""

/-! ## Observations of the text preview -/

/-- The placement-zone classes that the text preview carries, in the order left
chest, center, right chest. -/
def zoneClasses (pv : PreviewEl) : List Zone :=
  (if pv.zoneLeft then [Zone.leftChest] else []) ++
  (if pv.zoneCenter then [Zone.center] else []) ++
  (if pv.zoneRight then [Zone.rightChest] else [])

/-- The preview text in the words of the specification, from the trimmed name and
the trimmed title: the name line, then the title line; the single one that is not
empty; the placeholder when both are empty. -/
def composedText (name title : String) : String :=
  if name ≠ "" ∧ title ≠ "" then name ++ "\n" ++ title
  else if name ≠ "" then name
  else if title ≠ "" then title
  else "Your Name"

/-- The zone of a normalized placement in the words of the specification. -/
def zoneNamed (normalized : String) : Zone :=
  if normalized = "left-chest" then Zone.leftChest
  else if normalized = "right-chest" then Zone.rightChest
  else Zone.center

/-- A page like the sample page but without the image overlay `#logoPreview`, after
the user has chosen the Name type and typed a name. -/
def noLogoPreview : State :=
  typeName "Alex" (selectType sampleConfig 0 { samplePage with logoPreview := none })

/-- A page like the sample page but with no radio of the name placement group
checked, after the user has chosen the Name type. -/
def noPlacement : State :=
  selectType sampleConfig 0
    { samplePage with placementNameRadios := [⟨"Left Chest", false⟩, ⟨"Right Chest", false⟩] }

/-- The sample page after the user has chosen the Name type and typed a name and a
title, each with white space around it. -/
def nameAndTitle : State :=
  typeTitle "Dr " (typeName " Alex" (selectType sampleConfig 0 samplePage))

/-- The sample page after the user has chosen the Both type and the second radio of
the name placement group. -/
def bothRightChest : State := choosePlacementName 1 (selectType sampleConfig 2 samplePage)

/-! ## Normal forms of the recomputations -/

/-- The overlay after `positionGuard`, from the inline displays of the popup and of
its action row, the layout and the overlay before: its box is that of the layout
when neither is hidden, and else unchanged. -/
def boxed (root actions : String) (layout : Option Geometry) (g : Guard) : Guard :=
  if root == "none" || actions == "none" then g
  else
    match layout with
    | none => g
    | some b => { g with left := b.left, top := b.top, width := b.width, height := b.height }

/-- The overlay after `syncGuard`. -/
def synced (root actions : String) (layout : Option Geometry) (terms : Option Bool)
    (g : Guard) : Guard :=
  { boxed root actions layout g with
    display := (if !(terms == some true) then "block" else "none") }

/-- The display of the error element after `showTermsError(false)`. -/
def hiddenError (w : Option TermsWrap) (e : Option String) : Option String :=
  match w, e with
  | some _, some _ => some "none"
  | _, _ => e

/-- The classes of the wrapper after `showTermsError(false)`. -/
def calmWrap (w : Option TermsWrap) (e : Option String) : Option TermsWrap :=
  match w, e with
  | some x, some _ => some { isError := false, isShake := x.isShake }
  | _, _ => w

/-- The display of the error element after `syncGuard`. -/
def syncedError (terms : Option Bool) (w : Option TermsWrap) (e : Option String) :
    Option String :=
  if terms == some true then hiddenError w e else e

/-- The classes of the wrapper after `syncGuard`. -/
def syncedWrap (terms : Option Bool) (w : Option TermsWrap) (e : Option String) :
    Option TermsWrap :=
  if terms == some true then calmWrap w e else w

/-- The logo image after `updateLogoPreview` when no native file is selected. -/
def logoImage (s : State) (lp : LogoPreview) : LogoPreview :=
  if getType s != "logo" && getType s != "both" then { lp with display := "none", src := "" }
  else if truthy (getUploaderyFileDetails s).fileUrl then
    { placeLogo (getSelected s.placementLogoRadios)
        { lp with src := (getUploaderyFileDetails s).fileUrl } with
      top := (if getType s == "both" then "42%" else "41%"), display := "" }
  else { lp with display := "none", src := "", top := "41%" }

/-- The text preview after `updatePreview`. -/
def textImage (s : State) (pv : PreviewEl) : PreviewEl :=
  if !truthy (getType s) then { pv with display := "none" }
  else if getType s == "logo" then { pv with display := "none" }
  else renderText s { pv with display := "" }

/-- The logo image after `updatePreview` when no native file is selected. -/
def previewLogo (s : State) (lp : LogoPreview) : LogoPreview :=
  if !truthy (getType s) then { lp with display := "none" }
  else if getType s == "logo" then logoImage s lp
  else if getType s == "both" then logoImage s lp
  else { lp with display := "none" }

/-- The sample configuration with a base price of 7099999999998401 cents. -/
def largeBase : Config := { sampleConfig with basePrice := some 7099999999998401 }

/-! ## Validity -/

/-- A string is truthy exactly when it is not the empty string. -/
theorem truthy_iff (x : String) : truthy x = true ↔ x ≠ "" := by
  simp [truthy]

/-- Claim C1.  The validity that `updateAddState` computes is false whenever the
consent checkbox is not ticked (or is missing), for every selected type and every
value of the other fields, and it is false whenever no type is selected. -/
theorem validity_false_without_consent_or_type (s : State) :
    (termsChecked s = false → validity s = false) ∧
    (getType s = "" → validity s = false) := by
  constructor
  · intro h
    simp [validity, h]
  · intro h
    simp [validity, h, truthy]

/-- Claim C2, counterexample.  With the Name type selected and consent given, a name
field that holds one blank is not the empty string, yet the validity is false. -/
theorem validity_name_blank_counterexample :
    getType nameOnlyBlank = "name" ∧ termsChecked nameOnlyBlank = true ∧
    nameOnlyBlank.nameInput = some " " ∧ nameOnlyBlank.titleInput = some "" ∧
    validity nameOnlyBlank = false := by
  decide

/-- Claim C2, amended.  With the Name type selected and consent given, the validity
is true exactly when the name or the title is not empty once trimmed (a missing
field counts as empty), and it does not depend on the placement, colour and font
groups. -/
theorem validity_name_iff_trimmed (s : State) (hType : getType s = "name")
    (hTerms : termsChecked s = true) :
    (validity s = true ↔
      (jsTrim (s.nameInput.getD "") ≠ "" ∨ jsTrim (s.titleInput.getD "") ≠ "")) ∧
    (∀ p c f l : List Radio,
      validity { s with placementNameRadios := p, colorNameRadios := c,
                        fontNameRadios := f, placementLogoRadios := l } = validity s) := by
  constructor
  · simp only [validity, hType, hTerms, hasName, hasTitle]
    cases hn : s.nameInput <;> cases ht : s.titleInput <;> simp [truthy, jsTrim, trimChars]
  · intro p c f l
    rfl

/-- Witness of `validity_name_iff_trimmed` on the page where the name field holds
a name and the title is empty. -/
theorem validity_name_iff_trimmed_witness :
    getType nameAlex = "name" ∧ termsChecked nameAlex = true ∧ validity nameAlex = true :=
  ⟨by decide, by decide,
    (validity_name_iff_trimmed nameAlex (by decide) (by decide)).1.mpr (Or.inl (by decide))⟩

/-- One turn of the loop of `getUploaderyFileDetails` keeps the URL found so far
unless the value is not empty once trimmed. -/
theorem detailsStep_fileUrl (d : FileDetails) (raw : String) :
    (detailsStep d raw).fileUrl = d.fileUrl ∨ truthy (jsTrim raw) = true := by
  unfold detailsStep
  by_cases h : truthy (jsTrim raw) = true
  · exact Or.inr h
  · left
    simp [h]

/-- The loop of `getUploaderyFileDetails` keeps its initial URL unless one of the
values is not empty once trimmed. -/
theorem foldl_detailsStep_fileUrl (vs : List String) (d : FileDetails) :
    (vs.foldl detailsStep d).fileUrl = d.fileUrl ∨ ∃ v ∈ vs, truthy (jsTrim v) = true := by
  induction vs generalizing d with
  | nil => exact Or.inl rfl
  | cons v rest ih =>
    rcases ih (detailsStep d v) with h | ⟨w, hw, hv⟩
    · rcases detailsStep_fileUrl d v with h2 | h2
      · left
        simpa [List.foldl, h2] using h
      · exact Or.inr ⟨v, List.mem_cons_self _ _, h2⟩
    · exact Or.inr ⟨w, List.mem_cons_of_mem _ hw, hv⟩

/-- A URL resolved by `getUploaderyFileDetails` implies `hasUploaderyLogo`. -/
theorem fileUrl_hasUploaderyLogo (s : State)
    (h : (getUploaderyFileDetails s).fileUrl ≠ "") : hasUploaderyLogo s = true := by
  have hfold : (getUploaderyFileDetails s).fileUrl =
      ((uploaderyValues s).foldl detailsStep ⟨"", ""⟩).fileUrl := by
    unfold getUploaderyFileDetails
    simp only []
    split <;> rfl
  rw [hfold] at h
  rcases foldl_detailsStep_fileUrl (uploaderyValues s) ⟨"", ""⟩ with h2 | ⟨v, hv, ht⟩
  · exact absurd h2 h
  · simp only [hasUploaderyLogo, List.any_eq_true]
    exact ⟨v, hv, ht⟩

/-- Claim C3, counterexample.  With the Logo type selected and consent given: on
`logoLocalFile` a local file is selected and the validity is false; on
`logoNameOnly` the validity is true although no local file is selected and
`getUploaderyFileDetails` resolves an empty `fileUrl`. -/
theorem validity_logo_asset_counterexample :
    (getType logoLocalFile = "logo" ∧ termsChecked logoLocalFile = true ∧
      localFile logoLocalFile = some sampleFile ∧ validity logoLocalFile = false) ∧
    (getType logoNameOnly = "logo" ∧ termsChecked logoNameOnly = true ∧
      localFile logoNameOnly = none ∧ (getUploaderyFileDetails logoNameOnly).fileUrl = "" ∧
      validity logoNameOnly = true) := by
  decide

/-- Claim C3, amended.  With the Logo type selected and consent given, the validity
is true exactly when some hidden input of the two upload containers has a value
that is not empty once trimmed; a non-empty resolved `fileUrl` is sufficient for
that; the name, the title and the native file input do not influence it. -/
theorem validity_logo_iff_uploadery (s : State) (hType : getType s = "logo")
    (hTerms : termsChecked s = true) :
    (validity s = true ↔ ∃ v ∈ uploaderyValues s, jsTrim v ≠ "") ∧
    ((getUploaderyFileDetails s).fileUrl ≠ "" → validity s = true) ∧
    (∀ (n t : Option String) (f : Option FileInput),
      validity { s with nameInput := n, titleInput := t, fileInput := f } = validity s) := by
  have hv : validity s = hasUploaderyLogo s := by
    simp [validity, hType, hTerms, truthy]
  refine ⟨?_, ?_, ?_⟩
  · rw [hv]
    simp [hasUploaderyLogo, truthy]
  · intro h
    rw [hv]
    exact fileUrl_hasUploaderyLogo s h
  · intro n t f
    have h1 : getType { s with nameInput := n, titleInput := t, fileInput := f } = "logo" :=
      hType
    have h2 : termsChecked { s with nameInput := n, titleInput := t, fileInput := f } = true :=
      hTerms
    rw [hv]
    simp [validity, h1, h2, truthy, hasUploaderyLogo, uploaderyValues]

/-- Witness of `validity_logo_iff_uploadery` on the page whose upload container
holds a file name. -/
theorem validity_logo_iff_uploadery_witness :
    getType logoNameOnly = "logo" ∧ termsChecked logoNameOnly = true ∧
    validity logoNameOnly = true :=
  ⟨by decide, by decide,
    (validity_logo_iff_uploadery logoNameOnly (by decide) (by decide)).1.mpr
      ⟨"logo.png", by decide, by decide⟩⟩

/-- Claim C4.  With consent given, the validity computed with the Both type selected
is the conjunction of the validity computed with Name selected and the validity
computed with Logo selected, the rest of the page being the same; it is the
conjunction of name-or-title present and logo present. -/
theorem validity_both_eq_and (s : State) (rb rn rl : List Radio)
    (hTerms : termsChecked s = true) (hb : getSelected rb = "both")
    (hn : getSelected rn = "name") (hl : getSelected rl = "logo") :
    validity { s with typeRadios := rb } =
      (validity { s with typeRadios := rn } && validity { s with typeRadios := rl }) ∧
    validity { s with typeRadios := rb } =
      ((hasName s || hasTitle s) && hasUploaderyLogo s) := by
  have h1 : termsChecked { s with typeRadios := rb } = true := hTerms
  have h2 : termsChecked { s with typeRadios := rn } = true := hTerms
  have h3 : termsChecked { s with typeRadios := rl } = true := hTerms
  simp [validity, getType, hb, hn, hl, h1, h2, h3, truthy, hasName, hasTitle,
    hasUploaderyLogo, uploaderyValues]

/-- Witness of `validity_both_eq_and` on the page `logoNameOnly` with a title
typed, for the three selections of the sample type radios. -/
theorem validity_both_eq_and_witness :
    validity { typeTitle "Captain" logoNameOnly with
        typeRadios := [⟨"name", false⟩, ⟨"logo", false⟩, ⟨"both", true⟩] } =
      (validity { typeTitle "Captain" logoNameOnly with
          typeRadios := [⟨"name", true⟩, ⟨"logo", false⟩, ⟨"both", false⟩] } &&
        validity { typeTitle "Captain" logoNameOnly with
          typeRadios := [⟨"name", false⟩, ⟨"logo", true⟩, ⟨"both", false⟩] }) :=
  (validity_both_eq_and (typeTitle "Captain" logoNameOnly) _ _ _
    (by decide) (by decide) (by decide) (by decide)).1

/-! ## Add button and guard overlay -/

/-- The function `showTermsError` leaves the consent checkbox as it is. -/
theorem showTermsError_terms (b : Bool) (s : State) : (showTermsError b s).terms = s.terms := by
  unfold showTermsError
  split <;> rfl

/-- The function `positionGuard` leaves the consent checkbox as it is. -/
theorem positionGuard_terms (s : State) : (positionGuard s).terms = s.terms := by
  unfold positionGuard
  split
  · rfl
  · split <;> rfl

/-- The function `updateLogoPreview` leaves the consent checkbox as it is. -/
theorem updateLogoPreview_terms (s : State) : (updateLogoPreview s).terms = s.terms := by
  unfold updateLogoPreview
  split
  · rfl
  · simp only []
    split
    · rfl
    · split
      · split <;> rfl
      · rfl

/-- The function `syncGuard` leaves the consent checkbox as it is. -/
theorem syncGuard_terms (s : State) : (syncGuard s).terms = s.terms := by
  unfold syncGuard
  simp only []
  split
  · rw [showTermsError_terms]
    exact positionGuard_terms s
  · exact positionGuard_terms s

/-- After `syncGuard` the Add button is disabled and the overlay displayed exactly
when consent is not given. -/
theorem syncGuard_btnAdd (s : State) :
    (syncGuard s).btnAddDisabled = !termsChecked s ∧
    (syncGuard s).guard.display = (if termsChecked s then "none" else "block") := by
  have hp : termsChecked (positionGuard s) = termsChecked s := by
    simp [termsChecked, positionGuard_terms]
  unfold syncGuard
  simp only [hp]
  cases h : termsChecked s
  · simp
  · simp [showTermsError]
    split <;> simp

/-- The function `updateAddState` leaves the consent checkbox as it is. -/
theorem updateAddState_terms (s : State) : (updateAddState s).terms = s.terms := by
  unfold updateAddState
  simp only []
  rw [syncGuard_terms]
  split
  · exact updateLogoPreview_terms s
  · rfl

/-- After `updateAddState` the Add button is disabled exactly when consent is not
given: the value `!valid` written first is overwritten by `syncGuard`. -/
theorem updateAddState_btnAdd (s : State) :
    (updateAddState s).btnAddDisabled = !termsChecked s ∧
    (updateAddState s).guard.display = (if termsChecked s then "none" else "block") := by
  have ht : ∀ x : State, x.terms = s.terms → termsChecked x = termsChecked s := by
    intro x hx
    simp [termsChecked, hx]
  unfold updateAddState
  simp only []
  split
  · have e : termsChecked { updateLogoPreview s with btnAddDisabled := !validity s } =
        termsChecked s := ht _ (updateLogoPreview_terms s)
    have h := syncGuard_btnAdd { updateLogoPreview s with btnAddDisabled := !validity s }
    rw [e] at h
    exact h
  · have e : termsChecked { s with btnAddDisabled := !validity s } = termsChecked s :=
      ht _ rfl
    have h := syncGuard_btnAdd { s with btnAddDisabled := !validity s }
    rw [e] at h
    exact h

/-- Claim C5, the code at the failing input.  On the page where Logo is selected,
consent is given and no logo is uploaded, the validity is false and yet the Add
button is enabled after `updateAddState`. -/
theorem updateAddState_enables_invalid :
    getType logoConsented = "logo" ∧ termsChecked logoConsented = true ∧
    hasUploaderyLogo logoConsented = false ∧ validity logoConsented = false ∧
    (updateAddState logoConsented).btnAddDisabled = false := by
  decide

/-- Claim C6, the code at the failing input.  On the page where Logo is selected,
consent is given and no logo is uploaded, the validity is false; after
`updateAddState` the Add button is enabled and the overlay hidden, and the Add
handler runs the whole transaction: the summary is shown, the carrier fields are
appended to the form, one event is dispatched, consent is reset and the popup is
closed. -/
theorem commit_not_blocked_when_invalid :
    validity logoConsented = false ∧
    (updateAddState logoConsented).btnAddDisabled = false ∧
    (updateAddState logoConsented).guard.display = "none" ∧
    (onAddClick sampleConfig sampleNow (updateAddState logoConsented)).summary.customSummary
      = some "block" ∧
    (onAddClick sampleConfig sampleNow (updateAddState logoConsented)).summary.summaryType
      = some "Logo" ∧
    (onAddClick sampleConfig sampleNow (updateAddState logoConsented)).carriers.embTypeInput
      = some "Logo" ∧
    (onAddClick sampleConfig sampleNow (updateAddState logoConsented)).forms =
      [⟨[⟨"id", "42"⟩, ⟨"quantity", "1"⟩, ⟨"properties[Embroidery]", "Yes"⟩,
         ⟨"properties[Embroidery Type]", "Logo"⟩,
         ⟨"properties[Embroidery Placement]", "Left Chest"⟩,
         ⟨"properties[Embroidery Placement Logo]", "Left Chest"⟩,
         ⟨"properties[Embroidery Price]", "20"⟩,
         ⟨"properties[Embroidery Instance]", "1700000000000"⟩]⟩] ∧
    (onAddClick sampleConfig sampleNow (updateAddState logoConsented)).events.length = 1 ∧
    (onAddClick sampleConfig sampleNow (updateAddState logoConsented)).terms = some false ∧
    (onAddClick sampleConfig sampleNow (updateAddState logoConsented)).rootDisplay = "none" := by
  decide

/-- Claim C7, counterexample.  On a page whose consent checkbox is not inside a
`.so-terms` element, the Add handler run without consent focuses the checkbox but
leaves the terms error hidden. -/
theorem addClick_no_wrapper_counterexample :
    noWrapper.terms = some false ∧ termsChecked noWrapper = false ∧
    noWrapper.termsError = some "none" ∧
    (onAddClick sampleConfig sampleNow noWrapper).termsError = some "none" ∧
    (onAddClick sampleConfig sampleNow noWrapper).termsWrap = none ∧
    (onAddClick sampleConfig sampleNow noWrapper).focusOnTerms = true := by
  decide

/-- The effect of showing the terms error and focusing the consent checkbox, the
common body of `nudgeToTerms` and of the consent check of the Add handler: nothing
but the error, the classes of its wrapper and the focus changes; the checkbox, when
there is one, receives the focus; with the wrapper and the error element present
the error is shown and both classes are set; without one of them the error and the
classes are as before. -/
theorem focusTerms_showTermsError (s : State) :
    { focusTerms (showTermsError true s) with
        termsError := s.termsError, termsWrap := s.termsWrap,
        focusOnTerms := s.focusOnTerms } = s ∧
    (s.terms.isSome = true → (focusTerms (showTermsError true s)).focusOnTerms = true) ∧
    (∀ w d, s.termsWrap = some w → s.termsError = some d →
      (focusTerms (showTermsError true s)).termsError = some "block" ∧
      (focusTerms (showTermsError true s)).termsWrap = some ⟨true, true⟩) ∧
    ((s.termsWrap = none ∨ s.termsError = none) →
      (focusTerms (showTermsError true s)).termsError = s.termsError ∧
      (focusTerms (showTermsError true s)).termsWrap = s.termsWrap) := by
  refine ⟨?_, ?_, ?_, ?_⟩
  · unfold focusTerms
    split <;> (unfold showTermsError; split <;> rfl)
  · intro hs
    unfold focusTerms
    rw [showTermsError_terms]
    cases hT : s.terms
    · simp [hT] at hs
    · rfl
  · intro w d hw hd
    unfold focusTerms
    rw [showTermsError_terms]
    cases hT : s.terms <;> simp [showTermsError, hw, hd]
  · intro hn
    have hs : showTermsError true s = s := by
      unfold showTermsError
      rcases hn with hn | hn
      · rw [hn]
      · rw [hn]
        cases s.termsWrap <;> rfl
    unfold focusTerms
    rw [hs]
    cases s.terms <;> exact ⟨rfl, rfl⟩

/-- Claim C7, amended.  When the Add handler runs without consent, every part of
the page other than the terms error, the classes of its wrapper and the focus is
left as it was; the consent checkbox, when there is one, receives the focus; when
the wrapper and the error element exist, the error is shown with the error and
shake classes set; and when one of them is missing the error element and the
classes of the wrapper are as before, so that no error is shown. -/
theorem addClick_without_consent_fails_closed (cfg : Config) (now : String) (s : State)
    (h : termsChecked s = false) :
    { onAddClick cfg now s with termsError := s.termsError, termsWrap := s.termsWrap,
                                focusOnTerms := s.focusOnTerms } = s ∧
    (s.terms.isSome = true → (onAddClick cfg now s).focusOnTerms = true) ∧
    (∀ w d, s.termsWrap = some w → s.termsError = some d →
      (onAddClick cfg now s).termsError = some "block" ∧
      (onAddClick cfg now s).termsWrap = some ⟨true, true⟩) ∧
    ((s.termsWrap = none ∨ s.termsError = none) →
      (onAddClick cfg now s).termsError = s.termsError ∧
      (onAddClick cfg now s).termsWrap = s.termsWrap) := by
  have hr : onAddClick cfg now s = focusTerms (showTermsError true s) := by
    simp [onAddClick, h]
  rw [hr]
  exact focusTerms_showTermsError s

/-- Witness of `addClick_without_consent_fails_closed` on the sample page with Logo
selected and consent not given. -/
theorem addClick_without_consent_fails_closed_witness :
    termsChecked logoUnticked = false ∧
    (onAddClick sampleConfig sampleNow logoUnticked).termsError = some "block" ∧
    (onAddClick sampleConfig sampleNow logoUnticked).termsWrap = some ⟨true, true⟩ ∧
    (onAddClick sampleConfig sampleNow logoUnticked).focusOnTerms = true :=
  ⟨by decide,
   ((addClick_without_consent_fails_closed sampleConfig sampleNow logoUnticked
      (by decide)).2.2.1 ⟨false, false⟩ "none" (by decide) (by decide)).1,
   ((addClick_without_consent_fails_closed sampleConfig sampleNow logoUnticked
      (by decide)).2.2.1 ⟨false, false⟩ "none" (by decide) (by decide)).2,
   (addClick_without_consent_fails_closed sampleConfig sampleNow logoUnticked
      (by decide)).2.1 (by decide)⟩

/-- A consent change event leaves the checkbox in the state the user gave it. -/
theorem termsChange_terms (b : Bool) (s : State) (h : s.terms.isSome = true) :
    (termsChange b s).terms = some b := by
  unfold termsChange
  cases hT : s.terms
  · simp [hT] at h
  · simp only []
    rw [syncGuard_terms, showTermsError_terms, updateAddState_terms]

/-- After a consent change event the overlay is displayed exactly when the
checkbox was left unticked. -/
theorem termsChange_display (b : Bool) (s : State) (h : s.terms.isSome = true) :
    (termsChange b s).guard.display = (if b then "none" else "block") := by
  unfold termsChange
  cases hT : s.terms
  · simp [hT] at h
  · simp only []
    have hc : termsChecked
        (showTermsError false (updateAddState { s with terms := some b })) = b := by
      simp [termsChecked, showTermsError_terms, updateAddState_terms]
    have hd := (syncGuard_btnAdd
      (showTermsError false (updateAddState { s with terms := some b }))).2
    rw [hc] at hd
    exact hd

/-- The function `syncGuard` gives the overlay the box that the layout reports
when the popup and its action row are not hidden by their inline style. -/
theorem syncGuard_box (s : State) (g : Geometry) (hr : s.rootDisplay ≠ "none")
    (ha : s.actionsDisplay ≠ "none") (hl : s.layout = some g) :
    (syncGuard s).guard.left = g.left ∧ (syncGuard s).guard.top = g.top ∧
    (syncGuard s).guard.width = g.width ∧ (syncGuard s).guard.height = g.height := by
  have hp : positionGuard s =
      { s with guard := { s.guard with left := g.left, top := g.top,
                                       width := g.width, height := g.height } } := by
    simp [positionGuard, hr, ha, hl]
  unfold syncGuard
  simp only [hp]
  split
  · unfold showTermsError
    split <;> simp
  · simp

/-- Claim C8.  After every `syncGuard` call the overlay is displayed (`block`)
exactly when consent is not given and hidden (`none`) exactly when it is given, and
it then has the box of the Add button whenever the popup is laid out; the same
holds after every consent change event, so that ticking, unticking and ticking the
checkbox again leaves the overlay hidden, displayed and hidden in turn. -/
theorem syncGuard_overlay_iff_no_consent (s : State) :
    ((syncGuard s).guard.display = "block" ↔ termsChecked (syncGuard s) = false) ∧
    ((syncGuard s).guard.display = "none" ↔ termsChecked (syncGuard s) = true) ∧
    (∀ g, s.rootDisplay ≠ "none" → s.actionsDisplay ≠ "none" → s.layout = some g →
      (syncGuard s).guard.left = g.left ∧ (syncGuard s).guard.top = g.top ∧
      (syncGuard s).guard.width = g.width ∧ (syncGuard s).guard.height = g.height) ∧
    (∀ b, s.terms.isSome = true →
      termsChecked (termsChange b s) = b ∧
      (termsChange b s).guard.display = (if b then "none" else "block")) ∧
    (s.terms.isSome = true →
      (termsChange true s).guard.display = "none" ∧
      (termsChange false (termsChange true s)).guard.display = "block" ∧
      (termsChange true (termsChange false (termsChange true s))).guard.display = "none") := by
  have hc : termsChecked (syncGuard s) = termsChecked s := by
    simp [termsChecked, syncGuard_terms]
  have hd := (syncGuard_btnAdd s).2
  have hsome : ∀ (b : Bool) (x : State), x.terms.isSome = true →
      (termsChange b x).terms.isSome = true := by
    intro b x hx
    rw [termsChange_terms b x hx]
    rfl
  refine ⟨?_, ?_, ?_, ?_, ?_⟩
  · rw [hc, hd]
    cases termsChecked s <;> decide
  · rw [hc, hd]
    cases termsChecked s <;> decide
  · intro g hr ha hl
    exact syncGuard_box s g hr ha hl
  · intro b hs
    refine ⟨?_, termsChange_display b s hs⟩
    simp [termsChecked, termsChange_terms b s hs]
  · intro hs
    refine ⟨termsChange_display true s hs, ?_, ?_⟩
    · exact termsChange_display false _ (hsome true s hs)
    · exact termsChange_display true _ (hsome false _ (hsome true s hs))

/-- Claim C9, counterexample.  On a page whose consent checkbox is not inside a
`.so-terms` element, a click on the overlay is absorbed but the terms error stays
hidden and no attention cue is applied. -/
theorem nudge_no_wrapper_counterexample :
    noWrapper.termsError = some "none" ∧
    (nudgeToTerms clickEvent noWrapper).1.defaultPrevented = true ∧
    (nudgeToTerms clickEvent noWrapper).2.termsError = some "none" ∧
    (nudgeToTerms clickEvent noWrapper).2.termsWrap = none := by
  decide

/-- Claim C9, amended.  A click on the overlay, and an Enter or Space key press on
it, cancels the default action and the propagation of the event and leaves every
part of the page other than the terms error, the classes of its wrapper and the
focus as it was; the consent checkbox, when there is one, receives the focus; when
the wrapper and the error element exist, the error becomes visible and the error
and shake classes are set; and when one of them is missing the error element and
the classes of the wrapper are as before, so that no error or cue appears. -/
theorem guard_gesture_absorbed (e : DomEvent) (s : State) :
    ((e.key = "Enter" ∨ e.key = " ") → guardKeydown e s = nudgeToTerms e s) ∧
    (nudgeToTerms e s).1.defaultPrevented = true ∧
    (nudgeToTerms e s).1.propagationStopped = true ∧
    { (nudgeToTerms e s).2 with termsError := s.termsError, termsWrap := s.termsWrap,
                                focusOnTerms := s.focusOnTerms } = s ∧
    (s.terms.isSome = true → (nudgeToTerms e s).2.focusOnTerms = true) ∧
    (∀ w d, s.termsWrap = some w → s.termsError = some d →
      (nudgeToTerms e s).2.termsError = some "block" ∧
      (nudgeToTerms e s).2.termsWrap = some ⟨true, true⟩) ∧
    ((s.termsWrap = none ∨ s.termsError = none) →
      (nudgeToTerms e s).2.termsError = s.termsError ∧
      (nudgeToTerms e s).2.termsWrap = s.termsWrap) := by
  refine ⟨?_, rfl, rfl, ?_⟩
  · intro hk
    rcases hk with hk | hk <;> simp [guardKeydown, orElse, truthy, hk]
  · exact focusTerms_showTermsError s

/-! ## Recomputations leave the inputs alone -/

/-- The function `updateLogoPreview` changes no input. -/
theorem updateLogoPreview_inputs (s : State) : inputs (updateLogoPreview s) = inputs s := by
  unfold updateLogoPreview
  split
  · rfl
  · simp only []
    split
    · rfl
    · split
      · split <;> rfl
      · rfl

/-- The function `updatePreview` changes no input. -/
theorem updatePreview_inputs (s : State) : inputs (updatePreview s) = inputs s := by
  unfold updatePreview
  split
  · simp only []
    split
    · rfl
    · split
      · exact updateLogoPreview_inputs _
      · split
        · exact updateLogoPreview_inputs _
        · rfl
  · rfl

/-- The function `showTermsError` changes no input. -/
theorem showTermsError_inputs (b : Bool) (s : State) : inputs (showTermsError b s) = inputs s := by
  unfold showTermsError
  split <;> rfl

/-- The function `positionGuard` changes no input. -/
theorem positionGuard_inputs (s : State) : inputs (positionGuard s) = inputs s := by
  unfold positionGuard
  split
  · rfl
  · split <;> rfl

/-- The function `syncGuard` changes no input. -/
theorem syncGuard_inputs (s : State) : inputs (syncGuard s) = inputs s := by
  unfold syncGuard
  simp only []
  split
  · rw [showTermsError_inputs]
    exact positionGuard_inputs s
  · exact positionGuard_inputs s

/-- The function `updateAddState` changes no input. -/
theorem updateAddState_inputs (s : State) : inputs (updateAddState s) = inputs s := by
  unfold updateAddState
  simp only []
  rw [syncGuard_inputs]
  split
  · exact updateLogoPreview_inputs s
  · rfl

/-- Setting the display of the text preview changes no input. -/
theorem setPreviewDisplay_inputs (d : String) (s : State) :
    inputs (setPreviewDisplay d s) = inputs s := by
  unfold setPreviewDisplay
  split <;> rfl

/-- The first part of `toggleForms` changes no input. -/
theorem togglePanels_inputs (type : String) (s : State) :
    inputs (togglePanels type s) = inputs s := by
  unfold togglePanels
  split
  · split
    · exact setPreviewDisplay_inputs _ _
    · split
      · exact setPreviewDisplay_inputs _ _
      · split <;> exact setPreviewDisplay_inputs _ _
  · rfl

/-- The second part of `toggleForms` changes no input. -/
theorem toggleSeparator_inputs (type : String) (s : State) :
    inputs (toggleSeparator type s) = inputs s := by
  unfold toggleSeparator
  split <;> rfl

/-- The third part of `toggleForms` changes no input. -/
theorem toggleSubhead_inputs (cfg : Config) (type : String) (s : State) :
    inputs (toggleSubhead cfg type s) = inputs s := by
  unfold toggleSubhead
  split
  · rfl
  · split <;> rfl

/-- The function `toggleForms` changes no input. -/
theorem toggleForms_inputs (cfg : Config) (s : State) : inputs (toggleForms cfg s) = inputs s := by
  unfold toggleForms
  simp only []
  rw [toggleSubhead_inputs, toggleSeparator_inputs, togglePanels_inputs]

/-- The function `updateTypeLabel` changes no input. -/
theorem updateTypeLabel_inputs (s : State) : inputs (updateTypeLabel s) = inputs s := by
  unfold updateTypeLabel
  split
  · rfl
  · simp only []
    split
    · rfl
    · split
      · rfl
      · split
        · rfl
        · split <;> rfl

/-- The function `updateTypePillStyles` changes no input. -/
theorem updateTypePillStyles_inputs (s : State) : inputs (updateTypePillStyles s) = inputs s := by
  unfold updateTypePillStyles
  simp only []
  split
  · rfl
  · split
    · rfl
    · split <;> rfl

/-- The `input` listener of the text fields changes no input. -/
theorem inputListener_inputs (s : State) : inputs (inputListener s) = inputs s := by
  unfold inputListener
  rw [updateAddState_inputs, updatePreview_inputs]

/-! ## Type selector -/

/-- Emptying the title changes no other input. -/
theorem clearTitle_inputs (s : State) :
    inputs (clearTitle s) = { inputs s with titleInput := s.titleInput.map (fun _ => "") } := by
  unfold clearTitle
  split
  · rename_i v hv
    rw [inputListener_inputs]
    simp [inputs, hv]
  · rename_i hv
    simp [inputs, hv]

/-- Emptying the name changes no other input. -/
theorem clearName_inputs (s : State) :
    inputs (clearName s) = { inputs s with nameInput := s.nameInput.map (fun _ => "") } := by
  unfold clearName
  split
  · rename_i v hv
    rw [inputListener_inputs]
    simp [inputs, hv]
  · rename_i hv
    simp [inputs, hv]

/-- The loop over the title and the name empties both fields, when they exist, and
changes no other input. -/
theorem clearTextInputs_inputs (s : State) :
    inputs (clearTextInputs s) =
      { inputs s with titleInput := s.titleInput.map (fun _ => ""),
                      nameInput := s.nameInput.map (fun _ => "") } := by
  unfold clearTextInputs
  rw [clearName_inputs]
  have h := clearTitle_inputs s
  have hn : (clearTitle s).nameInput = s.nameInput := congrArg Inputs.nameInput h
  rw [hn, h]

/-- The function `clearNameFields` empties the title and the name, puts the three
option groups of the name form back on their first radio, and changes no other
input. -/
theorem clearNameFields_inputs (s : State) :
    inputs (clearNameFields s) =
      { inputs s with titleInput := s.titleInput.map (fun _ => ""),
                      nameInput := s.nameInput.map (fun _ => ""),
                      placementNameRadios := resetRadios s.placementNameRadios,
                      colorNameRadios := resetRadios s.colorNameRadios,
                      fontNameRadios := resetRadios s.fontNameRadios } := by
  have h := clearTextInputs_inputs s
  simp only [inputs, Inputs.mk.injEq] at h
  simp only [clearNameFields, inputs, Inputs.mk.injEq]
  simp [h]

/-- The function `enableLogoFileInput` changes no input but the file input. -/
theorem enableLogoFileInput_inputs (s : State) :
    { inputs (enableLogoFileInput s) with fileInput := s.fileInput } = inputs s := by
  unfold enableLogoFileInput
  split <;> rfl

/-- When the variable `currentType` holds a type other than `logo`, the `change`
listener of the Logo radio runs `clearNameFields`, unticks the consent checkbox,
enables the file input and recomputes the displays. -/
theorem onTypeChange_logo_eq (cfg : Config) (s : State)
    (h1 : s.currentType ≠ "") (h2 : s.currentType ≠ "logo") :
    onTypeChange cfg "logo" s =
      updateTypePillStyles (updateTypeLabel (updateAddState (updatePreview (toggleForms cfg
        (enableLogoFileInput
          { clearNameFields { s with currentType := "logo" } with
            terms := (clearNameFields { s with currentType := "logo" }).terms.map
              (fun _ => false) }))))) := by
  have hc : (truthy s.currentType && s.currentType != "logo") = true := by
    simp [truthy, h1, h2]
  have hne : ("logo" == "name") = false := by decide
  have heq : ("logo" == "logo") = true := by decide
  unfold onTypeChange
  simp only [hc, hne, heq, if_true, Bool.false_eq_true, if_false]

/-- When the variable `currentType` holds a type other than `logo`, the `change`
listener of the Logo radio empties the title and the name and puts the three
option groups of the name form back on their first radio. -/
theorem onTypeChange_logo_clears_name (cfg : Config) (s : State)
    (h1 : s.currentType ≠ "") (h2 : s.currentType ≠ "logo") :
    (onTypeChange cfg "logo" s).titleInput = s.titleInput.map (fun _ => "") ∧
    (onTypeChange cfg "logo" s).nameInput = s.nameInput.map (fun _ => "") ∧
    (onTypeChange cfg "logo" s).placementNameRadios = resetRadios s.placementNameRadios ∧
    (onTypeChange cfg "logo" s).colorNameRadios = resetRadios s.colorNameRadios ∧
    (onTypeChange cfg "logo" s).fontNameRadios = resetRadios s.fontNameRadios := by
  have hc := clearNameFields_inputs { s with currentType := "logo" }
  have he := enableLogoFileInput_inputs
    { clearNameFields { s with currentType := "logo" } with
      terms := (clearNameFields { s with currentType := "logo" }).terms.map (fun _ => false) }
  have hr : inputs (onTypeChange cfg "logo" s) =
      inputs (enableLogoFileInput
        { clearNameFields { s with currentType := "logo" } with
          terms := (clearNameFields { s with currentType := "logo" }).terms.map
            (fun _ => false) }) := by
    rw [onTypeChange_logo_eq cfg s h1 h2, updateTypePillStyles_inputs, updateTypeLabel_inputs,
      updateAddState_inputs, updatePreview_inputs, toggleForms_inputs]
  generalize onTypeChange cfg "logo" s = r at hr ⊢
  generalize enableLogoFileInput
    { clearNameFields { s with currentType := "logo" } with
      terms := (clearNameFields { s with currentType := "logo" }).terms.map
        (fun _ => false) } = d at hr he
  generalize clearNameFields { s with currentType := "logo" } = b at he hc
  simp only [inputs, Inputs.mk.injEq] at hr he hc
  obtain ⟨-, -, -, ht, hn, hp, hcol, hf, -⟩ := hr
  obtain ⟨-, -, -, ht2, hn2, hp2, hcol2, hf2, -⟩ := he
  obtain ⟨-, -, -, ht3, hn3, hp3, hcol3, hf3, -⟩ := hc
  exact ⟨ht.trans (ht2.trans ht3), hn.trans (hn2.trans hn3), hp.trans (hp2.trans hp3),
    hcol.trans (hcol2.trans hcol3), hf.trans (hf2.trans hf3)⟩

/-- Claim C10, the code at the failing input.  After Logo was chosen and Reset
pressed, Name is the selected type while the variable `currentType` still holds
`logo`; the user types a name and chooses the second placement; choosing Logo
then keeps the name and the placement. -/
theorem selectLogo_keeps_name_after_reset :
    getType resetThenAlex = "name" ∧ resetThenAlex.currentType = "logo" ∧
    resetThenAlex.nameInput = some "Alex" ∧
    getSelected resetThenAlex.placementNameRadios = "Right Chest" ∧
    getType (selectType sampleConfig 1 resetThenAlex) = "logo" ∧
    (selectType sampleConfig 1 resetThenAlex).nameInput = some "Alex" ∧
    getSelected (selectType sampleConfig 1 resetThenAlex).placementNameRadios
      = "Right Chest" := by
  decide

/-! ## Recomputations leave the outputs alone -/

/-- The function `updateLogoPreview` changes no output. -/
theorem updateLogoPreview_outputs (s : State) : outputs (updateLogoPreview s) = outputs s := by
  unfold updateLogoPreview
  split
  · rfl
  · simp only []
    split
    · rfl
    · split
      · split <;> rfl
      · rfl

/-- The function `updatePreview` changes no output. -/
theorem updatePreview_outputs (s : State) : outputs (updatePreview s) = outputs s := by
  unfold updatePreview
  split
  · simp only []
    split
    · rfl
    · split
      · exact updateLogoPreview_outputs _
      · split
        · exact updateLogoPreview_outputs _
        · rfl
  · rfl

/-- The function `showTermsError` changes no output. -/
theorem showTermsError_outputs (b : Bool) (s : State) :
    outputs (showTermsError b s) = outputs s := by
  unfold showTermsError
  split <;> rfl

/-- The function `positionGuard` changes no output. -/
theorem positionGuard_outputs (s : State) : outputs (positionGuard s) = outputs s := by
  unfold positionGuard
  split
  · rfl
  · split <;> rfl

/-- The function `syncGuard` changes no output. -/
theorem syncGuard_outputs (s : State) : outputs (syncGuard s) = outputs s := by
  unfold syncGuard
  simp only []
  split
  · rw [showTermsError_outputs]
    exact positionGuard_outputs s
  · exact positionGuard_outputs s

/-- The function `updateAddState` changes no output. -/
theorem updateAddState_outputs (s : State) : outputs (updateAddState s) = outputs s := by
  unfold updateAddState
  simp only []
  rw [syncGuard_outputs]
  split
  · exact updateLogoPreview_outputs s
  · rfl

/-- Setting the display of the text preview changes no output. -/
theorem setPreviewDisplay_outputs (d : String) (s : State) :
    outputs (setPreviewDisplay d s) = outputs s := by
  unfold setPreviewDisplay
  split <;> rfl

/-- The first part of `toggleForms` changes no output. -/
theorem togglePanels_outputs (type : String) (s : State) :
    outputs (togglePanels type s) = outputs s := by
  unfold togglePanels
  split
  · split
    · exact setPreviewDisplay_outputs _ _
    · split
      · exact setPreviewDisplay_outputs _ _
      · split <;> exact setPreviewDisplay_outputs _ _
  · rfl

/-- The second part of `toggleForms` changes no output. -/
theorem toggleSeparator_outputs (type : String) (s : State) :
    outputs (toggleSeparator type s) = outputs s := by
  unfold toggleSeparator
  split <;> rfl

/-- The third part of `toggleForms` changes no output. -/
theorem toggleSubhead_outputs (cfg : Config) (type : String) (s : State) :
    outputs (toggleSubhead cfg type s) = outputs s := by
  unfold toggleSubhead
  split
  · rfl
  · split <;> rfl

/-- The function `toggleForms` changes no output. -/
theorem toggleForms_outputs (cfg : Config) (s : State) :
    outputs (toggleForms cfg s) = outputs s := by
  unfold toggleForms
  simp only []
  rw [toggleSubhead_outputs, toggleSeparator_outputs, togglePanels_outputs]

/-- The function `updateTypeLabel` changes no output. -/
theorem updateTypeLabel_outputs (s : State) : outputs (updateTypeLabel s) = outputs s := by
  unfold updateTypeLabel
  split
  · rfl
  · simp only []
    split
    · rfl
    · split
      · rfl
      · split
        · rfl
        · split <;> rfl

/-- The function `updateTypePillStyles` changes no output. -/
theorem updateTypePillStyles_outputs (s : State) :
    outputs (updateTypePillStyles s) = outputs s := by
  unfold updateTypePillStyles
  simp only []
  split
  · rfl
  · split
    · rfl
    · split <;> rfl

/-- The `input` listener of the text fields changes no output. -/
theorem inputListener_outputs (s : State) : outputs (inputListener s) = outputs s := by
  unfold inputListener
  rw [updateAddState_outputs, updatePreview_outputs]

/-- The function `clearNameFields` changes no output. -/
theorem clearNameFields_outputs (s : State) : outputs (clearNameFields s) = outputs s := by
  have ht : outputs (clearTitle s) = outputs s := by
    unfold clearTitle
    split
    · rw [inputListener_outputs]
      rfl
    · rfl
  have hn : outputs (clearName (clearTitle s)) = outputs (clearTitle s) := by
    unfold clearName
    split
    · rw [inputListener_outputs]
      rfl
    · rfl
  have hx : outputs (clearNameFields s) = outputs (clearTextInputs s) := rfl
  rw [hx]
  unfold clearTextInputs
  rw [hn, ht]

/-- The function `clearLogoFields` changes no output. -/
theorem clearLogoFields_outputs (s : State) : outputs (clearLogoFields s) = outputs s := by
  unfold clearLogoFields clearFileValue
  split <;> rfl

/-- The function `clearLogoFields` empties the file input, puts the logo placement
group back on its first radio and changes no other input. -/
theorem clearLogoFields_inputs (s : State) :
    inputs (clearLogoFields s) =
      { inputs s with fileInput := s.fileInput.map (fun f => { f with file := none }),
                      placementLogoRadios := resetRadios s.placementLogoRadios } := by
  unfold clearLogoFields clearFileValue
  split
  · rename_i f hf
    simp [inputs, hf]
  · rename_i hf
    simp [inputs, hf]

/-- The function `disableAndClearLogoFileInput` disables and empties the file input
and changes no other input. -/
theorem disableAndClearLogoFileInput_inputs (s : State) :
    inputs (disableAndClearLogoFileInput s) =
      { inputs s with fileInput := s.fileInput.map (fun _ => ⟨none, true, false⟩) } := by
  unfold disableAndClearLogoFileInput
  split
  · rename_i f hf
    simp [inputs, hf]
  · rename_i hf
    simp [inputs, hf]

/-- The function `enableLogoFileInput` enables the file input, keeps its file and
changes no other input. -/
theorem enableLogoFileInput_inputs_eq (s : State) :
    inputs (enableLogoFileInput s) =
      { inputs s with
        fileInput := s.fileInput.map (fun f => { f with disabled := false, required := true }) } := by
  unfold enableLogoFileInput
  split
  · rename_i f hf
    simp [inputs, hf]
  · rename_i hf
    simp [inputs, hf]

/-! ## Commit transaction -/

/-- The outputs after `finalize`: the summary, the hidden inputs and the forms as
written from the collected values, one more event, the open button relabelled. -/
theorem finalize_outputs (cfg : Config) (now type : String) (v : Snapshot) (s : State) :
    outputs (finalize cfg now type v s) =
      { summary := writeSummary cfg type v s.summary,
        carriers := writeCarriers type v s.carriers,
        forms := writeForms now (writeCarriers type v s.carriers) s.forms,
        events := s.events ++ [applyDetail type v],
        openBtn := relabelOpenBtn s.openBtn } := by
  unfold finalize
  simp only []
  have h1 : ∀ x : State, outputs { x with rootDisplay := "none" } = outputs x := fun _ => rfl
  have h2 : ∀ x : State, outputs
      { x with terms := x.terms.map (fun _ => false), currentType := "" } = outputs x :=
    fun _ => rfl
  rw [h1, updateAddState_outputs, updateTypePillStyles_outputs, updateTypeLabel_outputs,
    updatePreview_outputs, toggleForms_outputs, h2, clearLogoFields_outputs,
    clearNameFields_outputs]
  rfl

/-- The inputs after `finalize`: title and name emptied, the four option groups
back on their first radio, the native file input emptied, consent unticked, the
variable `currentType` empty; the type radios and the hidden inputs of the upload
widget are as before. -/
theorem finalize_inputs (cfg : Config) (now type : String) (v : Snapshot) (s : State) :
    inputs (finalize cfg now type v s) =
      { typeRadios := s.typeRadios,
        currentType := "",
        terms := s.terms.map (fun _ => false),
        titleInput := s.titleInput.map (fun _ => ""),
        nameInput := s.nameInput.map (fun _ => ""),
        placementNameRadios := resetRadios s.placementNameRadios,
        colorNameRadios := resetRadios s.colorNameRadios,
        fontNameRadios := resetRadios s.fontNameRadios,
        placementLogoRadios := resetRadios s.placementLogoRadios,
        fileInput := s.fileInput.map (fun f => { f with file := none }),
        uploaderyContainer := s.uploaderyContainer,
        uploaderyHiddenContainer := s.uploaderyHiddenContainer } := by
  unfold finalize
  simp only []
  have h1 : ∀ x : State, inputs { x with rootDisplay := "none" } = inputs x := fun _ => rfl
  have h2 : ∀ x : State, inputs
      { x with terms := x.terms.map (fun _ => false), currentType := "" } =
      { inputs x with terms := x.terms.map (fun _ => false), currentType := "" } :=
    fun _ => rfl
  rw [h1, updateAddState_inputs, updateTypePillStyles_inputs, updateTypeLabel_inputs,
    updatePreview_inputs, toggleForms_inputs, h2]
  have hl := clearLogoFields_inputs (clearNameFields
    { s with summary := writeSummary cfg type v s.summary,
             carriers := writeCarriers type v s.carriers,
             openBtn := relabelOpenBtn s.openBtn,
             events := s.events ++ [applyDetail type v],
             forms := writeForms now (writeCarriers type v s.carriers) s.forms })
  have hn := clearNameFields_inputs
    { s with summary := writeSummary cfg type v s.summary,
             carriers := writeCarriers type v s.carriers,
             openBtn := relabelOpenBtn s.openBtn,
             events := s.events ++ [applyDetail type v],
             forms := writeForms now (writeCarriers type v s.carriers) s.forms }
  generalize clearLogoFields (clearNameFields
    { s with summary := writeSummary cfg type v s.summary,
             carriers := writeCarriers type v s.carriers,
             openBtn := relabelOpenBtn s.openBtn,
             events := s.events ++ [applyDetail type v],
             forms := writeForms now (writeCarriers type v s.carriers) s.forms }) = c at hl ⊢
  generalize clearNameFields
    { s with summary := writeSummary cfg type v s.summary,
             carriers := writeCarriers type v s.carriers,
             openBtn := relabelOpenBtn s.openBtn,
             events := s.events ++ [applyDetail type v],
             forms := writeForms now (writeCarriers type v s.carriers) s.forms } = b at hl hn
  simp only [inputs, Inputs.mk.injEq] at hl hn ⊢
  obtain ⟨a1, a2, a3, a4, a5, a6, a7, a8, a9, a10, a11, a12⟩ := hl
  obtain ⟨b1, b2, b3, b4, b5, b6, b7, b8, b9, b10, b11, b12⟩ := hn
  refine ⟨a1.trans b1, trivial, ?_, a4.trans b4, a5.trans b5, a6.trans b6, a7.trans b7,
    a8.trans b8, ?_, ?_, a11.trans b11, a12.trans b12⟩
  · rw [a3, b3]
  · rw [a9, b9]
  · rw [a10, b10]

/-! ## Type selector, continued -/

/-- The listener `onTypeChange` is its first part followed by the recomputations. -/
theorem onTypeChange_eq (cfg : Config) (t : String) (s : State) :
    onTypeChange cfg t s =
      updateTypePillStyles (updateTypeLabel (updateAddState (updatePreview
        (toggleForms cfg (switchFields t s))))) := rfl

/-- The inputs after `onTypeChange` are those after its first part. -/
theorem onTypeChange_inputs (cfg : Config) (t : String) (s : State) :
    inputs (onTypeChange cfg t s) = inputs (switchFields t s) := by
  rw [onTypeChange_eq, updateTypePillStyles_inputs, updateTypeLabel_inputs,
    updateAddState_inputs, updatePreview_inputs, toggleForms_inputs]

/-- The choice of an unchecked type radio runs `onTypeChange` with its value, on the
page where that radio alone is checked. -/
theorem selectType_eq (cfg : Config) (i : Nat) (r : Radio) (s : State)
    (hr : s.typeRadios.get? i = some r) (hc : r.checked = false) :
    selectType cfg i s =
      onTypeChange cfg r.value { s with typeRadios := checkOnly i s.typeRadios } := by
  unfold selectType
  rw [hr]
  simp [hc]

/-- The inputs after the choice of Both: the variable `currentType` is `both`, the
file input is disabled and emptied, consent is unticked when `currentType` held
another type, and nothing else changes. -/
theorem switchFields_both_inputs (s : State) :
    inputs (switchFields "both" s) =
      { inputs s with
        currentType := "both",
        terms := (if truthy s.currentType && s.currentType != "both"
                  then s.terms.map (fun _ => false) else s.terms),
        fileInput := s.fileInput.map (fun _ => ⟨none, true, false⟩) } := by
  have hn : ("both" == "name") = false := by decide
  have hl : ("both" == "logo") = false := by decide
  unfold switchFields
  simp only [hn, hl, Bool.false_eq_true, if_false]
  rw [disableAndClearLogoFileInput_inputs]
  split <;> rfl

/-- The inputs after the choice of Name while `currentType` holds another type:
the logo placement is back on its first radio, the file input is disabled and
emptied, consent is unticked, and nothing else changes. -/
theorem switchFields_name_inputs (s : State) (h1 : s.currentType ≠ "")
    (h2 : s.currentType ≠ "name") :
    inputs (switchFields "name" s) =
      { inputs s with
        currentType := "name",
        terms := s.terms.map (fun _ => false),
        placementLogoRadios := resetRadios s.placementLogoRadios,
        fileInput := s.fileInput.map (fun _ => ⟨none, true, false⟩) } := by
  have hc : (truthy s.currentType && s.currentType != "name") = true := by
    simp [truthy, h1, h2]
  have hn : ("name" == "name") = true := by decide
  have hl : ("name" == "logo") = false := by decide
  unfold switchFields
  simp only [hc, hn, hl, if_true, Bool.false_eq_true, if_false]
  rw [disableAndClearLogoFileInput_inputs]
  have h := clearLogoFields_inputs { s with currentType := "name" }
  generalize clearLogoFields { s with currentType := "name" } = c at h ⊢
  simp only [inputs, Inputs.mk.injEq] at h ⊢
  obtain ⟨a1, a2, a3, a4, a5, a6, a7, a8, a9, a10, a11, a12⟩ := h
  refine ⟨a1, a2, ?_, a4, a5, a6, a7, a8, a9, ?_, a11, a12⟩
  · rw [a3]
  · rw [a10]
    cases s.fileInput <;> rfl

/-- The inputs after the choice of Logo while `currentType` holds another type:
title and name are emptied, the three groups of the name form are back on their
first radio, the file input is enabled, consent is unticked, and nothing else
changes. -/
theorem switchFields_logo_inputs (s : State) (h1 : s.currentType ≠ "")
    (h2 : s.currentType ≠ "logo") :
    inputs (switchFields "logo" s) =
      { inputs s with
        currentType := "logo",
        terms := s.terms.map (fun _ => false),
        titleInput := s.titleInput.map (fun _ => ""),
        nameInput := s.nameInput.map (fun _ => ""),
        placementNameRadios := resetRadios s.placementNameRadios,
        colorNameRadios := resetRadios s.colorNameRadios,
        fontNameRadios := resetRadios s.fontNameRadios,
        fileInput := s.fileInput.map (fun f => { f with disabled := false, required := true }) } := by
  have hc : (truthy s.currentType && s.currentType != "logo") = true := by
    simp [truthy, h1, h2]
  have hn : ("logo" == "name") = false := by decide
  have hl : ("logo" == "logo") = true := by decide
  unfold switchFields
  simp only [hc, hn, hl, if_true, Bool.false_eq_true, if_false]
  rw [enableLogoFileInput_inputs_eq]
  have h := clearNameFields_inputs { s with currentType := "logo" }
  generalize clearNameFields { s with currentType := "logo" } = c at h ⊢
  simp only [inputs, Inputs.mk.injEq] at h ⊢
  obtain ⟨a1, a2, a3, a4, a5, a6, a7, a8, a9, a10, a11, a12⟩ := h
  refine ⟨a1, a2, ?_, a4, a5, a6, a7, a8, a9, ?_, a11, a12⟩
  · rw [a3]
  · rw [a10]

/-- After `resetRadios` the selected value of a group is that of its first radio. -/
theorem getSelected_resetRadios (rs : List Radio) :
    getSelected (resetRadios rs) = (rs.head?.map (fun r => r.value)).getD "" := by
  cases rs with
  | nil => rfl
  | cons r rest => simp [resetRadios, getSelected]

/-- The hidden-input values of the upload widget, and what `hasUploaderyLogo` and
`getUploaderyFileDetails` compute from them, depend on the two containers only. -/
theorem uploadery_congr (a b : State) (h1 : a.uploaderyContainer = b.uploaderyContainer)
    (h2 : a.uploaderyHiddenContainer = b.uploaderyHiddenContainer) :
    uploaderyValues a = uploaderyValues b ∧ hasUploaderyLogo a = hasUploaderyLogo b ∧
    getUploaderyFileDetails a = getUploaderyFileDetails b := by
  have hv : uploaderyValues a = uploaderyValues b := by
    unfold uploaderyValues
    rw [h1, h2]
  refine ⟨hv, ?_, ?_⟩
  · unfold hasUploaderyLogo
    rw [hv]
  · unfold getUploaderyFileDetails
    rw [hv]

/-- Claim C11, counterexample.  On the page where Logo is selected and the upload
widget holds an uploaded logo, the choice of Name leaves the hidden inputs of the
widget as they are: `hasUploaderyLogo` is still true and `getUploaderyFileDetails`
still resolves the URL. -/
theorem selectName_keeps_upload_counterexample :
    getType logoUploaded = "logo" ∧ logoUploaded.currentType = "logo" ∧
    hasUploaderyLogo logoUploaded = true ∧
    getType (selectType sampleConfig 0 logoUploaded) = "name" ∧
    hasUploaderyLogo (selectType sampleConfig 0 logoUploaded) = true ∧
    (getUploaderyFileDetails (selectType sampleConfig 0 logoUploaded)).fileUrl =
      "https://cdn.example/files/logo.png" := by
  decide

/-- Claim C11, amended.  When the variable `currentType` holds `logo`, the choice
of the Name radio puts the logo placement group back on its first radio and leaves
no file selected in the native file input; the hidden inputs of the upload widget
are not touched, so `hasUploaderyLogo` and `getUploaderyFileDetails` give what they
gave before. -/
theorem selectName_resets_logo_form (cfg : Config) (i : Nat) (r : Radio) (s : State)
    (hr : s.typeRadios.get? i = some r) (hc : r.checked = false) (hv : r.value = "name")
    (hcur : s.currentType = "logo") :
    (selectType cfg i s).placementLogoRadios = resetRadios s.placementLogoRadios ∧
    getSelected (selectType cfg i s).placementLogoRadios =
      (s.placementLogoRadios.head?.map (fun x => x.value)).getD "" ∧
    localFile (selectType cfg i s) = none ∧
    uploaderyValues (selectType cfg i s) = uploaderyValues s ∧
    hasUploaderyLogo (selectType cfg i s) = hasUploaderyLogo s ∧
    getUploaderyFileDetails (selectType cfg i s) = getUploaderyFileDetails s := by
  have h1 : ({ s with typeRadios := checkOnly i s.typeRadios } : State).currentType ≠ "" := by
    show s.currentType ≠ ""
    rw [hcur]
    decide
  have h2 : ({ s with typeRadios := checkOnly i s.typeRadios } : State).currentType ≠ "name" := by
    show s.currentType ≠ "name"
    rw [hcur]
    decide
  have hin : inputs (selectType cfg i s) =
      inputs (switchFields "name" { s with typeRadios := checkOnly i s.typeRadios }) := by
    rw [selectType_eq cfg i r s hr hc, hv, onTypeChange_inputs]
  rw [switchFields_name_inputs _ h1 h2] at hin
  generalize selectType cfg i s = x at hin ⊢
  simp only [inputs, Inputs.mk.injEq] at hin
  obtain ⟨-, -, -, -, -, -, -, -, hp, hf, hu, hh⟩ := hin
  refine ⟨hp, ?_, ?_, uploadery_congr x s hu hh⟩
  · rw [hp, getSelected_resetRadios]
  · unfold localFile
    rw [hf]
    cases s.fileInput <;> rfl

/-- Witness of `selectName_resets_logo_form` on the page where Logo is selected and a
logo is uploaded. -/
theorem selectName_resets_logo_form_witness :
    logoUploaded.currentType = "logo" ∧
    localFile (selectType sampleConfig 0 logoUploaded) = none ∧
    hasUploaderyLogo (selectType sampleConfig 0 logoUploaded) = hasUploaderyLogo logoUploaded :=
  ⟨by decide,
   (selectName_resets_logo_form sampleConfig 0 ⟨"name", false⟩ logoUploaded
      (by decide) (by decide) (by decide) (by decide)).2.2.1,
   (selectName_resets_logo_form sampleConfig 0 ⟨"name", false⟩ logoUploaded
      (by decide) (by decide) (by decide) (by decide)).2.2.2.2.1⟩

/-- Claim C12, counterexample.  On the page where Both is selected and a name is
typed, the choice of Logo empties the name. -/
theorem selectLogo_from_both_counterexample :
    getType bothAlex = "both" ∧ bothAlex.currentType = "both" ∧
    bothAlex.nameInput = some "Alex" ∧
    getType (selectType sampleConfig 1 bothAlex) = "logo" ∧
    (selectType sampleConfig 1 bothAlex).nameInput = some "" := by
  decide

/-- Claim C12, amended.  The choice of the Both radio keeps the title, the name,
the three option groups of the name form, the logo placement group and the hidden
inputs of the upload widget exactly as they were.  A choice made while the
variable `currentType` holds `both` clears the fields of the type that is left
out: Name puts the logo placement back on its first radio and empties the file
input, keeping the fields of the name form; Logo empties title and name and puts
the three groups of the name form back on their first radio, keeping the logo
placement and the selected file. -/
theorem select_both_transitions (cfg : Config) (i : Nat) (r : Radio) (s : State)
    (hr : s.typeRadios.get? i = some r) (hc : r.checked = false) :
    (r.value = "both" →
      (selectType cfg i s).titleInput = s.titleInput ∧
      (selectType cfg i s).nameInput = s.nameInput ∧
      (selectType cfg i s).placementNameRadios = s.placementNameRadios ∧
      (selectType cfg i s).colorNameRadios = s.colorNameRadios ∧
      (selectType cfg i s).fontNameRadios = s.fontNameRadios ∧
      (selectType cfg i s).placementLogoRadios = s.placementLogoRadios ∧
      (selectType cfg i s).uploaderyContainer = s.uploaderyContainer ∧
      (selectType cfg i s).uploaderyHiddenContainer = s.uploaderyHiddenContainer) ∧
    (s.currentType = "both" → r.value = "name" →
      (selectType cfg i s).placementLogoRadios = resetRadios s.placementLogoRadios ∧
      localFile (selectType cfg i s) = none ∧
      (selectType cfg i s).titleInput = s.titleInput ∧
      (selectType cfg i s).nameInput = s.nameInput ∧
      (selectType cfg i s).placementNameRadios = s.placementNameRadios ∧
      (selectType cfg i s).colorNameRadios = s.colorNameRadios ∧
      (selectType cfg i s).fontNameRadios = s.fontNameRadios) ∧
    (s.currentType = "both" → r.value = "logo" →
      (selectType cfg i s).titleInput = s.titleInput.map (fun _ => "") ∧
      (selectType cfg i s).nameInput = s.nameInput.map (fun _ => "") ∧
      (selectType cfg i s).placementNameRadios = resetRadios s.placementNameRadios ∧
      (selectType cfg i s).colorNameRadios = resetRadios s.colorNameRadios ∧
      (selectType cfg i s).fontNameRadios = resetRadios s.fontNameRadios ∧
      (selectType cfg i s).placementLogoRadios = s.placementLogoRadios ∧
      localFile (selectType cfg i s) = localFile s) := by
  have hin : inputs (selectType cfg i s) =
      inputs (switchFields r.value { s with typeRadios := checkOnly i s.typeRadios }) := by
    rw [selectType_eq cfg i r s hr hc, onTypeChange_inputs]
  refine ⟨?_, ?_, ?_⟩
  · intro hv
    rw [hv, switchFields_both_inputs] at hin
    generalize selectType cfg i s = x at hin ⊢
    simp only [inputs, Inputs.mk.injEq] at hin
    obtain ⟨-, -, -, ht, hn, hp, hcol, hf, hpl, -, hu, hh⟩ := hin
    exact ⟨ht, hn, hp, hcol, hf, hpl, hu, hh⟩
  · intro hcur hv
    have h1 : ({ s with typeRadios := checkOnly i s.typeRadios } : State).currentType ≠ "" := by
      show s.currentType ≠ ""
      rw [hcur]
      decide
    have h2 : ({ s with typeRadios := checkOnly i s.typeRadios } : State).currentType
        ≠ "name" := by
      show s.currentType ≠ "name"
      rw [hcur]
      decide
    rw [hv, switchFields_name_inputs _ h1 h2] at hin
    generalize selectType cfg i s = x at hin ⊢
    simp only [inputs, Inputs.mk.injEq] at hin
    obtain ⟨-, -, -, ht, hn, hp, hcol, hf, hpl, hfi, -, -⟩ := hin
    refine ⟨hpl, ?_, ht, hn, hp, hcol, hf⟩
    unfold localFile
    rw [hfi]
    cases s.fileInput <;> rfl
  · intro hcur hv
    have h1 : ({ s with typeRadios := checkOnly i s.typeRadios } : State).currentType ≠ "" := by
      show s.currentType ≠ ""
      rw [hcur]
      decide
    have h2 : ({ s with typeRadios := checkOnly i s.typeRadios } : State).currentType
        ≠ "logo" := by
      show s.currentType ≠ "logo"
      rw [hcur]
      decide
    rw [hv, switchFields_logo_inputs _ h1 h2] at hin
    generalize selectType cfg i s = x at hin ⊢
    simp only [inputs, Inputs.mk.injEq] at hin
    obtain ⟨-, -, -, ht, hn, hp, hcol, hf, hpl, hfi, -, -⟩ := hin
    refine ⟨ht, hn, hp, hcol, hf, hpl, ?_⟩
    unfold localFile
    rw [hfi]
    cases s.fileInput <;> rfl

/-- Witness of `select_both_transitions` on the page where Both is selected and a
name is typed: the choice of Logo empties the name. -/
theorem select_both_transitions_witness :
    bothAlex.currentType = "both" ∧
    (selectType sampleConfig 1 bothAlex).nameInput = bothAlex.nameInput.map (fun _ => "") :=
  ⟨by decide,
   ((select_both_transitions sampleConfig 1 ⟨"logo", false⟩ bothAlex
      (by decide) (by decide)).2.2 (by decide) (by decide)).2.1⟩

/-- Claim C13, the code at the failing input.  After Logo was chosen, Reset pressed
(Name is then the checked radio while `currentType` still holds `logo`) and
consent given, the choice of Logo changes the selected type from Name to Logo and
leaves consent given.  The same happens after a commit, which empties
`currentType` and leaves the Name radio checked. -/
theorem selectType_keeps_consent_when_stale :
    (getType resetThenConsent = "name" ∧ termsChecked resetThenConsent = true ∧
      getType (selectType sampleConfig 1 resetThenConsent) = "logo" ∧
      termsChecked (selectType sampleConfig 1 resetThenConsent) = true) ∧
    (getType (termsChange true (reopen firstCommit)) = "name" ∧
      termsChecked (termsChange true (reopen firstCommit)) = true ∧
      getType (selectType sampleConfig 1 (termsChange true (reopen firstCommit))) = "logo" ∧
      termsChecked (selectType sampleConfig 1 (termsChange true (reopen firstCommit)))
        = true) := by
  decide

/-- Claim C14, the code at the failing input.  After the choice of Both the native
file input is disabled, and a file picked while Logo was selected is dropped; after
the choice of Logo it is enabled, after the choice of Name disabled. -/
theorem selectBoth_disables_file_input :
    getType (selectType sampleConfig 2 samplePage) = "both" ∧
    (selectType sampleConfig 2 samplePage).fileInput = some ⟨none, true, false⟩ ∧
    logoPicked.fileInput = some ⟨some sampleFile, false, true⟩ ∧
    getType (selectType sampleConfig 2 logoPicked) = "both" ∧
    (selectType sampleConfig 2 logoPicked).fileInput = some ⟨none, true, false⟩ ∧
    (selectType sampleConfig 1 samplePage).fileInput = some ⟨none, false, true⟩ ∧
    (selectType sampleConfig 0 samplePage).fileInput = some ⟨none, true, false⟩ := by
  decide

/-- After the `change` listener of a type radio the file input, when there is one,
is disabled exactly when the new type is not `logo`. -/
theorem onTypeChange_fileInput_disabled (cfg : Config) (t : String) (s : State) :
    (onTypeChange cfg t s).fileInput.map (fun f => f.disabled) =
      s.fileInput.map (fun _ => !(t == "logo")) := by
  have hin := congrArg Inputs.fileInput (onTypeChange_inputs cfg t s)
  have hin2 : (onTypeChange cfg t s).fileInput = (switchFields t s).fileInput := hin
  rw [hin2]
  have key : ∀ x : State, x.fileInput.isSome = s.fileInput.isSome →
      (if t == "logo" then enableLogoFileInput x
        else disableAndClearLogoFileInput x).fileInput.map (fun f => f.disabled) =
      s.fileInput.map (fun _ => !(t == "logo")) := by
    intro x hx
    by_cases ht : (t == "logo") = true
    · simp only [ht, if_true]
      unfold enableLogoFileInput
      cases hxf : x.fileInput <;> cases hsf : s.fileInput <;> simp_all
    · simp only [ht, if_false]
      unfold disableAndClearLogoFileInput
      cases hxf : x.fileInput <;> cases hsf : s.fileInput <;> simp_all
  have hcl : (clearLogoFields { s with currentType := t }).fileInput.isSome =
      s.fileInput.isSome := by
    have := congrArg Inputs.fileInput (clearLogoFields_inputs { s with currentType := t })
    have h2 : (clearLogoFields { s with currentType := t }).fileInput =
        s.fileInput.map (fun f => { f with file := none }) := this
    rw [h2]
    cases s.fileInput <;> rfl
  have hcn : (clearNameFields { s with currentType := t }).fileInput.isSome =
      s.fileInput.isSome := by
    have := congrArg Inputs.fileInput (clearNameFields_inputs { s with currentType := t })
    have h2 : (clearNameFields { s with currentType := t }).fileInput = s.fileInput := this
    rw [h2]
  unfold switchFields
  simp only []
  apply key
  split
  · split
    · exact hcl
    · split
      · exact hcn
      · rfl
  · rfl

/-- With consent given the Add handler collects the values and calls `finalize`. -/
theorem onAddClick_consented (cfg : Config) (now : String) (s : State)
    (h : termsChecked s = true) :
    onAddClick cfg now s = finalize cfg now (getType s) (snapshot cfg s) s := by
  simp [onAddClick, h]

/-- The values that the Add handler collects, by selected type. -/
theorem snapshot_fields (cfg : Config) (s : State) :
    (snapshot cfg s).titleVal =
      (if getType s = "name" ∨ getType s = "both" then jsTrim (s.titleInput.getD "") else "") ∧
    (snapshot cfg s).nameVal =
      (if getType s = "name" ∨ getType s = "both" then jsTrim (s.nameInput.getD "") else "") ∧
    (snapshot cfg s).placementName =
      (if getType s = "name" ∨ getType s = "both" then getSelected s.placementNameRadios
       else "") ∧
    (snapshot cfg s).colourName =
      (if getType s = "name" ∨ getType s = "both" then getSelected s.colorNameRadios else "") ∧
    (snapshot cfg s).fontName =
      (if getType s = "name" ∨ getType s = "both" then getSelected s.fontNameRadios else "") ∧
    (snapshot cfg s).placementLogo =
      (if getType s = "logo" ∨ getType s = "both" then getSelected s.placementLogoRadios
       else "") ∧
    (snapshot cfg s).fileName =
      (if getType s = "logo" ∨ getType s = "both" then (getUploaderyFileDetails s).fileName
       else "") ∧
    (snapshot cfg s).logoUrl =
      (if getType s = "logo" ∨ getType s = "both" then (getUploaderyFileDetails s).fileUrl
       else "") ∧
    (snapshot cfg s).price =
      (if getType s = "name" then cfg.nameFee else if getType s = "logo" then cfg.logoFee
       else if getType s = "both" then cfg.bothFee else Fee.zero) := by
  unfold snapshot
  by_cases h1 : getType s = "name"
  · simp [h1]
  · by_cases h2 : getType s = "logo"
    · simp [h2]
    · by_cases h3 : getType s = "both"
      · simp [h3]
      · simp [h1, h2, h3]

/-- Below `2 ^ 53` a natural number is a `Number`. -/
theorem roundNat_small (n : Nat) (h : n < 9007199254740992) : roundNat n = n := by
  unfold roundNat
  rw [if_pos h]

/-- The sum of two whole `Number`s is exact when its magnitude is below `2 ^ 53`. -/
theorem addNumber_exact (a b : Int) (h : (a + b).natAbs < 9007199254740992) :
    addNumber a b = a + b := by
  unfold addNumber
  rw [roundNat_small _ h]
  split <;> omega

/-- Below `100 * 2 ^ 46` cents the quotient by one hundred is below `10 ^ 21` and
its nearest whole number of hundredths is the number of cents. -/
theorem quotientHundred_hundredths (n : Nat) (h : n < 7036874417766400) :
    ¬ (1000000000000000000000 * (quotientHundred n).2 ≤ (quotientHundred n).1) ∧
    (200 * (quotientHundred n).1 + (quotientHundred n).2) / (2 * (quotientHundred n).2) = n := by
  by_cases h0 : n = 0
  · subst h0
    decide
  · have hlt : n < 100 * 9007199254740992 := by omega
    unfold quotientHundred
    rw [if_neg h0, if_pos hlt]
    simp only []
    cases hfind : (List.range 60).find? (fun s => 100 * 4503599627370496 ≤ n * 2 ^ s) with
    | none =>
      exfalso
      rw [List.find?_eq_none] at hfind
      have h59 := hfind 59 (by simp)
      simp only [decide_eq_true_eq, not_le] at h59
      have hn : 1 ≤ n := Nat.pos_of_ne_zero h0
      have : 1 * 2 ^ 59 ≤ n * 2 ^ 59 := Nat.mul_le_mul_right _ hn
      norm_num at this h59
      omega
    | some s =>
      have hp := List.find?_some hfind
      simp only [decide_eq_true_eq] at hp
      simp only [Option.getD_some]
      generalize hP : 2 ^ s = P at hp ⊢
      have hP128 : 128 ≤ P := by
        by_cases hs : s ≤ 6
        · exfalso
          have h64 : P ≤ 64 := by
            rw [← hP]
            calc 2 ^ s ≤ 2 ^ 6 := Nat.pow_le_pow_right (by decide) hs
              _ = 64 := by norm_num
          have : n * P ≤ n * 64 := Nat.mul_le_mul_left _ h64
          omega
        · rw [← hP]
          calc 128 = 2 ^ 7 := by norm_num
            _ ≤ 2 ^ s := Nat.pow_le_pow_right (by decide) (by omega)
      have hX : n * P < 7036874417766400 * P :=
        Nat.mul_lt_mul_of_pos_right h (by omega)
      have hdm := Nat.div_add_mod (n * P) 100
      have hr := Nat.mod_lt (n * P) (show 100 > 0 by decide)
      generalize hXe : n * P = X at hp hX hdm hr ⊢
      unfold divNearestEven
      generalize X / 100 = q at hdm ⊢
      generalize X % 100 = r at hdm hr ⊢
      have e1 : n * (2 * P) = 2 * X := by rw [← hXe]; ring
      have e2 : (n + 1) * (2 * P) = 2 * X + 2 * P := by rw [← hXe]; ring
      split
      · refine ⟨by omega, ?_⟩
        apply Nat.div_eq_of_lt_le
        · rw [e1]
          omega
        · rw [e2]
          omega
      · refine ⟨by omega, ?_⟩
        apply Nat.div_eq_of_lt_le
        · rw [e1]
          omega
        · rw [e2]
          omega

/-- Below `100 * 2 ^ 46` cents in magnitude, `(cents / 100).toFixed(2)` writes the
number of cents exactly. -/
theorem fixedCents_exact (c : Int) (h : c.natAbs < 7036874417766400) :
    fixedCents c = exactCents c := by
  unfold fixedCents exactCents toFixedTwo
  rw [roundNat_small _ (by omega)]
  obtain ⟨h1, h2⟩ := quotientHundred_hundredths c.natAbs h
  rw [if_neg h1, h2]
  simp only [String.append_assoc]

/-- The list items, the prices and the visibility of the summary that `finalize`
writes. -/
theorem writeSummary_lines (cfg : Config) (type : String) (v : Snapshot) (m : Summary) :
    (writeSummary cfg type v m).liTitle =
      m.liTitle.map (fun _ =>
        if (type == "name" || type == "both") && truthy v.titleVal then "" else "none") ∧
    (writeSummary cfg type v m).liName =
      m.liName.map (fun _ =>
        if (type == "name" || type == "both") && truthy v.nameVal then "" else "none") ∧
    (writeSummary cfg type v m).liFile =
      m.liFile.map (fun _ =>
        if (type == "logo" || type == "both") && truthy v.fileName then "" else "none") ∧
    (writeSummary cfg type v m).embroideryPrice =
      m.embroideryPrice.map (fun _ => formatMoney cfg v.price.cents) ∧
    (writeSummary cfg type v m).totalPrice =
      m.totalPrice.map
        (fun _ => formatMoney cfg (addNumber (cfg.basePrice.getD 0) v.price.cents)) ∧
    (writeSummary cfg type v m).customSummary = m.customSummary.map (fun _ => "block") := by
  unfold writeSummary setText
  cases h1 : (type == "name" || type == "both") <;>
    cases h2 : (type == "logo" || type == "both") <;>
    cases m.liTitle <;> cases m.liName <;> cases m.liFile <;> simp


/-- The texts of the summary that `finalize` writes: the texts of the name section
only for the types Name and Both, those of the logo section only for Logo and
Both, the type label and the two legacy texts always. -/
theorem writeSummary_texts (cfg : Config) (type : String) (v : Snapshot) (m : Summary) :
    (writeSummary cfg type v m).summaryType = m.summaryType.map (fun _ => typeLabelOf type) ∧
    (writeSummary cfg type v m).summaryTitle =
      (if type == "name" || type == "both" then m.summaryTitle.map (fun _ => v.titleVal)
       else m.summaryTitle) ∧
    (writeSummary cfg type v m).summaryName =
      (if type == "name" || type == "both" then m.summaryName.map (fun _ => v.nameVal)
       else m.summaryName) ∧
    (writeSummary cfg type v m).summaryPlacementName =
      (if type == "name" || type == "both"
       then m.summaryPlacementName.map (fun _ => v.placementName)
       else m.summaryPlacementName) ∧
    (writeSummary cfg type v m).summaryFont =
      (if type == "name" || type == "both" then m.summaryFont.map (fun _ => v.fontName)
       else m.summaryFont) ∧
    (writeSummary cfg type v m).summaryColorName =
      (if type == "name" || type == "both" then m.summaryColorName.map (fun _ => v.colourName)
       else m.summaryColorName) ∧
    (writeSummary cfg type v m).summaryFileName =
      (if type == "logo" || type == "both" then m.summaryFileName.map (fun _ => v.fileName)
       else m.summaryFileName) ∧
    (writeSummary cfg type v m).summaryPlacementLogo =
      (if type == "logo" || type == "both"
       then m.summaryPlacementLogo.map (fun _ => v.placementLogo)
       else m.summaryPlacementLogo) ∧
    (writeSummary cfg type v m).summaryPlacement =
      m.summaryPlacement.map (fun _ => orElse v.placementName v.placementLogo) ∧
    (writeSummary cfg type v m).summaryColor = m.summaryColor.map (fun _ => v.colourName) := by
  unfold writeSummary setText
  cases h1 : (type == "name" || type == "both") <;>
    cases h2 : (type == "logo" || type == "both") <;> simp

/-- The summary, the hidden inputs, the forms and the events after a commit with
consent given. -/
theorem onAddClick_outputs (cfg : Config) (now : String) (s : State)
    (h : termsChecked s = true) :
    (onAddClick cfg now s).summary = writeSummary cfg (getType s) (snapshot cfg s) s.summary ∧
    (onAddClick cfg now s).carriers = writeCarriers (getType s) (snapshot cfg s) s.carriers ∧
    (onAddClick cfg now s).forms =
      writeForms now (writeCarriers (getType s) (snapshot cfg s) s.carriers) s.forms ∧
    (onAddClick cfg now s).events = s.events ++ [applyDetail (getType s) (snapshot cfg s)] := by
  have ho := finalize_outputs cfg now (getType s) (snapshot cfg s) s
  rw [← onAddClick_consented cfg now s h] at ho
  generalize onAddClick cfg now s = r at ho ⊢
  simp only [outputs, Outputs.mk.injEq] at ho
  exact ⟨ho.1, ho.2.1, ho.2.2.1, ho.2.2.2.1⟩

/-- Claim C15, counterexample.  With a base price of 7099999999998401 cents, the
name fee of 16.00 and no host formatter, a Name commit with consent shows the total
`$71000000000000.02`, while the base price plus the fee is 7100000000000001
cents, that is 71000000000000.01: the division by one hundred is that of
`Number`, and its quotient is nearer to the next hundredth. -/
theorem commit_total_rounding_counterexample :
    termsChecked nameAlex = true ∧ getType nameAlex = "name" ∧
    largeBase.basePrice = some 7099999999998401 ∧ largeBase.formatMoney.isNone = true ∧
    (snapshot largeBase nameAlex).price.cents = 1600 ∧
    (onAddClick largeBase sampleNow nameAlex).summary.totalPrice =
      some "$71000000000000.02" ∧
    exactCents (7099999999998401 + 1600) = "71000000000000.01" := by
  decide

/-- Claim C15, amended.  For every commit with consent given, the price of the
dispatched event, the embroidery amount of the summary and the value stored in the
price input are those of the fee of the selected type (the name fee for Name, the
logo fee for Logo, the combined fee for Both), and the total shown is the formatted
`Number` sum of the base price read from the page and of that fee in cents.  That
sum is the exact one when its magnitude is below `2 ^ 53`, and without a host
formatter the total shown is the exact sum, as units with two decimals after a
dollar sign, when its magnitude is below `100 * 2 ^ 46` cents. -/
theorem commit_price_is_fee (cfg : Config) (now : String) (s : State)
    (h : termsChecked s = true) :
    (getType s = "name" → (snapshot cfg s).price = cfg.nameFee) ∧
    (getType s = "logo" → (snapshot cfg s).price = cfg.logoFee) ∧
    (getType s = "both" → (snapshot cfg s).price = cfg.bothFee) ∧
    (onAddClick cfg now s).events = s.events ++ [applyDetail (getType s) (snapshot cfg s)] ∧
    (applyDetail (getType s) (snapshot cfg s)).price = (snapshot cfg s).price ∧
    (onAddClick cfg now s).summary.embroideryPrice =
      s.summary.embroideryPrice.map (fun _ => formatMoney cfg (snapshot cfg s).price.cents) ∧
    (onAddClick cfg now s).summary.totalPrice =
      s.summary.totalPrice.map
        (fun _ => formatMoney cfg
          (addNumber (cfg.basePrice.getD 0) (snapshot cfg s).price.cents)) ∧
    (onAddClick cfg now s).carriers.feeInput =
      s.carriers.feeInput.map (fun _ => (snapshot cfg s).price.text) ∧
    ((cfg.basePrice.getD 0 + (snapshot cfg s).price.cents).natAbs < 9007199254740992 →
      addNumber (cfg.basePrice.getD 0) (snapshot cfg s).price.cents =
        cfg.basePrice.getD 0 + (snapshot cfg s).price.cents) ∧
    (cfg.formatMoney = none →
      (cfg.basePrice.getD 0 + (snapshot cfg s).price.cents).natAbs < 7036874417766400 →
      (onAddClick cfg now s).summary.totalPrice =
        s.summary.totalPrice.map
          (fun _ => "$" ++ exactCents (cfg.basePrice.getD 0 + (snapshot cfg s).price.cents))) := by
  have hp := (snapshot_fields cfg s).2.2.2.2.2.2.2.2
  have ho := onAddClick_outputs cfg now s h
  have hl := writeSummary_lines cfg (getType s) (snapshot cfg s) s.summary
  have htot : (onAddClick cfg now s).summary.totalPrice =
      s.summary.totalPrice.map
        (fun _ => formatMoney cfg
          (addNumber (cfg.basePrice.getD 0) (snapshot cfg s).price.cents)) := by
    rw [ho.1]
    exact hl.2.2.2.2.1
  refine ⟨?_, ?_, ?_, ho.2.2.2, rfl, ?_, htot, ?_, ?_, ?_⟩
  · intro ht
    rw [hp]
    simp [ht]
  · intro ht
    rw [hp]
    simp [ht]
  · intro ht
    rw [hp]
    simp [ht]
  · rw [ho.1]
    exact hl.2.2.2.1
  · rw [ho.2.1]
    rfl
  · intro hb
    exact addNumber_exact _ _ hb
  · intro hf hb
    rw [htot, addNumber_exact _ _ (by omega)]
    unfold formatMoney
    rw [hf, fixedCents_exact _ hb]

/-- Witness of `commit_price_is_fee` on the page of scenario C: the price is the
combined fee and the total is the base price plus that fee. -/
theorem commit_price_is_fee_witness :
    termsChecked bothCaptain = true ∧ getType bothCaptain = "both" ∧
    (snapshot sampleConfig bothCaptain).price = sampleConfig.bothFee ∧
    (onAddClick sampleConfig sampleNow bothCaptain).summary.totalPrice = some "$75.00" :=
  ⟨by decide, by decide,
   (commit_price_is_fee sampleConfig sampleNow bothCaptain (by decide)).2.2.1 (by decide),
   (commit_price_is_fee sampleConfig sampleNow bothCaptain (by decide)).2.2.2.2.2.2.1.trans
     (by decide)⟩

/-- Claim C16.  After a commit with consent given, the title line of the summary is
shown exactly when the type is Name or Both and the trimmed title is not empty,
the name line exactly when the type is Name or Both and the trimmed name is not
empty, the file line exactly when the type is Logo or Both and the resolved file
name is not empty; otherwise the line is hidden.  The texts of the shown lines are
the trimmed title, the trimmed name and the file name, and the summary block is
displayed. -/
theorem commit_summary_lines (cfg : Config) (now : String) (s : State)
    (h : termsChecked s = true) :
    (onAddClick cfg now s).summary.liTitle =
      s.summary.liTitle.map (fun _ =>
        if (getType s = "name" ∨ getType s = "both") ∧ jsTrim (s.titleInput.getD "") ≠ ""
        then "" else "none") ∧
    (onAddClick cfg now s).summary.liName =
      s.summary.liName.map (fun _ =>
        if (getType s = "name" ∨ getType s = "both") ∧ jsTrim (s.nameInput.getD "") ≠ ""
        then "" else "none") ∧
    (onAddClick cfg now s).summary.liFile =
      s.summary.liFile.map (fun _ =>
        if (getType s = "logo" ∨ getType s = "both") ∧
            (getUploaderyFileDetails s).fileName ≠ ""
        then "" else "none") ∧
    (getType s = "name" ∨ getType s = "both" →
      (onAddClick cfg now s).summary.summaryTitle =
        s.summary.summaryTitle.map (fun _ => jsTrim (s.titleInput.getD "")) ∧
      (onAddClick cfg now s).summary.summaryName =
        s.summary.summaryName.map (fun _ => jsTrim (s.nameInput.getD ""))) ∧
    (getType s = "logo" ∨ getType s = "both" →
      (onAddClick cfg now s).summary.summaryFileName =
        s.summary.summaryFileName.map (fun _ => (getUploaderyFileDetails s).fileName)) ∧
    (onAddClick cfg now s).summary.customSummary =
      s.summary.customSummary.map (fun _ => "block") := by
  obtain ⟨hT, hN, -, -, -, -, hF, -, -⟩ := snapshot_fields cfg s
  have ho := (onAddClick_outputs cfg now s h).1
  have hl := writeSummary_lines cfg (getType s) (snapshot cfg s) s.summary
  have ht := writeSummary_texts cfg (getType s) (snapshot cfg s) s.summary
  rw [ho]
  refine ⟨?_, ?_, ?_, ?_, ?_, hl.2.2.2.2.2⟩
  · rw [hl.1, hT]
    by_cases hA : getType s = "name" ∨ getType s = "both"
    · rcases hA with hA | hA <;> simp [hA, truthy]
    · have h1 : getType s ≠ "name" := fun e => hA (Or.inl e)
      have h2 : getType s ≠ "both" := fun e => hA (Or.inr e)
      simp [h1, h2]
  · rw [hl.2.1, hN]
    by_cases hA : getType s = "name" ∨ getType s = "both"
    · rcases hA with hA | hA <;> simp [hA, truthy]
    · have h1 : getType s ≠ "name" := fun e => hA (Or.inl e)
      have h2 : getType s ≠ "both" := fun e => hA (Or.inr e)
      simp [h1, h2]
  · rw [hl.2.2.1, hF]
    by_cases hA : getType s = "logo" ∨ getType s = "both"
    · rcases hA with hA | hA <;> simp [hA, truthy]
    · have h1 : getType s ≠ "logo" := fun e => hA (Or.inl e)
      have h2 : getType s ≠ "both" := fun e => hA (Or.inr e)
      simp [h1, h2]
  · intro hA
    rw [ht.2.1, ht.2.2.1, hT, hN]
    rcases hA with hA | hA <;> simp [hA]
  · intro hA
    rw [ht.2.2.2.2.2.2.1, hF]
    rcases hA with hA | hA <;> simp [hA]

/-- Witness of `commit_summary_lines` on the page of scenario A (type Name, name
Alex, empty title, consent given): the summary shows the name line with Alex and
no title line. -/
theorem commit_summary_lines_witness :
    termsChecked nameAlex = true ∧
    (onAddClick sampleConfig sampleNow nameAlex).summary.liTitle = some "none" ∧
    (onAddClick sampleConfig sampleNow nameAlex).summary.liName = some "" ∧
    (onAddClick sampleConfig sampleNow nameAlex).summary.summaryName = some "Alex" :=
  ⟨by decide,
   (commit_summary_lines sampleConfig sampleNow nameAlex (by decide)).1.trans (by decide),
   (commit_summary_lines sampleConfig sampleNow nameAlex (by decide)).2.1.trans (by decide),
   ((commit_summary_lines sampleConfig sampleNow nameAlex (by decide)).2.2.2.1
      (Or.inl (by decide))).2.trans (by decide)⟩

/-- A hidden input that `H` has written with the empty string holds the empty
string when it exists, and resolves to the empty string in any case. -/
theorem setText_empty_getD (el : Option String) : (setText el "").getD "" = "" := by
  cases el <;> rfl

/-- Claim C18.  For every commit with consent given and the type Logo, the title,
the name, the name placement, the colour and the font that reach the hidden
inputs and the event are empty, whatever the name form holds; with the type Name,
the logo placement, the file name and the file URL that reach them are empty,
whatever the logo form and the upload widget hold.  The forms are serialized from
these hidden inputs. -/
theorem commit_drops_inactive_fields (cfg : Config) (now : String) (s : State)
    (h : termsChecked s = true) :
    (getType s = "logo" →
      (onAddClick cfg now s).carriers.titleInput.getD "" = "" ∧
      (onAddClick cfg now s).carriers.nameInput.getD "" = "" ∧
      (onAddClick cfg now s).carriers.placementNameInput.getD "" = "" ∧
      (onAddClick cfg now s).carriers.colorNameInput.getD "" = "" ∧
      (onAddClick cfg now s).carriers.colorInput.getD "" = "" ∧
      (onAddClick cfg now s).carriers.fontInput.getD "" = "" ∧
      (applyDetail (getType s) (snapshot cfg s)).title = "" ∧
      (applyDetail (getType s) (snapshot cfg s)).name = "" ∧
      (applyDetail (getType s) (snapshot cfg s)).placementName = "" ∧
      (applyDetail (getType s) (snapshot cfg s)).colourName = "" ∧
      (applyDetail (getType s) (snapshot cfg s)).colour = "" ∧
      (applyDetail (getType s) (snapshot cfg s)).font = "" ∧
      (applyDetail (getType s) (snapshot cfg s)).fontName = "") ∧
    (getType s = "name" →
      (onAddClick cfg now s).carriers.placementLogoInput.getD "" = "" ∧
      (onAddClick cfg now s).carriers.logoFileInput.getD "" = "" ∧
      (onAddClick cfg now s).carriers.logoUrlInput.getD "" = "" ∧
      (applyDetail (getType s) (snapshot cfg s)).placementLogo = "" ∧
      (applyDetail (getType s) (snapshot cfg s)).fileName = "" ∧
      (applyDetail (getType s) (snapshot cfg s)).fileUrl = "") ∧
    (onAddClick cfg now s).events = s.events ++ [applyDetail (getType s) (snapshot cfg s)] ∧
    (onAddClick cfg now s).forms = writeForms now (onAddClick cfg now s).carriers s.forms := by
  obtain ⟨hT, hN, hP, hC, hFo, hPL, hF, hU, -⟩ := snapshot_fields cfg s
  obtain ⟨-, hc, hf, he⟩ := onAddClick_outputs cfg now s h
  refine ⟨?_, ?_, he, ?_⟩
  · intro ht
    have e1 : (snapshot cfg s).titleVal = "" := by rw [hT]; simp [ht]
    have e2 : (snapshot cfg s).nameVal = "" := by rw [hN]; simp [ht]
    have e3 : (snapshot cfg s).placementName = "" := by rw [hP]; simp [ht]
    have e4 : (snapshot cfg s).colourName = "" := by rw [hC]; simp [ht]
    have e5 : (snapshot cfg s).fontName = "" := by rw [hFo]; simp [ht]
    rw [hc]
    simp only [writeCarriers, applyDetail, e1, e2, e3, e4, e5, setText_empty_getD]
    simp
  · intro ht
    have e1 : (snapshot cfg s).placementLogo = "" := by rw [hPL]; simp [ht]
    have e2 : (snapshot cfg s).fileName = "" := by rw [hF]; simp [ht]
    have e3 : (snapshot cfg s).logoUrl = "" := by rw [hU]; simp [ht]
    rw [hc]
    simp only [writeCarriers, applyDetail, e1, e2, e3, setText_empty_getD]
    simp
  · rw [hf, hc]

/-- Witness of `commit_drops_inactive_fields` on a page where Logo is selected while
the name field holds a name. -/
theorem commit_drops_inactive_fields_witness :
    termsChecked logoWithName = true ∧ getType logoWithName = "logo" ∧
    logoWithName.nameInput = some "Alex" ∧
    (onAddClick sampleConfig sampleNow logoWithName).carriers.nameInput.getD "" = "" ∧
    (applyDetail (getType logoWithName) (snapshot sampleConfig logoWithName)).name = "" :=
  ⟨by decide, by decide, by decide,
   ((commit_drops_inactive_fields sampleConfig sampleNow logoWithName (by decide)).1
      (by decide)).2.1,
   ((commit_drops_inactive_fields sampleConfig sampleNow logoWithName (by decide)).1
      (by decide)).2.2.2.2.2.2.2.1⟩

/-- A commit with the type Logo leaves the texts of the name section of the
summary as they were. -/
theorem commit_logo_keeps_name_texts (cfg : Config) (now : String) (s : State)
    (h : termsChecked s = true) (ht : getType s = "logo") :
    (onAddClick cfg now s).summary.summaryTitle = s.summary.summaryTitle ∧
    (onAddClick cfg now s).summary.summaryName = s.summary.summaryName ∧
    (onAddClick cfg now s).summary.summaryPlacementName = s.summary.summaryPlacementName ∧
    (onAddClick cfg now s).summary.summaryFont = s.summary.summaryFont ∧
    (onAddClick cfg now s).summary.summaryColorName = s.summary.summaryColorName := by
  have ho := (onAddClick_outputs cfg now s h).1
  obtain ⟨-, t1, t2, t3, t4, t5, -⟩ := writeSummary_texts cfg (getType s) (snapshot cfg s) s.summary
  rw [ho, t1, t2, t3, t4, t5, ht]
  simp

/-- Claim C19, the code at the failing input.  After a first commit with the type
Name (name Alex, title Dr, placement Left Chest, colour white, font Block) and a
second commit with the type Logo, whose collected name placement and colour are
empty, the summary still holds the name placement, the colour, the title, the
name and the font of the first commit; of these only the title, name and font
lines are hidden. -/
theorem second_commit_keeps_first_texts :
    getType beforeSecondCommit = "logo" ∧
    (snapshot sampleConfig beforeSecondCommit).placementName = "" ∧
    (snapshot sampleConfig beforeSecondCommit).colourName = "" ∧
    firstCommit.summary.summaryPlacementName = some "Left Chest" ∧
    secondCommit.summary.summaryType = some "Logo" ∧
    secondCommit.summary.summaryPlacementName = some "Left Chest" ∧
    secondCommit.summary.summaryColorName = some "white" ∧
    secondCommit.summary.summaryTitle = some "Dr" ∧
    secondCommit.summary.summaryName = some "Alex" ∧
    secondCommit.summary.summaryFont = some "Block" ∧
    secondCommit.summary.liTitle = some "none" ∧
    secondCommit.summary.liName = some "none" ∧
    secondCommit.summary.liFont = some "none" := by
  decide

/-- Claim C20, counterexample.  After the second sample commit, made with the type
Logo and an uploaded logo, the hidden inputs of the upload widget still hold the
upload, so `hasUploaderyLogo` is true and the URL is still resolved; the Logo radio
is still checked, so `getType` returns `logo`. -/
theorem commit_keeps_upload_counterexample :
    termsChecked beforeSecondCommit = true ∧
    hasUploaderyLogo secondCommit = true ∧
    (getUploaderyFileDetails secondCommit).fileUrl = "https://cdn.example/files/logo.png" ∧
    getType secondCommit = "logo" := by
  decide

/-- Claim C20, amended.  After a commit with consent given, title and name are
empty, the three option groups of the name form and the logo placement group are
on their first radio, no file is selected in the native file input, consent is not
given and the variable `currentType` is empty; the hidden inputs of the upload
widget are as before the commit, so `hasUploaderyLogo` and
`getUploaderyFileDetails` give what they gave before. -/
theorem commit_resets_fields (cfg : Config) (now : String) (s : State)
    (h : termsChecked s = true) :
    (onAddClick cfg now s).titleInput = s.titleInput.map (fun _ => "") ∧
    (onAddClick cfg now s).nameInput = s.nameInput.map (fun _ => "") ∧
    (onAddClick cfg now s).placementNameRadios = resetRadios s.placementNameRadios ∧
    (onAddClick cfg now s).colorNameRadios = resetRadios s.colorNameRadios ∧
    (onAddClick cfg now s).fontNameRadios = resetRadios s.fontNameRadios ∧
    (onAddClick cfg now s).placementLogoRadios = resetRadios s.placementLogoRadios ∧
    localFile (onAddClick cfg now s) = none ∧
    termsChecked (onAddClick cfg now s) = false ∧
    (onAddClick cfg now s).currentType = "" ∧
    uploaderyValues (onAddClick cfg now s) = uploaderyValues s ∧
    hasUploaderyLogo (onAddClick cfg now s) = hasUploaderyLogo s ∧
    getUploaderyFileDetails (onAddClick cfg now s) = getUploaderyFileDetails s := by
  have hi := finalize_inputs cfg now (getType s) (snapshot cfg s) s
  rw [← onAddClick_consented cfg now s h] at hi
  generalize onAddClick cfg now s = r at hi ⊢
  simp only [inputs, Inputs.mk.injEq] at hi
  obtain ⟨-, hcur, hterms, ht, hn, hp, hc, hf, hpl, hfi, hu, hh⟩ := hi
  refine ⟨ht, hn, hp, hc, hf, hpl, ?_, ?_, hcur, uploadery_congr r s hu hh⟩
  · unfold localFile
    rw [hfi]
    cases s.fileInput <;> rfl
  · unfold termsChecked
    rw [hterms]
    cases s.terms <;> simp

/-- Witness of `commit_resets_fields` on the page before the second sample
commit. -/
theorem commit_resets_fields_witness :
    termsChecked beforeSecondCommit = true ∧
    termsChecked (onAddClick sampleConfig sampleNow beforeSecondCommit) = false ∧
    (onAddClick sampleConfig sampleNow beforeSecondCommit).currentType = "" ∧
    localFile (onAddClick sampleConfig sampleNow beforeSecondCommit) = none :=
  ⟨by decide,
   (commit_resets_fields sampleConfig sampleNow beforeSecondCommit (by decide)).2.2.2.2.2.2.2.1,
   (commit_resets_fields sampleConfig sampleNow beforeSecondCommit
      (by decide)).2.2.2.2.2.2.2.2.1,
   (commit_resets_fields sampleConfig sampleNow beforeSecondCommit (by decide)).2.2.2.2.2.2.1⟩

/-! ## Serialization into the forms -/

/-- Removing the first input of one name keeps the inputs of every other name. -/
theorem removeFirst_named_ne (name m : String) (h : m ≠ name) (l : List FormInput) :
    inputsNamed m (removeFirst name l) = inputsNamed m l := by
  induction l with
  | nil => rfl
  | cons i rest ih =>
    unfold removeFirst
    by_cases hi : i.name = name
    · have hm : ¬ name = m := fun e => h e.symm
      simp [hi, inputsNamed, List.filter_cons, hm]
    · simp only [beq_iff_eq, hi, if_false]
      simp only [inputsNamed, List.filter_cons] at ih ⊢
      rw [ih]

/-- Setting the value of the first input of one name keeps the inputs of every
other name. -/
theorem setFirst_named_ne (name val m : String) (h : m ≠ name) (l : List FormInput) :
    inputsNamed m (setFirst name val l) = inputsNamed m l := by
  induction l with
  | nil => rfl
  | cons i rest ih =>
    unfold setFirst
    by_cases hi : i.name = name
    · have hm : ¬ name = m := fun e => h e.symm
      simp [hi, inputsNamed, List.filter_cons, hm]
    · simp only [beq_iff_eq, hi, if_false]
      simp only [inputsNamed, List.filter_cons] at ih ⊢
      rw [ih]

/-- Removing the first input of a name that occurs at most once leaves no input of
that name. -/
theorem removeFirst_named_self (name : String) (l : List FormInput)
    (h : (inputsNamed name l).length ≤ 1) : inputsNamed name (removeFirst name l) = [] := by
  induction l with
  | nil => rfl
  | cons i rest ih =>
    unfold removeFirst
    by_cases hi : i.name = name
    · simp only [beq_iff_eq, hi, if_true]
      simp only [inputsNamed, List.filter_cons, beq_iff_eq, hi, if_true, List.length_cons]
        at h ⊢
      have h0 : (List.filter (fun i => i.name == name) rest).length = 0 := by omega
      exact List.length_eq_zero.mp h0
    · simp only [beq_iff_eq, hi, if_false]
      simp only [inputsNamed, List.filter_cons, beq_iff_eq, hi, if_false] at h ih ⊢
      exact ih h

/-- Setting the value of the first input of a name that occurs exactly once leaves
one input of that name, with that value. -/
theorem setFirst_named_self (name val : String) (l : List FormInput)
    (hany : l.any (fun i => i.name == name) = true)
    (h : (inputsNamed name l).length ≤ 1) :
    inputsNamed name (setFirst name val l) = [⟨name, val⟩] := by
  induction l with
  | nil => simp at hany
  | cons i rest ih =>
    unfold setFirst
    by_cases hi : i.name = name
    · simp only [beq_iff_eq, hi, if_true]
      simp only [inputsNamed, List.filter_cons, beq_iff_eq, hi, if_true, List.length_cons]
        at h ⊢
      have h0 : (List.filter (fun i => i.name == name) rest).length = 0 := by omega
      rw [List.length_eq_zero.mp h0]
    · simp only [beq_iff_eq, hi, if_false]
      simp only [inputsNamed, List.filter_cons, beq_iff_eq, hi, if_false] at h ih ⊢
      apply ih _ h
      simpa [hi] using hany


/-- Removing the first input of a name that does not occur changes nothing. -/
theorem removeFirst_absent (name : String) (l : List FormInput)
    (h : inputsNamed name l = []) : removeFirst name l = l := by
  induction l with
  | nil => rfl
  | cons i rest ih =>
    unfold removeFirst
    by_cases hi : i.name = name
    · simp [inputsNamed, List.filter_cons, hi] at h
    · simp only [beq_iff_eq, hi, if_false]
      simp only [inputsNamed, List.filter_cons, beq_iff_eq, hi, if_false] at h ih
      rw [ih h]

/-- Setting the value of the first input of a name to the value that the only input
of that name already holds changes nothing. -/
theorem setFirst_same (name val : String) (l : List FormInput)
    (h : inputsNamed name l = [⟨name, val⟩]) : setFirst name val l = l := by
  induction l with
  | nil => rfl
  | cons i rest ih =>
    unfold setFirst
    by_cases hi : i.name = name
    · simp only [beq_iff_eq, hi, if_true]
      simp only [inputsNamed, List.filter_cons, beq_iff_eq, hi, if_true, List.cons.injEq] at h
      rw [h.1]
    · simp only [beq_iff_eq, hi, if_false]
      simp only [inputsNamed, List.filter_cons, beq_iff_eq, hi, if_false] at h ih
      rw [ih h]

/-- The upsert of one field keeps the inputs of every other name. -/
theorem upsertField_named_ne (f : Form) (fld : String × String) (m : String)
    (h : m ≠ propertyName fld.1) :
    inputsNamed m (upsertField f fld).inputs = inputsNamed m f.inputs := by
  unfold upsertField
  simp only []
  split
  · exact removeFirst_named_ne _ _ h _
  · split
    · exact setFirst_named_ne _ _ _ h _
    · have hm : ¬ propertyName fld.1 = m := fun e => h e.symm
      simp [inputsNamed, List.filter_append, List.filter_cons, hm]

/-- The upsert of one field into a form that holds at most one input of its name
leaves no input of that name when the value is empty, and else exactly one, with
that value. -/
theorem upsertField_named_self (f : Form) (fld : String × String)
    (h : (inputsNamed (propertyName fld.1) f.inputs).length ≤ 1) :
    inputsNamed (propertyName fld.1) (upsertField f fld).inputs =
      expectedInputs (propertyName fld.1) fld.2 := by
  unfold upsertField expectedInputs
  simp only []
  by_cases hv : fld.2 = ""
  · simp only [beq_iff_eq, hv, if_true]
    exact removeFirst_named_self _ _ h
  · simp only [beq_iff_eq, hv, if_false]
    split
    · rename_i hany
      exact setFirst_named_self _ _ _ hany h
    · rename_i hany
      have hnone : inputsNamed (propertyName fld.1) f.inputs = [] := by
        simp only [inputsNamed, List.filter_eq_nil_iff]
        intro a ha hn
        apply hany
        simp only [List.any_eq_true]
        exact ⟨a, ha, hn⟩
      simp only [inputsNamed, List.filter_append] at hnone ⊢
      rw [hnone]
      simp [List.filter_cons]

/-- The upsert of a field changes nothing in a form that already holds what the
field asks for. -/
theorem upsertField_fixed (f : Form) (fld : String × String)
    (h : inputsNamed (propertyName fld.1) f.inputs =
      expectedInputs (propertyName fld.1) fld.2) : upsertField f fld = f := by
  unfold expectedInputs at h
  unfold upsertField
  simp only []
  by_cases hv : fld.2 = ""
  · simp only [beq_iff_eq, hv, if_true] at h ⊢
    rw [removeFirst_absent _ _ h]
  · simp only [beq_iff_eq, hv, if_false] at h ⊢
    have hany : f.inputs.any (fun i => i.name == propertyName fld.1) = true := by
      have hmem : (⟨propertyName fld.1, fld.2⟩ : FormInput) ∈
          inputsNamed (propertyName fld.1) f.inputs := by
        rw [h]
        exact List.mem_singleton.mpr rfl
      simp only [inputsNamed, List.mem_filter] at hmem
      simp only [List.any_eq_true]
      exact ⟨_, hmem.1, hmem.2⟩
    simp only [hany, if_true]
    rw [setFirst_same _ _ _ h]

/-- The upserts of a list of fields keep the inputs of every name that is not the
name of one of the fields. -/
theorem foldl_upsert_named_ne (l : List (String × String)) (f : Form) (m : String)
    (h : ∀ fld ∈ l, m ≠ propertyName fld.1) :
    inputsNamed m (l.foldl upsertField f).inputs = inputsNamed m f.inputs := by
  induction l generalizing f with
  | nil => rfl
  | cons fld rest ih =>
    simp only [List.foldl_cons]
    rw [ih _ (fun x hx => h x (List.mem_cons_of_mem _ hx))]
    exact upsertField_named_ne f fld m (h fld (List.mem_cons_self _ _))

/-- After the upserts of a list of fields with distinct names, a form that held at
most one input of the name of a field holds what that field asks for. -/
theorem foldl_upsert_named (l : List (String × String))
    (hnd : (l.map (fun fld => propertyName fld.1)).Nodup) (f : Form)
    (fld : String × String) (hmem : fld ∈ l)
    (h : (inputsNamed (propertyName fld.1) f.inputs).length ≤ 1) :
    inputsNamed (propertyName fld.1) (l.foldl upsertField f).inputs =
      expectedInputs (propertyName fld.1) fld.2 := by
  induction l generalizing f with
  | nil => simp at hmem
  | cons x rest ih =>
    simp only [List.map_cons, List.nodup_cons, List.mem_map, not_exists, not_and] at hnd
    simp only [List.foldl_cons]
    rcases List.mem_cons.mp hmem with he | hin
    · subst he
      rw [foldl_upsert_named_ne rest _ _ (fun y hy e => hnd.1 y hy e.symm)]
      exact upsertField_named_self f fld h
    · have hne : propertyName fld.1 ≠ propertyName x.1 := fun e => hnd.1 fld hin e
      apply ih hnd.2 _ hin
      rw [upsertField_named_ne f x _ hne]
      exact h

/-- The upserts of a list of fields change nothing in a form that already holds
what every field asks for. -/
theorem foldl_upsert_fixed (l : List (String × String)) (g : Form)
    (h : ∀ fld ∈ l, inputsNamed (propertyName fld.1) g.inputs =
      expectedInputs (propertyName fld.1) fld.2) : l.foldl upsertField g = g := by
  induction l with
  | nil => rfl
  | cons x rest ih =>
    simp only [List.foldl_cons]
    rw [upsertField_fixed g x (h x (List.mem_cons_self _ _))]
    exact ih (fun y hy => h y (List.mem_cons_of_mem _ hy))

/-- The upserts of a list of fields with distinct names, done twice, give what they
give when done once, on a form that held at most one input of each name. -/
theorem foldl_upsert_twice (l : List (String × String))
    (hnd : (l.map (fun fld => propertyName fld.1)).Nodup) (f : Form)
    (h : ∀ fld ∈ l, (inputsNamed (propertyName fld.1) f.inputs).length ≤ 1) :
    l.foldl upsertField (l.foldl upsertField f) = l.foldl upsertField f :=
  foldl_upsert_fixed l _ (fun fld hmem => foldl_upsert_named l hnd f fld hmem (h fld hmem))

/-- The names of the fourteen property fields are distinct. -/
theorem propertyFields_nodup (now : String) (c : Carriers) :
    ((propertyFields now c).map (fun fld => propertyName fld.1)).Nodup := by
  have h : (propertyFields now c).map (fun fld => propertyName fld.1) =
      ["properties[Embroidery]", "properties[Embroidery Type]",
       "properties[Embroidery Title]", "properties[Embroidery Name]",
       "properties[Embroidery Placement]", "properties[Embroidery Font]",
       "properties[Embroidery Color]", "properties[Embroidery Logo File]",
       "properties[Embroidery Logo URL]", "properties[Embroidery Placement Name]",
       "properties[Embroidery Placement Logo]", "properties[Embroidery Color Name]",
       "properties[Embroidery Price]", "properties[Embroidery Instance]"] := by
    simp [propertyFields, propertyName]
  rw [h]
  decide


/-- Claim C17, counterexample.  On a page whose form already holds two inputs named
`properties[Embroidery Title]`, a commit with the type Name and an empty title
removes one of them only: the value of the title property is empty and the form
still holds an input of that name. -/
theorem commit_doubled_input_counterexample :
    termsChecked nameAlexDoubled = true ∧
    (onAddClick sampleConfig sampleNow nameAlexDoubled).carriers.titleInput = some "" ∧
    (onAddClick sampleConfig sampleNow nameAlexDoubled).forms.map
        (fun f => inputsNamed "properties[Embroidery Title]" f.inputs) =
      [[⟨"properties[Embroidery Title]", "Dr"⟩]] := by
  decide

/-- Claim C17, amended.  After a commit with consent given every form is the form
it was with the fourteen property fields upserted, the value of a field being that
of its hidden input (empty when it is missing).  For every form and every property
field of which the form held at most one input before, the form then holds no
input of that name when the value is empty, and else exactly one, with exactly
that value; and for forms that held at most one input of each of the names,
serializing the same values a second time changes nothing. -/
theorem commit_serializes_fields (cfg : Config) (now : String) (s : State)
    (h : termsChecked s = true) :
    (onAddClick cfg now s).forms =
      s.forms.map (fun form =>
        (propertyFields now (onAddClick cfg now s).carriers).foldl upsertField form) ∧
    (∀ (form : Form) (fld : String × String),
      fld ∈ propertyFields now (onAddClick cfg now s).carriers →
      (inputsNamed (propertyName fld.1) form.inputs).length ≤ 1 →
      inputsNamed (propertyName fld.1)
          ((propertyFields now (onAddClick cfg now s).carriers).foldl upsertField form).inputs =
        expectedInputs (propertyName fld.1) fld.2) ∧
    (∀ forms : List Form,
      (∀ form ∈ forms, ∀ fld ∈ propertyFields now (onAddClick cfg now s).carriers,
        (inputsNamed (propertyName fld.1) form.inputs).length ≤ 1) →
      writeForms now (onAddClick cfg now s).carriers
          (writeForms now (onAddClick cfg now s).carriers forms) =
        writeForms now (onAddClick cfg now s).carriers forms) := by
  obtain ⟨-, hc, hf, -⟩ := onAddClick_outputs cfg now s h
  refine ⟨?_, ?_, ?_⟩
  · rw [hf, hc]
    rfl
  · intro form fld hmem hcount
    exact foldl_upsert_named _ (propertyFields_nodup now _) form fld hmem hcount
  · intro forms hforms
    unfold writeForms
    rw [List.map_map]
    apply List.map_congr_left
    intro form hform
    exact foldl_upsert_twice _ (propertyFields_nodup now _) form (hforms form hform)

/-- Witness of `commit_serializes_fields` on the page of scenario A: the form of the
sample page, which held no property input, holds one input for the name, with the
value Alex, and none for the title. -/
theorem commit_serializes_fields_witness :
    termsChecked nameAlex = true ∧
    inputsNamed (propertyName "Embroidery Name")
        ((propertyFields sampleNow (onAddClick sampleConfig sampleNow nameAlex).carriers).foldl
          upsertField ⟨[⟨"id", "42"⟩, ⟨"quantity", "1"⟩]⟩).inputs =
      expectedInputs (propertyName "Embroidery Name") "Alex" ∧
    inputsNamed (propertyName "Embroidery Title")
        ((propertyFields sampleNow (onAddClick sampleConfig sampleNow nameAlex).carriers).foldl
          upsertField ⟨[⟨"id", "42"⟩, ⟨"quantity", "1"⟩]⟩).inputs =
      expectedInputs (propertyName "Embroidery Title") "" :=
  ⟨by decide,
   (commit_serializes_fields sampleConfig sampleNow nameAlex (by decide)).2.1
      ⟨[⟨"id", "42"⟩, ⟨"quantity", "1"⟩]⟩ ("Embroidery Name", "Alex") (by decide) (by decide),
   (commit_serializes_fields sampleConfig sampleNow nameAlex (by decide)).2.1
      ⟨[⟨"id", "42"⟩, ⟨"quantity", "1"⟩]⟩ ("Embroidery Title", "") (by decide) (by decide)⟩

/-! ## Cleanup after add-to-cart -/

/-- The names of the inputs of the fourteen property fields. -/
theorem propertyFields_names (now : String) (c : Carriers) :
    (propertyFields now c).map (fun fld => propertyName fld.1) =
      ["properties[Embroidery]", "properties[Embroidery Type]",
       "properties[Embroidery Title]", "properties[Embroidery Name]",
       "properties[Embroidery Placement]", "properties[Embroidery Font]",
       "properties[Embroidery Color]", "properties[Embroidery Logo File]",
       "properties[Embroidery Logo URL]", "properties[Embroidery Placement Name]",
       "properties[Embroidery Placement Logo]", "properties[Embroidery Color Name]",
       "properties[Embroidery Price]", "properties[Embroidery Instance]"] := by
  simp [propertyFields, propertyName]

/-- The selector of the cleanup matches the name of every property field. -/
theorem propertyFields_prefixed (now : String) (c : Carriers) (fld : String × String)
    (h : fld ∈ propertyFields now c) : isEmbroideryProperty (propertyName fld.1) = true := by
  have hm : propertyName fld.1 ∈ (propertyFields now c).map (fun f => propertyName f.1) :=
    List.mem_map.mpr ⟨fld, h, rfl⟩
  rw [propertyFields_names] at hm
  have hall : ∀ n ∈
      ["properties[Embroidery]", "properties[Embroidery Type]",
       "properties[Embroidery Title]", "properties[Embroidery Name]",
       "properties[Embroidery Placement]", "properties[Embroidery Font]",
       "properties[Embroidery Color]", "properties[Embroidery Logo File]",
       "properties[Embroidery Logo URL]", "properties[Embroidery Placement Name]",
       "properties[Embroidery Placement Logo]", "properties[Embroidery Color Name]",
       "properties[Embroidery Price]", "properties[Embroidery Instance]"],
      isEmbroideryProperty n = true := by
    decide
  exact hall _ hm

/-- The element at the position that `mapAt` changes. -/
theorem mapAt_get?_self {α : Type} (f : α → α) (k : Nat) (l : List α) (x : α)
    (h : l.get? k = some x) : (mapAt f k l).get? k = some (f x) := by
  induction l generalizing k with
  | nil => simp at h
  | cons y rest ih =>
    cases k with
    | zero =>
      simp only [List.get?_cons_zero, Option.some.injEq] at h
      simp [mapAt, h]
    | succ j =>
      simp only [List.get?_cons_succ] at h
      simp only [mapAt, List.get?_cons_succ]
      exact ih j h

/-- The elements at the positions that `mapAt` does not change. -/
theorem mapAt_get?_ne {α : Type} (f : α → α) (k j : Nat) (l : List α) (h : j ≠ k) :
    (mapAt f k l).get? j = l.get? j := by
  induction l generalizing k j with
  | nil => cases k <;> rfl
  | cons y rest ih =>
    cases k with
    | zero =>
      cases j with
      | zero => exact absurd rfl h
      | succ i => rfl
    | succ m =>
      cases j with
      | zero => rfl
      | succ i =>
        simp only [mapAt, List.get?_cons_succ]
        exact ih m i (fun e => h (by rw [e]))

/-- After the removal no input of a name that the selector matches is left. -/
theorem stripEmbroidery_named (form : Form) (name : String)
    (h : isEmbroideryProperty name = true) :
    inputsNamed name (stripEmbroidery form).inputs = [] := by
  simp only [inputsNamed, stripEmbroidery, List.filter_filter, List.filter_eq_nil_iff]
  intro a _ ha
  simp only [Bool.and_eq_true, beq_iff_eq, Bool.not_eq_true'] at ha
  rw [ha.1, h] at ha
  exact absurd ha.2 (by decide)

/-- Claim C21.  The submit event of the add-to-cart form at position `k` hides the
summary and leaves that form without any input of the fourteen property names,
removing inputs only; every other form, and every other part of the page, is as
before. -/
theorem submit_cleanup_strips_form (s : State) (k : Nat) (form : Form)
    (h : s.forms.get? k = some form) :
    (handleAddToCart k s).summary.customSummary =
      s.summary.customSummary.map (fun _ => "none") ∧
    (handleAddToCart k s).forms.get? k = some (stripEmbroidery form) ∧
    (∀ (now : String) (c : Carriers) (fld : String × String), fld ∈ propertyFields now c →
      inputsNamed (propertyName fld.1) (stripEmbroidery form).inputs = []) ∧
    (∀ i ∈ (stripEmbroidery form).inputs, i ∈ form.inputs) ∧
    (∀ j, j ≠ k → (handleAddToCart k s).forms.get? j = s.forms.get? j) ∧
    { handleAddToCart k s with
        summary := { (handleAddToCart k s).summary with
                     customSummary := s.summary.customSummary },
        forms := s.forms } = s := by
  have he : handleAddToCart k s =
      { s with
        summary := { s.summary with
                     customSummary := s.summary.customSummary.map (fun _ => "none") },
        forms := mapAt stripEmbroidery k s.forms } := by
    unfold handleAddToCart
    rw [h]
  rw [he]
  refine ⟨rfl, mapAt_get?_self _ _ _ _ h, ?_, ?_, ?_, rfl⟩
  · intro now c fld hmem
    exact stripEmbroidery_named form _ (propertyFields_prefixed now c fld hmem)
  · intro i hi
    simp only [stripEmbroidery, List.mem_filter] at hi
    exact hi.1
  · intro j hj
    exact mapAt_get?_ne _ _ _ _ hj

/-- Witness of `submit_cleanup_strips_form` on the sample page after a commit: the
cleanup leaves the form with its two own inputs. -/
theorem submit_cleanup_strips_form_witness :
    (committedName.forms.map (fun f => f.inputs.length)) = [12] ∧
    (handleAddToCart 0 committedName).forms.get? 0 =
      some ⟨[⟨"id", "42"⟩, ⟨"quantity", "1"⟩]⟩ ∧
    (handleAddToCart 0 committedName).summary.customSummary = some "none" :=
  ⟨by decide,
   (submit_cleanup_strips_form committedName 0 committedForm (by decide)).2.1.trans
     (by decide),
   (submit_cleanup_strips_form committedName 0 committedForm (by decide)).1.trans
     (by decide)⟩

/-! ## Asset staging client -/

/-- Claim C22.  A run of `uploadLogo` issues its requests in the order Start,
Transfer, Finalize, each after the `fetch` before it has settled.  Without a file
nothing is issued.  When the Start `fetch` fails, or its response is not ok, or its
body is unreadable, null or without an upload URL, only Start is issued.  When
the Start response gives an upload target and the Transfer `fetch` fails or its
response is not ok, Start and Transfer are issued and Finalize is not.  Otherwise
the three are issued. -/
theorem uploadLogo_order (f : File) (a : Reply StartData) (b : Reply Unit)
    (c : Reply FinishData) :
    (uploadLogo none a b c).trace = [] ∧
    (∀ e, a = Reply.failed e →
      (uploadLogo (some f) a b c).trace =
        [Event.sent (startRequest f), Event.settled Phase.start]) ∧
    (∀ r, a = Reply.response r → r.ok = false →
      (uploadLogo (some f) a b c).trace =
        [Event.sent (startRequest f), Event.settled Phase.start]) ∧
    (∀ r, a = Reply.response r → (∀ d, r.body = Body.data d → d.uploadUrl = "") →
      (uploadLogo (some f) a b c).trace =
        [Event.sent (startRequest f), Event.settled Phase.start]) ∧
    (∀ r d, a = Reply.response r → r.ok = true → r.body = Body.data d → d.uploadUrl ≠ "" →
      ((∀ rb, b = Reply.response rb → rb.ok = false) →
        (uploadLogo (some f) a b c).trace =
          [Event.sent (startRequest f), Event.settled Phase.start,
           Event.sent (transferRequest f d), Event.settled Phase.transfer]) ∧
      (∀ rb, b = Reply.response rb → rb.ok = true →
        (uploadLogo (some f) a b c).trace =
          [Event.sent (startRequest f), Event.settled Phase.start,
           Event.sent (transferRequest f d), Event.settled Phase.transfer,
           Event.sent (finishRequest f d), Event.settled Phase.finish])) := by
  refine ⟨rfl, ?_, ?_, ?_, ?_⟩
  · intro e ha
    subst ha
    rfl
  · intro r ha hok
    subst ha
    simp [uploadLogo, hok]
  · intro r ha hno
    subst ha
    unfold uploadLogo
    simp only []
    split
    · rfl
    · split
      · rfl
      · rfl
      · rename_i d hd
        simp [hno d hd, truthy]
  · intro r d ha hok hbody hurl
    subst ha
    have hstart : uploadLogo (some f) (Reply.response r) b c =
        uploadTransfer f d b c [Event.sent (startRequest f), Event.settled Phase.start] := by
      simp [uploadLogo, hok, hbody, truthy, hurl]
    rw [hstart]
    constructor
    · intro hb
      unfold uploadTransfer
      cases b with
      | failed e => rfl
      | response rb => simp [hb rb rfl]
    · intro rb hb hrb
      subst hb
      unfold uploadTransfer
      simp only [hrb, Bool.not_true, Bool.false_eq_true, if_false]
      unfold uploadFinish
      cases c with
      | failed e => rfl
      | response rc =>
        simp only []
        split
        · rfl
        · split
          · rfl
          · rfl
          · split <;> rfl

/-- Claim C23.  The promise of `uploadLogo` resolves exactly when a file is given,
the three replies are responses with a 2xx status, the Start body carries an
upload URL and the Finalize body carries a URL; it then resolves to that URL,
which is not empty.  In every other case it rejects; for a response that is not
ok the message names the phase and ends with the text of the response. -/
theorem uploadLogo_resolves_iff (file : Option File) (a : Reply StartData) (b : Reply Unit)
    (c : Reply FinishData) :
    (∀ u, (uploadLogo file a b c).outcome = Outcome.resolved u ↔
      ∃ f ra d rb rc fd, file = some f ∧
        a = Reply.response ra ∧ ra.ok = true ∧ ra.body = Body.data d ∧ d.uploadUrl ≠ "" ∧
        b = Reply.response rb ∧ rb.ok = true ∧
        c = Reply.response rc ∧ rc.ok = true ∧ rc.body = Body.data fd ∧ fd.url ≠ "" ∧
        u = fd.url) ∧
    (∀ u, (uploadLogo file a b c).outcome = Outcome.resolved u → u ≠ "") ∧
    ((∀ u, (uploadLogo file a b c).outcome ≠ Outcome.resolved u) →
      ∃ m, (uploadLogo file a b c).outcome = Outcome.rejected m) ∧
    (file = none → (uploadLogo file a b c).outcome = Outcome.rejected "No file selected") ∧
    (∀ f ra, file = some f → a = Reply.response ra → ra.ok = false →
      (uploadLogo file a b c).outcome =
        Outcome.rejected ("Upload initiation failed: " ++ ra.text.getD "")) ∧
    (∀ f ra d rb, file = some f → a = Reply.response ra → ra.ok = true →
      ra.body = Body.data d → d.uploadUrl ≠ "" → b = Reply.response rb → rb.ok = false →
      (uploadLogo file a b c).outcome =
        Outcome.rejected ("Upload failed: " ++ rb.text.getD "")) ∧
    (∀ f ra d rb rc, file = some f → a = Reply.response ra → ra.ok = true →
      ra.body = Body.data d → d.uploadUrl ≠ "" → b = Reply.response rb → rb.ok = true →
      c = Reply.response rc → rc.ok = false →
      (uploadLogo file a b c).outcome =
        Outcome.rejected ("Finalize failed: " ++ rc.text.getD "")) := by
  have hiff : ∀ u, (uploadLogo file a b c).outcome = Outcome.resolved u ↔
      ∃ f ra d rb rc fd, file = some f ∧
        a = Reply.response ra ∧ ra.ok = true ∧ ra.body = Body.data d ∧ d.uploadUrl ≠ "" ∧
        b = Reply.response rb ∧ rb.ok = true ∧
        c = Reply.response rc ∧ rc.ok = true ∧ rc.body = Body.data fd ∧ fd.url ≠ "" ∧
        u = fd.url := by
    intro u
    constructor
    · intro h
      cases file with
      | none => simp [uploadLogo] at h
      | some f =>
        cases a with
        | failed e => simp [uploadLogo] at h
        | response ra =>
          obtain ⟨oka, ta, ba⟩ := ra
          cases oka
          · simp [uploadLogo] at h
          · cases ba with
            | unreadable e => simp [uploadLogo] at h
            | null => simp [uploadLogo] at h
            | data d =>
              by_cases hd : d.uploadUrl = ""
              · simp [uploadLogo, truthy, hd] at h
              · cases b with
                | failed e => simp [uploadLogo, uploadTransfer, truthy, hd] at h
                | response rb =>
                  obtain ⟨okb, tb, bb⟩ := rb
                  cases okb
                  · simp [uploadLogo, uploadTransfer, truthy, hd] at h
                  · cases c with
                    | failed e =>
                      simp [uploadLogo, uploadTransfer, uploadFinish, truthy, hd] at h
                    | response rc =>
                      obtain ⟨okc, tc, bc⟩ := rc
                      cases okc
                      · simp [uploadLogo, uploadTransfer, uploadFinish, truthy, hd] at h
                      · cases bc with
                        | unreadable e =>
                          simp [uploadLogo, uploadTransfer, uploadFinish, truthy, hd] at h
                        | null =>
                          simp [uploadLogo, uploadTransfer, uploadFinish, truthy, hd] at h
                        | data fd =>
                          by_cases hf : fd.url = ""
                          · simp [uploadLogo, uploadTransfer, uploadFinish, truthy, hd, hf]
                              at h
                          · simp [uploadLogo, uploadTransfer, uploadFinish, truthy, hd, hf]
                              at h
                            exact ⟨f, ⟨true, ta, Body.data d⟩, d, ⟨true, tb, bb⟩,
                              ⟨true, tc, Body.data fd⟩, fd, rfl, rfl, rfl, rfl, hd, rfl, rfl,
                              rfl, rfl, rfl, hf, h.symm⟩
    · rintro ⟨f, ra, d, rb, rc, fd, hfile, ha, hoka, hba, hd, hb, hokb, hc, hokc, hbc, hf, hu⟩
      subst hfile ha hb hc hu
      simp [uploadLogo, uploadTransfer, uploadFinish, truthy, hoka, hba, hd, hokb, hokc, hbc, hf]
  refine ⟨hiff, ?_, ?_, ?_, ?_, ?_, ?_⟩
  · intro u h
    obtain ⟨f, ra, d, rb, rc, fd, -, -, -, -, -, -, -, -, -, -, hf, hu⟩ := (hiff u).mp h
    rw [hu]
    exact hf
  · intro h
    cases ho : (uploadLogo file a b c).outcome with
    | resolved u => exact absurd ho (h u)
    | rejected m => exact ⟨m, rfl⟩
  · intro hfile
    subst hfile
    rfl
  · intro f ra hfile ha hok
    subst hfile ha
    simp [uploadLogo, hok]
  · intro f ra d rb hfile ha hoka hba hd hb hokb
    subst hfile ha hb
    simp [uploadLogo, uploadTransfer, truthy, hoka, hba, hd, hokb]
  · intro f ra d rb rc hfile ha hoka hba hd hb hokb hc hokc
    subst hfile ha hb hc
    simp [uploadLogo, uploadTransfer, uploadFinish, truthy, hoka, hba, hd, hokb, hokc]

/-- The sample runs: with a denied transfer four events occur and the promise
rejects with the message of the Transfer phase; with three good replies it
resolves to the URL of the Finalize response. -/
theorem uploadLogo_denied_transfer :
    (uploadLogo (some sampleFile) startOk transferDenied finishOk).trace.length = 4 ∧
    (uploadLogo (some sampleFile) startOk transferDenied finishOk).outcome =
      Outcome.rejected "Upload failed: Forbidden" ∧
    (uploadLogo (some sampleFile) startOk transferOk finishOk).outcome =
      Outcome.resolved "https://cdn.example/files/logo.png" := by
  decide

/-! ## File details of the upload widget -/

/-- The part after the last slash of the empty string is empty. -/
theorem lastSegment_empty : lastSegment "" = "" := by decide

/-- A string without a slash is its own last segment. -/
theorem lastSegment_no_slash (x : String) (h : '/' ∉ x.data) : lastSegment x = x := by
  unfold lastSegment
  have ht : x.data.reverse.takeWhile (fun c => c != '/') = x.data.reverse := by
    rw [List.takeWhile_eq_self_iff]
    intro c hc
    have hc2 : c ∈ x.data := List.mem_reverse.mp hc
    simp only [bne_iff_ne, ne_eq]
    intro e
    exact h (e ▸ hc2)
  rw [ht, List.reverse_reverse]

/-- The loop of `getUploaderyFileDetails`: each of the two results is the one it
started from when that was not empty, and else the first one found in the
values. -/
theorem foldl_detailsStep (vals : List String) (d : FileDetails) :
    vals.foldl detailsStep d =
      ⟨if truthy d.fileName then d.fileName else firstName vals,
       if truthy d.fileUrl then d.fileUrl else firstUrl vals⟩ := by
  induction vals generalizing d with
  | nil =>
    cases d with
    | mk n u =>
      simp only [List.foldl_nil, firstName, firstUrl, truthy, List.map_nil, List.find?_nil,
        Option.getD_none, FileDetails.mk.injEq]
      constructor <;> split <;> simp_all
  | cons v rest ih =>
    rw [List.foldl_cons, ih]
    cases d with
    | mk n u =>
      by_cases hv : truthy (jsTrim v) = true
      · by_cases hn : truthy n = true
        · by_cases hu : truthy u = true
          · simp [detailsStep, hv, hn, hu]
          · by_cases hs : includesScheme (jsTrim v) = true
            · simp [detailsStep, hv, hn, hu, hs, firstUrl]
            · simp [detailsStep, hv, hn, hu, hs, firstUrl]
        · by_cases hl : truthy (lastSegment (jsTrim v)) = true
          · by_cases hu : truthy u = true
            · simp [detailsStep, hv, hn, hu, hl, firstName]
            · by_cases hs : includesScheme (jsTrim v) = true
              · simp [detailsStep, hv, hn, hu, hs, hl, firstUrl, firstName]
              · simp [detailsStep, hv, hn, hu, hs, hl, firstUrl, firstName]
          · by_cases hu : truthy u = true
            · simp [detailsStep, hv, hn, hu, hl, firstName]
            · by_cases hs : includesScheme (jsTrim v) = true
              · simp [detailsStep, hv, hn, hu, hs, hl, firstUrl, firstName]
              · simp [detailsStep, hv, hn, hu, hs, hl, firstUrl, firstName]
      · have hl : truthy (lastSegment (jsTrim v)) = false := by
          have he : jsTrim v = "" := by
            simpa [truthy] using hv
          rw [he, lastSegment_empty]
          rfl
        simp [detailsStep, hv, hl, firstUrl, firstName]


/-- When no trimmed value has a non-empty part after its last slash, the part after
the last slash of the first URL is empty. -/
theorem firstName_empty_lastSegment (vals : List String) (h : firstName vals = "") :
    lastSegment (firstUrl vals) = "" := by
  have hall : ∀ v ∈ vals, lastSegment (jsTrim v) = "" := by
    intro v hv
    by_contra hne
    have hex : ∃ x, (vals.map (fun v => lastSegment (jsTrim v))).find? truthy = some x := by
      cases hf : (vals.map (fun v => lastSegment (jsTrim v))).find? truthy with
      | some x => exact ⟨x, rfl⟩
      | none =>
        rw [List.find?_eq_none] at hf
        have := hf (lastSegment (jsTrim v)) (List.mem_map.mpr ⟨v, hv, rfl⟩)
        simp [truthy] at this
        exact absurd this hne
    obtain ⟨x, hx⟩ := hex
    have hx2 : truthy x = true := List.find?_some hx
    unfold firstName at h
    rw [hx] at h
    simp only [Option.getD_some] at h
    rw [h] at hx2
    exact absurd hx2 (by decide)
  unfold firstUrl
  cases hf : (vals.map jsTrim).find? (fun v => truthy v && includesScheme v) with
  | none => exact lastSegment_empty
  | some u =>
    have hm : u ∈ vals.map jsTrim := List.mem_of_find?_eq_some hf
    obtain ⟨v, hv, he⟩ := List.mem_map.mp hm
    simp only [Option.getD_some]
    rw [← he]
    exact hall v hv

/-- Claim C24, the code at the failing input.  On a page whose upload container
holds the single value `uploads/logo.png`, no URL is found and the file name
returned is `logo.png`, the part after the last slash, where the first non-empty
value is `uploads/logo.png`. -/
theorem getUploaderyFileDetails_path_fileName :
    uploaderyValues pathOnly = ["uploads/logo.png"] ∧
    (getUploaderyFileDetails pathOnly).fileUrl = "" ∧
    firstNonEmpty (uploaderyValues pathOnly) = "uploads/logo.png" ∧
    (getUploaderyFileDetails pathOnly).fileName = "logo.png" := by
  decide

/-- What `getUploaderyFileDetails` returns on every page, the hidden values taken
with the visible container first: the URL is the first trimmed non-empty value that
contains `://` (the empty string when there is none); the file name is, whether or
not a URL is found, the part after the last slash of the first trimmed value for
which that part is not empty (the empty string when there is none); and when no
value contains a slash that file name is the first non-empty trimmed value. -/
theorem getUploaderyFileDetails_first (s : State) :
    (getUploaderyFileDetails s).fileUrl = firstUrl (uploaderyValues s) ∧
    (getUploaderyFileDetails s).fileName = firstName (uploaderyValues s) ∧
    ((∀ v ∈ uploaderyValues s, '/' ∉ (jsTrim v).data) →
      (getUploaderyFileDetails s).fileName = firstNonEmpty (uploaderyValues s)) := by
  have hfold := foldl_detailsStep (uploaderyValues s) ⟨"", ""⟩
  have h0 : truthy "" = false := by decide
  simp only [h0, Bool.false_eq_true, if_false] at hfold
  have hu : (getUploaderyFileDetails s).fileUrl = firstUrl (uploaderyValues s) := by
    unfold getUploaderyFileDetails
    simp only [hfold]
    split <;> rfl
  have hn : (getUploaderyFileDetails s).fileName = firstName (uploaderyValues s) := by
    unfold getUploaderyFileDetails
    simp only [hfold]
    split
    · rename_i hc
      simp only [Bool.and_eq_true, Bool.not_eq_true', truthy, bne_eq_false_iff_eq] at hc
      show lastSegment (firstUrl (uploaderyValues s)) = firstName (uploaderyValues s)
      rw [hc.2]
      exact firstName_empty_lastSegment _ hc.2
    · rfl
  refine ⟨hu, hn, ?_⟩
  intro hns
  rw [hn]
  unfold firstName firstNonEmpty
  have hmap : (uploaderyValues s).map (fun v => lastSegment (jsTrim v)) =
      (uploaderyValues s).map jsTrim := by
    apply List.map_congr_left
    intro v hv
    exact lastSegment_no_slash _ (hns v hv)
  rw [hmap]

/-! ## Text preview -/

/-- With both previews on the page and a type other than Logo selected,
`updatePreview` leaves the text preview as `renderText` composes it. -/
theorem updatePreview_previewEl (s : State) (hp : s.previewEl.isSome = true)
    (hl : s.logoPreview.isSome = true) (ht : getType s = "name" ∨ getType s = "both") :
    ∃ pv, s.previewEl = some pv ∧
      (updatePreview s).previewEl = some (renderText s { pv with display := "" }) := by
  cases hpv : s.previewEl with
  | none =>
    rw [hpv] at hp
    cases hp
  | some pv =>
    cases hlp : s.logoPreview with
    | none =>
      rw [hlp] at hl
      cases hl
    | some lp =>
      refine ⟨pv, rfl, ?_⟩
      have h1 : (!truthy (getType s)) = false := by
        rcases ht with ht | ht <;> rw [ht] <;> decide
      have h2 : (getType s == "logo") = false := by
        rcases ht with ht | ht <;> rw [ht] <;> decide
      unfold updatePreview
      rw [hpv, hlp]
      simp only [h1, h2, Bool.false_eq_true, if_false]

/-- The text that `renderText` writes is `previewText`. -/
theorem renderText_textContent (s : State) (pv : PreviewEl) :
    (renderText s pv).textContent = previewText s := by
  unfold renderText placeText
  simp only []
  split <;> split <;> split <;> (try split) <;> rfl

/-- The zone classes that `renderText` leaves: that of the selected placement, or
none when no placement is selected. -/
theorem renderText_zoneClasses (s : State) (pv : PreviewEl) :
    zoneClasses (renderText s pv) =
      if getSelected s.placementNameRadios = "" then []
      else [zoneOf (normalizePlacement (getSelected s.placementNameRadios))] := by
  unfold renderText
  generalize previewText s = t
  generalize getType s = ty
  generalize getSelected s.placementNameRadios = p
  generalize getSelected s.colorNameRadios = c
  generalize getSelected s.fontNameRadios = f
  rcases pv with ⟨d, tc, tp, zl, zc, zr, co, ff⟩
  unfold placeText zoneClasses
  by_cases hp : p = ""
  · have hp2 : truthy p = false := by
      rw [hp]
      rfl
    by_cases hc : truthy c = true <;> by_cases hf : truthy f = true <;>
      simp only [hp, hp2, hc, hf, if_true, if_false, Bool.false_eq_true] <;> rfl
  · have hp2 : truthy p = true := by
      unfold truthy
      simpa using hp
    by_cases hc : truthy c = true <;> by_cases hf : truthy f = true <;>
      simp only [hp, hp2, hc, hf, if_true, if_false, Bool.false_eq_true] <;>
      cases zoneOf (normalizePlacement p) <;> rfl

/-- The text that `updatePreview` composes is that of the specification. -/
theorem previewText_eq_composedText (s : State) :
    previewText s =
      composedText (jsTrim (s.nameInput.getD "")) (jsTrim (s.titleInput.getD "")) := by
  unfold previewText composedText truthy
  generalize jsTrim (s.nameInput.getD "") = n
  generalize jsTrim (s.titleInput.getD "") = t
  have hne : n ++ "\n" ++ t ≠ "" := by
    intro h
    have hlen := congrArg String.length h
    simp only [String.length_append] at hlen
    have h1 : "\n".length = 1 := by decide
    have h0 : "".length = 0 := by decide
    omega
  by_cases hn : n = "" <;> by_cases ht : t = "" <;> simp [hn, ht, hne]

/-- The `switch` of the preview functions sends `left-chest` and `right-chest` to
their zones and every other string to the center zone. -/
theorem zoneOf_eq_zoneNamed (n : String) : zoneOf n = zoneNamed n := by
  unfold zoneOf zoneNamed
  by_cases h1 : n = "left-chest"
  · simp [h1]
  · by_cases h2 : n = "right-chest"
    · rw [h2]
      decide
    · by_cases h3 : (n == "center" || n == "centre") = true
      · simp [h1, h2, h3]
      · simp [h1, h2, h3]

/-- Claim C25, counterexample.  On a page that has the text preview but no image
overlay `#logoPreview`, with the Name type selected and the name Alex typed, the
text preview is shown and `updatePreview` leaves its text empty. -/
theorem previewText_without_logo_image_counterexample :
    getType noLogoPreview = "name" ∧ noLogoPreview.nameInput = some "Alex" ∧
    noLogoPreview.titleInput = some "" ∧
    noLogoPreview.previewEl.map (fun q => q.display) = some "" ∧
    (updatePreview noLogoPreview).previewEl.map (fun q => q.textContent) = some "" := by
  decide

/-- Claim C25, amended.  On a page that has both the text preview and the image
overlay, with the type Name or Both selected, the text of the preview after
`updatePreview` is composed from the trimmed name and the trimmed title: the name,
a newline and the title when neither is empty, the single one that is not empty,
and the placeholder `Your Name` when both are empty. -/
theorem updatePreview_text (s : State) (hp : s.previewEl.isSome = true)
    (hl : s.logoPreview.isSome = true) (ht : getType s = "name" ∨ getType s = "both") :
    (updatePreview s).previewEl.map (fun q => q.textContent) =
      some (composedText (jsTrim (s.nameInput.getD "")) (jsTrim (s.titleInput.getD ""))) := by
  obtain ⟨pv, -, h⟩ := updatePreview_previewEl s hp hl ht
  rw [h, Option.map_some', renderText_textContent, previewText_eq_composedText]

/-- Claim C25, witness: the name and the title typed with white space around them
on the sample page give the two trimmed lines, name first. -/
theorem updatePreview_text_witness :
    nameAndTitle.previewEl.isSome = true ∧ nameAndTitle.logoPreview.isSome = true ∧
    getType nameAndTitle = "name" ∧
    nameAndTitle.nameInput = some " Alex" ∧ nameAndTitle.titleInput = some "Dr " ∧
    (updatePreview nameAndTitle).previewEl.map (fun q => q.textContent) = some "Alex\nDr" :=
  ⟨by decide, by decide, by decide, by decide, by decide,
    (updatePreview_text nameAndTitle (by decide) (by decide) (Or.inl (by decide))).trans
      (by decide)⟩

/-- Claim C26, counterexample.  On the page with the Name type selected and no
radio of the name placement group checked, the text preview carries none of the
three zone classes after `updatePreview`. -/
theorem previewZone_without_placement_counterexample :
    getType noPlacement = "name" ∧ getSelected noPlacement.placementNameRadios = "" ∧
    noPlacement.logoPreview.isSome = true ∧
    (updatePreview noPlacement).previewEl.map zoneClasses = some [] := by
  decide

/-- Claim C26, amended.  On a page that has both the text preview and the image
overlay, with the type Name or Both selected, the text preview after
`updatePreview` carries no zone class when no name placement is selected (or the
selected value is empty), and otherwise exactly one: that of the selected value
lower-cased with each run of white space replaced by a dash, which is the left
chest for `left-chest`, the right chest for `right-chest` and the center for every
other string. -/
theorem updatePreview_zone (s : State) (hp : s.previewEl.isSome = true)
    (hl : s.logoPreview.isSome = true) (ht : getType s = "name" ∨ getType s = "both") :
    (updatePreview s).previewEl.map zoneClasses =
      some (if getSelected s.placementNameRadios = "" then []
            else [zoneNamed (normalizePlacement (getSelected s.placementNameRadios))]) := by
  obtain ⟨pv, -, h⟩ := updatePreview_previewEl s hp hl ht
  rw [h, Option.map_some', renderText_zoneClasses]
  simp only [zoneOf_eq_zoneNamed]

/-- Claim C26, witness: with the Both type and the placement `Right Chest` chosen on
the sample page, the text preview carries the right-chest class alone. -/
theorem updatePreview_zone_witness :
    bothRightChest.previewEl.isSome = true ∧ bothRightChest.logoPreview.isSome = true ∧
    getType bothRightChest = "both" ∧
    getSelected bothRightChest.placementNameRadios = "Right Chest" ∧
    (updatePreview bothRightChest).previewEl.map zoneClasses = some [Zone.rightChest] :=
  ⟨by decide, by decide, by decide, by decide,
    (updatePreview_zone bothRightChest (by decide) (by decide) (Or.inr (by decide))).trans
      (by decide)⟩


/-! ## Idempotence of the recomputations -/

/-- The function `syncGuard` writes the overlay, the disabled flag of the Add
button, the error element and the classes of its wrapper, each from its value
before, the consent checkbox and the layout. -/
theorem syncGuard_eq (s : State) :
    syncGuard s =
      { s with guard := synced s.rootDisplay s.actionsDisplay s.layout s.terms s.guard,
               btnAddDisabled := !(s.terms == some true),
               termsError := syncedError s.terms s.termsWrap s.termsError,
               termsWrap := syncedWrap s.terms s.termsWrap s.termsError } := by
  unfold syncGuard positionGuard showTermsError synced boxed syncedError syncedWrap
    hiddenError calmWrap termsChecked
  by_cases hv : (s.rootDisplay == "none" || s.actionsDisplay == "none") = true
  · simp only [hv, if_true]
    by_cases ht : (s.terms == some true) = true
    · simp only [ht, Bool.not_true, Bool.false_eq_true, if_false, Bool.not_false, if_true]
      split <;> simp_all
    · simp only [ht, Bool.not_eq_true] at ht ⊢
      simp [ht]
  · simp only [hv, if_false]
    cases hl : s.layout with
    | none =>
      by_cases ht : (s.terms == some true) = true
      · simp only [ht, Bool.not_true, Bool.false_eq_true, if_false, Bool.not_false, if_true]
        split <;> simp_all
      · simp only [Bool.not_eq_true] at ht
        simp [ht, hl]
    | some b =>
      by_cases ht : (s.terms == some true) = true
      · simp only [ht, Bool.not_true, Bool.false_eq_true, if_false, Bool.not_false, if_true]
        split <;> simp_all
      · simp only [Bool.not_eq_true] at ht
        simp [ht, hl]

/-- The overlay of `syncGuard` is a fixed point of it. -/
theorem synced_idem (root actions : String) (layout : Option Geometry) (terms : Option Bool)
    (g : Guard) :
    synced root actions layout terms (synced root actions layout terms g)
      = synced root actions layout terms g := by
  unfold synced boxed
  split
  · rfl
  · cases layout <;> rfl

/-- The error element of `syncGuard` is a fixed point of it. -/
theorem syncedError_idem (terms : Option Bool) (w : Option TermsWrap) (e : Option String) :
    syncedError terms (syncedWrap terms w e) (syncedError terms w e) = syncedError terms w e := by
  unfold syncedError syncedWrap hiddenError calmWrap
  split
  · cases w <;> cases e <;> rfl
  · rfl

/-- The wrapper classes of `syncGuard` are a fixed point of it. -/
theorem syncedWrap_idem (terms : Option Bool) (w : Option TermsWrap) (e : Option String) :
    syncedWrap terms (syncedWrap terms w e) (syncedError terms w e) = syncedWrap terms w e := by
  unfold syncedError syncedWrap hiddenError calmWrap
  split
  · cases w <;> cases e <;> rfl
  · rfl

/-- The function `syncGuard` is idempotent. -/
theorem syncGuard_idem (s : State) : syncGuard (syncGuard s) = syncGuard s := by
  rw [syncGuard_eq (syncGuard s), syncGuard_eq s]
  simp only [synced_idem, syncedError_idem, syncedWrap_idem]

/-- The disabled flag of the Add button before `syncGuard` does not count. -/
theorem syncGuard_btnAdd_irrelevant (s : State) (b : Bool) :
    syncGuard { s with btnAddDisabled := b } = syncGuard s := by
  rw [syncGuard_eq, syncGuard_eq]


/-- The selected type, the native file and the logo image of `updateLogoPreview`
depend on the inputs only. -/
theorem logoImage_congr (a b : State) (h : inputs a = inputs b) :
    getType a = getType b ∧ localFile a = localFile b ∧ logoImage a = logoImage b := by
  simp only [inputs, Inputs.mk.injEq] at h
  obtain ⟨h1, -, -, -, -, -, -, -, h9, h10, h11, h12⟩ := h
  have ht : getType a = getType b := by
    unfold getType
    rw [h1]
  have hd := (uploadery_congr a b h11 h12).2.2
  refine ⟨ht, ?_, ?_⟩
  · unfold localFile
    rw [h10]
  · funext lp
    unfold logoImage
    rw [ht, hd, h9]

/-- The text preview and the logo image of `updatePreview` depend on the inputs
only. -/
theorem textImage_congr (a b : State) (h : inputs a = inputs b) :
    textImage a = textImage b ∧ previewLogo a = previewLogo b := by
  obtain ⟨ht, -, hi⟩ := logoImage_congr a b h
  simp only [inputs, Inputs.mk.injEq] at h
  obtain ⟨-, -, -, h4, h5, h6, h7, h8, -, -, -, -⟩ := h
  constructor
  · funext pv
    unfold textImage renderText previewText
    rw [ht, h4, h5, h6, h7, h8]
  · funext lp
    unfold previewLogo
    rw [ht, hi]

/-- Placing the logo image twice is placing it once. -/
theorem logoImage_idem (s : State) (lp : LogoPreview) :
    logoImage s (logoImage s lp) = logoImage s lp := by
  unfold logoImage placeLogo
  split
  · rfl
  · split
    · simp only []
      split
      · split <;> rfl
      · rfl
    · rfl

/-- Rendering the text preview twice is rendering it once. -/
theorem renderText_idem (s : State) (pv : PreviewEl) :
    renderText s { renderText s pv with display := "" } = renderText s { pv with display := "" } := by
  unfold renderText
  generalize previewText s = t
  generalize getType s = ty
  generalize getSelected s.placementNameRadios = p
  generalize getSelected s.colorNameRadios = c
  generalize getSelected s.fontNameRadios = f
  rcases pv with ⟨d, tc, tp, zl, zc, zr, co, ff⟩
  unfold placeText
  by_cases hp : truthy p = true <;> by_cases hc : truthy c = true <;>
    by_cases hf : truthy f = true <;> simp only [hp, hc, hf, if_true, if_false, Bool.false_eq_true] <;>
    (try cases zoneOf (normalizePlacement p)) <;> rfl

/-- The text preview of `updatePreview` is a fixed point of it. -/
theorem textImage_idem (s : State) (pv : PreviewEl) :
    textImage s (textImage s pv) = textImage s pv := by
  unfold textImage
  split
  · rfl
  · split
    · rfl
    · exact renderText_idem s { pv with display := "" }

/-- The logo image of `updatePreview` is a fixed point of it. -/
theorem previewLogo_idem (s : State) (lp : LogoPreview) :
    previewLogo s (previewLogo s lp) = previewLogo s lp := by
  unfold previewLogo
  split
  · rfl
  · split
    · exact logoImage_idem s lp
    · split
      · exact logoImage_idem s lp
      · rfl

/-- The function `updateLogoPreview` does nothing without a logo image. -/
theorem updateLogoPreview_absent (s : State) (hl : s.logoPreview = none) :
    updateLogoPreview s = s := by
  unfold updateLogoPreview
  rw [hl]

/-- The function `updateLogoPreview` without a native file writes the logo
image only. -/
theorem updateLogoPreview_eq (s : State) (lp : LogoPreview) (h : localFile s = none)
    (hl : s.logoPreview = some lp) :
    updateLogoPreview s = { s with logoPreview := some (logoImage s lp) } := by
  unfold updateLogoPreview logoImage
  rw [hl, h]
  simp only []
  split
  · rfl
  · split <;> rfl

/-- The function `updateLogoPreview` is idempotent without a native file. -/
theorem updateLogoPreview_idem (s : State) (h : localFile s = none) :
    updateLogoPreview (updateLogoPreview s) = updateLogoPreview s := by
  cases hl : s.logoPreview with
  | none => rw [updateLogoPreview_absent s hl, updateLogoPreview_absent s hl]
  | some lp =>
    rw [updateLogoPreview_eq s lp h hl]
    rw [updateLogoPreview_eq { s with logoPreview := some (logoImage s lp) } (logoImage s lp) h rfl]
    have e : logoImage { s with logoPreview := some (logoImage s lp) } = logoImage s :=
      (logoImage_congr _ s rfl).2.2
    rw [e, logoImage_idem]

/-- The function `updatePreview` does nothing unless both previews exist. -/
theorem updatePreview_absent (s : State) (h : s.previewEl = none ∨ s.logoPreview = none) :
    updatePreview s = s := by
  unfold updatePreview
  split
  · rename_i pv lp hp hl
    rcases h with h | h
    · rw [h] at hp
      cases hp
    · rw [h] at hl
      cases hl
  · rfl

/-- The function `updatePreview` without a native file writes the two previews
only. -/
theorem updatePreview_eq (s : State) (pv : PreviewEl) (lp : LogoPreview)
    (h : localFile s = none) (hp : s.previewEl = some pv) (hl : s.logoPreview = some lp) :
    updatePreview s =
      { s with previewEl := some (textImage s pv), logoPreview := some (previewLogo s lp) } := by
  unfold updatePreview textImage previewLogo
  rw [hp, hl]
  simp only []
  split
  · rfl
  · split
    · rw [updateLogoPreview_eq
        { s with previewEl := some { pv with display := "none" }, logoPreview := some lp }
        lp h rfl]
      have e : logoImage
          { s with previewEl := some { pv with display := "none" }, logoPreview := some lp }
          = logoImage s :=
        (logoImage_congr _ s rfl).2.2
      rw [e]
    · split
      · rw [updateLogoPreview_eq
          { s with previewEl := some { pv with display := "" }, logoPreview := some lp }
          lp h rfl]
        have e : logoImage
            { s with previewEl := some { pv with display := "" }, logoPreview := some lp }
            = logoImage s :=
          (logoImage_congr _ s rfl).2.2
        rw [e]
      · rfl

/-- The function `updatePreview` is idempotent without a native file. -/
theorem updatePreview_idem (s : State) (h : localFile s = none) :
    updatePreview (updatePreview s) = updatePreview s := by
  cases hp : s.previewEl with
  | none =>
    rw [updatePreview_absent s (Or.inl hp), updatePreview_absent s (Or.inl hp)]
  | some pv =>
    cases hl : s.logoPreview with
    | none =>
      rw [updatePreview_absent s (Or.inr hl), updatePreview_absent s (Or.inr hl)]
    | some lp =>
      rw [updatePreview_eq s pv lp h hp hl]
      rw [updatePreview_eq
        { s with previewEl := some (textImage s pv), logoPreview := some (previewLogo s lp) }
        (textImage s pv) (previewLogo s lp) h rfl rfl]
      have e := textImage_congr
        { s with previewEl := some (textImage s pv), logoPreview := some (previewLogo s lp) }
        s rfl
      rw [e.1, e.2, textImage_idem, previewLogo_idem]

/-- The function `updateLogoPreview` without a native file commutes with
`syncGuard`. -/
theorem updateLogoPreview_syncGuard (s : State) (h : localFile s = none) :
    updateLogoPreview (syncGuard s) = syncGuard (updateLogoPreview s) := by
  have hi := logoImage_congr (syncGuard s) s (syncGuard_inputs s)
  cases hl : s.logoPreview with
  | none =>
    rw [updateLogoPreview_absent s hl]
    apply updateLogoPreview_absent
    rw [syncGuard_eq]
    exact hl
  | some lp =>
    have hl2 : (syncGuard s).logoPreview = some lp := by
      rw [syncGuard_eq]
      exact hl
    rw [updateLogoPreview_eq (syncGuard s) lp (hi.2.1.trans h) hl2, hi.2.2,
      updateLogoPreview_eq s lp h hl, syncGuard_eq, syncGuard_eq]

/-- The function `updateAddState` is `syncGuard` after the refresh of the logo
image: the value it writes to the disabled flag of the Add button is overwritten. -/
theorem updateAddState_eq (s : State) :
    updateAddState s =
      syncGuard (if getType s == "logo" || getType s == "both" then updateLogoPreview s else s) := by
  unfold updateAddState
  simp only []
  rw [syncGuard_btnAdd_irrelevant]

/-- The function `updateAddState` is idempotent without a native file. -/
theorem updateAddState_idem (s : State) (h : localFile s = none) :
    updateAddState (updateAddState s) = updateAddState s := by
  rw [updateAddState_eq (updateAddState s), updateAddState_eq s]
  by_cases ht : (getType s == "logo" || getType s == "both") = true
  · have h1 := logoImage_congr (updateLogoPreview s) s (updateLogoPreview_inputs s)
    have h2 := logoImage_congr (syncGuard (updateLogoPreview s)) (updateLogoPreview s)
      (syncGuard_inputs _)
    have ht2 : (getType (syncGuard (updateLogoPreview s)) == "logo"
        || getType (syncGuard (updateLogoPreview s)) == "both") = true := by
      rw [h2.1, h1.1]
      exact ht
    rw [if_pos ht, if_pos ht2]
    rw [updateLogoPreview_syncGuard _ (h1.2.1.trans h), updateLogoPreview_idem s h, syncGuard_idem]
  · have h2 := logoImage_congr (syncGuard s) s (syncGuard_inputs _)
    have ht2 : ¬ (getType (syncGuard s) == "logo" || getType (syncGuard s) == "both") = true := by
      rw [h2.1]
      exact ht
    rw [if_neg ht, if_neg ht2]
    exact syncGuard_idem s


/-- With a file in the native file input the recomputation is not idempotent in
the reads it starts: each call of `updateAddState` with the Logo type selected
starts one more read of the file. -/
theorem updateAddState_local_file_reads :
    localFile logoLocalFile = some sampleFile ∧
    (updateAddState (updateAddState logoLocalFile)).pendingReads =
      (updateAddState logoLocalFile).pendingReads ++ [sampleFile] := by
  decide

/-- Claim C27.  On every page where the native file input holds no file, so that
no asynchronous read is started, `updatePreview`, `updateAddState` and `syncGuard`
are idempotent: the page after two calls in a row is the page after one. -/
theorem recomputations_idempotent (s : State) (h : localFile s = none) :
    updatePreview (updatePreview s) = updatePreview s ∧
    updateAddState (updateAddState s) = updateAddState s ∧
    syncGuard (syncGuard s) = syncGuard s :=
  ⟨updatePreview_idem s h, updateAddState_idem s h, syncGuard_idem s⟩

/-- Claim C27, witness: the page with the Logo type selected and a logo uploaded
through the widget. -/
theorem recomputations_idempotent_witness :
    localFile logoUploaded = none ∧
    updatePreview (updatePreview logoUploaded) = updatePreview logoUploaded ∧
    updateAddState (updateAddState logoUploaded) = updateAddState logoUploaded ∧
    syncGuard (syncGuard logoUploaded) = syncGuard logoUploaded :=
  ⟨by decide, recomputations_idempotent logoUploaded (by decide)⟩


end EmbroideryPopup
